import Mathlib

/-!
Verification of the clutchlaps scraper/loader against its design notes.

The two source artefacts embedded here are:
  * `scraper_container/ekstraligapl/spiders/ekstraliga_match.py` — the
    fetch-batch completion tracker kept in `pending_match_requests` /
    `start_url_meta`, whose completion handling lives in the `finally`
    block of `parse_match_details`;
  * `scraper_container/pipeline/data_transformer.py` — the per-document
    transform-and-load pipeline (value parsers, get-or-create resolution,
    team merge logic, upserts into the relational tables, commit/rollback
    and the move of processed files).

Machine integers are modelled as `Nat`/`Int` (Python integers are
unbounded).  Database tables are modelled as association lists of
`(surrogate id, key, value)` rows; the PostgreSQL `ON CONFLICT` arbiter
semantics — in particular that NULLs never conflict — is modelled by the
`solid` predicate of `KTable.upsertS`.  Code that can raise returns
`Except`, with the error carrying the partially written state so that
rollback can be stated.
-/

namespace Clutchlaps

/-! ## Python-level value helpers -/

/-- Python truthiness of an optional string: `None` and `""` are falsy. -/
def pyTruthy : Option String → Bool
  | none => false
  | some s => s ≠ ""

/-- Python `str.strip` on a character list. -/
def pyStripList (l : List Char) : List Char :=
  ((l.dropWhile Char.isWhitespace).reverse.dropWhile Char.isWhitespace).reverse

/-- Python `str.strip`. -/
def pyStrip (s : String) : String :=
  (pyStripList s.toList).asString

/-- Python `str.upper` (the scraped tokens are ASCII). -/
def pyUpper (s : String) : String :=
  (s.toList.map Char.toUpper).asString

/-- Python `str.isdigit`: non-empty and all characters are digits. -/
def pyIsdigit (s : String) : Bool :=
  !s.toList.isEmpty && s.toList.all Char.isDigit

/-- Numeric value of a digit-character list. -/
def digitsVal (l : List Char) : Nat :=
  l.foldl (fun acc c => acc * 10 + (c.toNat - 48)) 0

/-- Numeric value of a digit string (used after an `isdigit` check). -/
def natOfDigits (s : String) : Nat :=
  digitsVal s.toList

/-- Split a character list on a separator character. -/
def splitListOn (sep : Char) : List Char → List (List Char)
  | [] => [[]]
  | x :: xs =>
      let r := splitListOn sep xs
      if x = sep then [] :: r
      else
        match r with
        | [] => [[x]]
        | h :: t => (x :: h) :: t

/-- Remove every occurrence of the (non-empty) pattern from the list;
the fuel argument is the list length, consumed one unit per step. -/
def removeAllAux : Nat → List Char → List Char → List Char
  | 0, l, _ => l
  | _ + 1, [], _ => []
  | fuel + 1, c :: cs, pat =>
      if pat.isPrefixOf (c :: cs) && !pat.isEmpty then
        removeAllAux fuel (cs.drop (pat.length - 1)) pat
      else c :: removeAllAux fuel cs pat

/-- Python `str.replace(pat, "")`: delete every occurrence of `pat`. -/
def pyRemoveSub (s pat : String) : String :=
  (removeAllAux s.toList.length s.toList pat.toList).asString

/-- Python `int(str)`: optional sign followed by digits (common subset). -/
def pythonIntParse (s : String) : Option Int :=
  match pyStripList s.toList with
  | '-' :: rest =>
      if rest ≠ [] ∧ rest.all Char.isDigit then some (-(digitsVal rest : Nat) : Int)
      else none
  | '+' :: rest =>
      if rest ≠ [] ∧ rest.all Char.isDigit then some ((digitsVal rest : Nat) : Int)
      else none
  | l =>
      if l ≠ [] ∧ l.all Char.isDigit then some ((digitsVal l : Nat) : Int)
      else none

/-- The apostrophe character, the bonus marker of raw score tokens. -/
def apos : Char := Char.ofNat 39

/-- Python `float(str)` acceptance on the telemetry value domain:
optional sign, then digits with at most one decimal point and at least
one digit.  (Exponents and the `inf`/`nan` spellings do not occur in the
scraped values and are not modelled.) -/
def pythonFloatOk (s : String) : Bool :=
  let body :=
    match s.toList with
    | '-' :: rest => rest
    | '+' :: rest => rest
    | l => l
  match splitListOn '.' body with
  | [intPart] => !intPart.isEmpty && intPart.all Char.isDigit
  | [intPart, fracPart] =>
      (!intPart.isEmpty || !fracPart.isEmpty) &&
        intPart.all Char.isDigit && fracPart.all Char.isDigit
  | _ => false

/-- `parse_telemetry_value` (data_transformer.py:10-20): strip the unit
suffixes and whitespace, then parse as a float.  A parsed float is
represented by its cleaned literal string; `none` is Python `None`. -/
def parse_telemetry_value (value_str : Option String) : Option String :=
  match value_str with
  | none => none
  | some s =>
      if pyStrip s = "" then none
      else
        let numeric := pyStrip (pyRemoveSub (pyRemoveSub (pyRemoveSub s " s") " m") " km/h")
        if pythonFloatOk numeric then some numeric else none

/-- `parse_score` (data_transformer.py:98-120): strip the bonus marker
(apostrophe) recording a bonus flag, try an integer parse, otherwise the
uppercased marker-stripped token is the accident code with 0 points. -/
def parse_score (score_raw : Option String) : Int × Bool × Option String :=
  match score_raw with
  | none => (0, false, none)
  | some raw =>
      if raw = "" ∨ pyStrip raw = "" then (0, false, none)
      else
        let score_str := pyUpper (pyStrip raw)
        let with_bonus := score_str.toList.contains apos
        let score_str := if with_bonus then
            (score_str.toList.filter (fun c => c ≠ apos)).asString
          else score_str
        match pythonIntParse score_str with
        | some n => (n, with_bonus, none)
        | none => (0, with_bonus, some score_str)

/-- `datetime.strptime(s, "%d.%m.%Y %H:%M")` (data_transformer.py:341):
result represented as (day, month, year, hour, minute). -/
def parseMatchDate (s : String) : Option (Nat × Nat × Nat × Nat × Nat) :=
  match splitListOn ' ' s.toList with
  | [dpart, tpart] =>
      match splitListOn '.' dpart, splitListOn ':' tpart with
      | [d, m, y], [h, mi] =>
          if [d, m, y, h, mi].all (fun l => !l.isEmpty && l.all Char.isDigit) then
            let dv := digitsVal d
            let mv := digitsVal m
            let hv := digitsVal h
            let miv := digitsVal mi
            if 1 ≤ dv && dv ≤ 31 && 1 ≤ mv && mv ≤ 12 && hv ≤ 23 && miv ≤ 59 then
              some (dv, mv, digitsVal y, hv, miv)
            else none
          else none
      | _, _ => none
  | _ => none

/-! ## Fetch-batch completion tracker (ekstraliga_match.py)

`pending` is the `pending_match_requests[starting_url]` set,
`fireCount` counts executions of the batch-completion block
(ekstraliga_match.py:597-617), and `markWrites` counts the durable
`UPDATE public.data_source SET is_scraped = true` writes
(ekstraliga_match.py:605).  `isCurrent` is the `is_current_season` flag
captured in `start_url_meta` (it may be absent, hence `Option Bool`). -/

structure TrackerState where
  pending : List String
  fireCount : Nat
  markWrites : Nat
deriving Repr, DecidableEq

/-- One pass through the `finally` block of `parse_match_details`
(ekstraliga_match.py:588-628) for one child `match_url`: remove the
child from the pending set (a missing child raises `KeyError`, which is
caught and only logged, skipping the completion check); when the removal
empties the set, run the completion block, which durably marks the batch
only when `is_current is False`. -/
def completeChild (isCurrent : Option Bool) (st : TrackerState) (child : String) :
    TrackerState :=
  if child ∈ st.pending then
    let pending' := st.pending.erase child
    if pending' = [] then
      { pending := pending'
        fireCount := st.fireCount + 1
        markWrites :=
          if isCurrent = some false then st.markWrites + 1 else st.markWrites }
    else
      { st with pending := pending' }
  else st

/-- Fold a sequence of child-completion events through the tracker. -/
def runCompletions (isCurrent : Option Bool) (st : TrackerState)
    (events : List String) : TrackerState :=
  events.foldl (completeChild isCurrent) st

/-- The tracker state right after `parse` registered the batch's
children (ekstraliga_match.py:188-196): full pending set, no completion
fired, no durable write issued. -/
def openBatch (children : List String) : TrackerState :=
  { pending := children, fireCount := 0, markWrites := 0 }

/-! ## Relational store model (data_transformer.py)

Tables are association lists of `(surrogate id, key, value)` rows plus a
serial counter.  `upsertS` embeds `INSERT ... ON CONFLICT (key) DO
UPDATE ... RETURNING id` under the PostgreSQL arbiter rule that a key
containing a NULL component never conflicts; `solid` says whether the
key has no NULL component. -/

structure KTable (κ α : Type) where
  rows : List (Nat × κ × α)
  nextId : Nat
deriving Repr, DecidableEq

def KTable.mkEmpty {κ α : Type} : KTable κ α := ⟨[], 1⟩

/-- Does a row conflict with key `k`: equal key, and the key solid. -/
def keyPred {κ α : Type} [DecidableEq κ] (solid : κ → Bool) (k : κ) :
    Nat × κ × α → Bool :=
  fun r => decide (r.2.1 = k) && solid k

/-- First row conflicting with key `k`. -/
def KTable.findKey {κ α : Type} [DecidableEq κ] (solid : κ → Bool)
    (t : KTable κ α) (k : κ) : Option (Nat × κ × α) :=
  t.rows.find? (keyPred solid k)

/-- Replace the value columns of the first row conflicting with `k`. -/
def replaceVal {κ α : Type} [DecidableEq κ] (solid : κ → Bool) :
    List (Nat × κ × α) → κ → α → List (Nat × κ × α)
  | [], _, _ => []
  | r :: rs, k, a =>
      if keyPred solid k r then (r.1, r.2.1, a) :: rs
      else r :: replaceVal solid rs k a

/-- `INSERT ... ON CONFLICT (key) DO UPDATE SET … RETURNING id`. -/
def KTable.upsertS {κ α : Type} [DecidableEq κ] (solid : κ → Bool)
    (t : KTable κ α) (k : κ) (a : α) : Nat × KTable κ α :=
  match t.findKey solid k with
  | some r => (r.1, ⟨replaceVal solid t.rows k a, t.nextId⟩)
  | none => (t.nextId, ⟨t.rows ++ [(t.nextId, k, a)], t.nextId + 1⟩)

/-- `execute_values` of an upsert with `RETURNING`: row upserts applied
in order, collecting the returned ids. -/
def KTable.upsertMany {κ α : Type} [DecidableEq κ] (solid : κ → Bool) :
    KTable κ α → List (κ × α) → List Nat × KTable κ α
  | t, [] => ([], t)
  | t, (k, a) :: rest =>
      let (i, t') := KTable.upsertS solid t k a
      let (is, t'') := KTable.upsertMany solid t' rest
      (i :: is, t'')

/-- Simple name-keyed lookup tables (arenas, competitions, referees,
track commissioners, riders). -/
abbrev LookupTable := KTable String Unit

/-- `get_or_create_id` (data_transformer.py:50-95) inside the embedded
single-writer transaction: a `None` or blank value short-circuits to
`None`; otherwise select by the natural key and insert a fresh row when
the select misses.  (After a missed select the `ON CONFLICT DO NOTHING`
insert cannot conflict in a serialized transaction; the full
conflict-handling control flow is embedded as `getOrCreateIdFlow`.) -/
def get_or_create_id (t : LookupTable) (value : Option String) :
    Option Nat × LookupTable :=
  match value with
  | none => (none, t)
  | some v =>
      if pyStrip v = "" then (none, t)
      else
        match t.rows.find? (fun r => decide (r.2.1 = v)) with
        | some r => (some r.1, t)
        | none => (some t.nextId, ⟨t.rows ++ [(t.nextId, v, ())], t.nextId + 1⟩)

inductive PyResult (α : Type) where
  | ret (a : α)
  | raise (msg : String)
deriving Repr, DecidableEq

/-- The raw control flow of `get_or_create_id`
(data_transformer.py:50-95) as a function of what the cursor round
trips return: the first `SELECT`'s row, whether the guarded
`INSERT`/`SELECT` block raises a database error (caught, logged and
turned into `None` at data_transformer.py:93-95), the
`INSERT … RETURNING`'s row, and the post-conflict `SELECT`'s row (the
`None`-returning branch at data_transformer.py:90-92). -/
def getOrCreateIdFlow (value : Option String) (firstSelect : Option Nat)
    (insertRaises : Bool) (insertReturning : Option Nat)
    (postConflictSelect : Option Nat) : PyResult (Option Nat) :=
  match value with
  | none => .ret none
  | some v =>
      if pyStrip v = "" then .ret none
      else
        match firstSelect with
        | some i => .ret (some i)
        | none =>
            if insertRaises then .ret none
            else
              match insertReturning with
              | some i => .ret (some i)
              | none =>
                  match postConflictSelect with
                  | some i => .ret (some i)
                  | none => .ret none

/-! ## Teams table (data_transformer.py:180-315) -/

structure TeamRow where
  team_code : Option String
  full_name : Option String
  arena_id : Option Nat
deriving Repr, DecidableEq

structure TeamsTable where
  rows : List (Nat × TeamRow)
  nextId : Nat
deriving Repr, DecidableEq

def TeamsTable.findByCode (t : TeamsTable) (c : String) : Option (Nat × TeamRow) :=
  t.rows.find? (fun r => decide (r.2.team_code = some c))

def TeamsTable.findByName (t : TeamsTable) (n : String) : Option (Nat × TeamRow) :=
  t.rows.find? (fun r => decide (r.2.full_name = some n))

def TeamsTable.updateRow (t : TeamsTable) (i : Nat) (f : TeamRow → TeamRow) :
    TeamsTable :=
  ⟨t.rows.map (fun r => if r.1 = i then (r.1, f r.2) else r), t.nextId⟩

/-- `INSERT INTO teams … ON CONFLICT (team_code) DO NOTHING RETURNING
team_id`: a non-NULL code that already exists conflicts and inserts
nothing; a NULL code never conflicts. -/
def TeamsTable.insertCND (t : TeamsTable) (row : TeamRow) :
    Option Nat × TeamsTable :=
  match row.team_code with
  | some c =>
      match t.findByCode c with
      | some _ => (none, t)
      | none => (some t.nextId, ⟨t.rows ++ [(t.nextId, row)], t.nextId + 1⟩)
  | none => (some t.nextId, ⟨t.rows ++ [(t.nextId, row)], t.nextId + 1⟩)

/-- Home-team processing (data_transformer.py:186-250): find by code
and backfill missing full name / arena, else find by full name and
backfill missing code / arena, else insert whatever identifying subset
is available, falling back to a lookup by code after an insert
conflict. -/
def processHomeTeam (t : TeamsTable) (code name : Option String)
    (arenaId : Option Nat) : Option Nat × TeamsTable :=
  let step1 : Option Nat × TeamsTable :=
    match code with
    | some c =>
        if c ≠ "" then
          match t.findByCode c with
          | some r =>
              (some r.1, t.updateRow r.1 (fun row =>
                { row with
                    full_name := row.full_name.orElse (fun _ => name)
                    arena_id := row.arena_id.orElse (fun _ => arenaId) }))
          | none => (none, t)
        else (none, t)
    | none => (none, t)
  match step1 with
  | (some i, t1) => (some i, t1)
  | (none, t1) =>
      let step2 : Option Nat × TeamsTable :=
        match name with
        | some n =>
            if n ≠ "" then
              match t1.findByName n with
              | some r =>
                  (some r.1, t1.updateRow r.1 (fun row =>
                    { row with
                        team_code := row.team_code.orElse (fun _ => code)
                        arena_id := row.arena_id.orElse (fun _ => arenaId) }))
              | none => (none, t1)
            else (none, t1)
        | none => (none, t1)
      match step2 with
      | (some i, t2) => (some i, t2)
      | (none, t2) =>
          if pyTruthy code || pyTruthy name then
            match t2.insertCND ⟨code, name, arenaId⟩ with
            | (some i, t3) => (some i, t3)
            | (none, t3) =>
                match code with
                | some c =>
                    if c ≠ "" then
                      match t3.findByCode c with
                      | some r => (some r.1, t3)
                      | none => (none, t3)
                    else (none, t3)
                | none => (none, t3)
          else (none, t2)

/-- Away-team processing (data_transformer.py:253-315): as for the home
team but the backfilling updates never touch `arena_id` and the insert
carries no arena reference. -/
def processAwayTeam (t : TeamsTable) (code name : Option String) :
    Option Nat × TeamsTable :=
  let step1 : Option Nat × TeamsTable :=
    match code with
    | some c =>
        if c ≠ "" then
          match t.findByCode c with
          | some r =>
              (some r.1, t.updateRow r.1 (fun row =>
                { row with full_name := row.full_name.orElse (fun _ => name) }))
          | none => (none, t)
        else (none, t)
    | none => (none, t)
  match step1 with
  | (some i, t1) => (some i, t1)
  | (none, t1) =>
      let step2 : Option Nat × TeamsTable :=
        match name with
        | some n =>
            if n ≠ "" then
              match t1.findByName n with
              | some r =>
                  (some r.1, t1.updateRow r.1 (fun row =>
                    { row with team_code := row.team_code.orElse (fun _ => code) }))
              | none => (none, t1)
            else (none, t1)
        | none => (none, t1)
      match step2 with
      | (some i, t2) => (some i, t2)
      | (none, t2) =>
          if pyTruthy code || pyTruthy name then
            match t2.insertCND ⟨code, name, none⟩ with
            | (some i, t3) => (some i, t3)
            | (none, t3) =>
                match code with
                | some c =>
                    if c ≠ "" then
                      match t3.findByCode c with
                      | some r => (some r.1, t3)
                      | none => (none, t3)
                    else (none, t3)
                | none => (none, t3)
          else (none, t2)

/-! ## Document model (the JSON produced by the spider, §6 of the
design notes).  `Option` fields are the nullable / defaulted entries of
the underlying JSON object; `home_score_details`, `away_score_details`
and the four heat score fields use `none` for a JSON `null`, on which
the loader's `.isdigit()` call raises. -/

structure RosterRider where
  number : Option String
  name : Option String
  scores : Option (List String)
  sum : Option String
  bonus : Option String
deriving Repr, DecidableEq

structure TeamBlock where
  team_name : Option String
  manager : Option String
  coach : Option String
  head_of_team : Option String
  riders : Option (List RosterRider)
deriving Repr, DecidableEq

structure HeatRider where
  starting_field : Option String
  helmet_color : Option String
  substituted_rider : Option String
  rider : Option String
  rider_score : Option String
  warning : Option String
deriving Repr, DecidableEq

structure HeatBlock where
  heat_number : Option String
  hometeam_heat_score : Option String
  awayteam_heat_score : Option String
  hometeam_current_match_score : Option String
  awayteam_current_match_score : Option String
  riders : Option (List HeatRider)
deriving Repr, DecidableEq

structure TeleDetail where
  heat_number : Option String
  lap_time : Option String
  distance : Option String
  vmax_lap : Option String
  lap1_time : Option String
  lap2_time : Option String
  lap3_time : Option String
  lap4_time : Option String
deriving Repr, DecidableEq

structure TeleSummary where
  rider_number : Option String
  team_code : Option String
  rider_name : Option String
  best_time : Option String
  vmax_summary : Option String
  detailed_telemetry : Option (List TeleDetail)
deriving Repr, DecidableEq

/-- `telemetry_data` is either a diagnostic string or the list of
per-rider summaries. -/
inductive TelemetryPayload where
  | status (s : String)
  | entries (l : List TeleSummary)
deriving Repr, DecidableEq

structure Doc where
  match_url : Option String
  source : Option String
  competition : Option String
  round_type : Option String
  round : Option String
  match_date : Option String
  attendance_summary : Option String
  referee : Option String
  track_commissioner : Option String
  arena : Option String
  home_team_details : Option String
  away_team_details : Option String
  home_score_details : Option String
  away_score_details : Option String
  team1 : Option TeamBlock
  team2 : Option TeamBlock
  match_details : Option (List HeatBlock)
  telemetry_data : Option TelemetryPayload
deriving Repr, DecidableEq

/-! ## Row values of the destination tables -/

structure MatchVal where
  source_system : Option String
  competition_id : Option Nat
  round_type : Option String
  round_name : Option String
  match_datetime : Option (Nat × Nat × Nat × Nat × Nat)
  attendance : Option Nat
  referee_id : Option Nat
  track_commissioner_id : Option Nat
  arena_id : Option Nat
  home_team_id : Option Nat
  away_team_id : Option Nat
  home_score : Nat
  away_score : Nat
  telemetry_data_status : Option TelemetryPayload
deriving Repr, DecidableEq

structure TeamInfoVal where
  match_specific_team_name : Option String
  manager_name : Option String
  coach_name : Option String
  head_of_team_name : Option String
deriving Repr, DecidableEq

structure StatVal where
  rider_number_in_match : Option String
  total_sum_points : Option Nat
  total_bonus_points : Option Nat
  raw_scores_array : List String
deriving Repr, DecidableEq

structure HeatVal where
  heat_display_number : String
  hometeam_heat_score : Option Nat
  awayteam_heat_score : Option Nat
  hometeam_current_match_score_after_heat : Option Nat
  awayteam_current_match_score_after_heat : Option Nat
deriving Repr, DecidableEq

structure PartVal where
  rider_name : Option String
  substituted_rider_name : Option String
  starting_gate : Option String
  helmet_color : Option String
  score_raw : String
  score : Int
  with_bonus : Bool
  accident : Option String
  with_warning : Bool
  lap_time_seconds : Option String
  distance_meters : Option String
  vmax_kmh : Option String
  lap1_time_seconds : Option String
  lap2_time_seconds : Option String
  lap3_time_seconds : Option String
  lap4_time_seconds : Option String
deriving Repr, DecidableEq

/-- The relational store.  The key types mirror the conflict targets:
`match_url` for matches, `(match_id, team_id)` for team info,
`(match_id, team_id, rider_id)` for rider stats,
`(match_id, heat_sequence_in_match)` for heats and
`(heat_id, match_rider_stat_id)` for participants. -/
structure DB where
  arenas : LookupTable
  competitions : LookupTable
  referees : LookupTable
  track_commissioners : LookupTable
  riders : LookupTable
  teams : TeamsTable
  matchesTbl : KTable (Option String) MatchVal
  match_team_info : KTable (Nat × Option Nat) TeamInfoVal
  match_rider_stats : KTable (Nat × Option Nat × Nat) StatVal
  heats : KTable (Nat × Nat) HeatVal
  heat_participants : KTable (Nat × Nat) PartVal
deriving Repr, DecidableEq

def DB.mkEmpty : DB :=
  ⟨KTable.mkEmpty, KTable.mkEmpty, KTable.mkEmpty, KTable.mkEmpty, KTable.mkEmpty,
   ⟨[], 1⟩, KTable.mkEmpty, KTable.mkEmpty, KTable.mkEmpty, KTable.mkEmpty, KTable.mkEmpty⟩

/-- NULL-freedom of each conflict target. -/
def matchSolid : Option String → Bool := Option.isSome

def infoSolid : Nat × Option Nat → Bool := fun k => k.2.isSome

def statSolid : Nat × Option Nat × Nat → Bool := fun k => k.2.1.isSome

def heatSolid : Nat × Nat → Bool := fun _ => true

def partSolid : Nat × Nat → Bool := fun _ => true

/-! ## Assembling the per-document rows -/

def assocPut {α β : Type} [DecidableEq α] : List (α × β) → α → β → List (α × β)
  | [], k, v => [(k, v)]
  | (k0, v0) :: rest, k, v =>
      if k0 = k then (k0, v) :: rest else (k0, v0) :: assocPut rest k v

def assocGet {α β : Type} [DecidableEq α] (l : List (α × β)) (k : α) : Option β :=
  (l.find? (fun p => decide (p.1 = k))).map Prod.snd

/-- Rider name resolution loop (data_transformer.py:318-331): resolve
each roster rider's name once and record the name-to-id mapping. -/
def resolveRiders : List RosterRider → LookupTable → List (String × Nat) →
    List (String × Nat) × LookupTable
  | [], t, acc => (acc, t)
  | r :: rest, t, acc =>
      match r.name with
      | some nm =>
          if nm ≠ "" ∧ pyStrip nm ≠ "" then
            match get_or_create_id t (some nm) with
            | (some i, t') => resolveRiders rest t' (assocPut acc nm i)
            | (none, t') => resolveRiders rest t' acc
          else resolveRiders rest t acc
      | none => resolveRiders rest t acc

/-- `match_datetime` and `attendance` of the match row
(data_transformer.py:336-348). -/
def matchValueOf (d : Doc)
    (competitionId refereeId commissionerId arenaId homeId awayId : Option Nat)
    (homeScore awayScore : Nat) : MatchVal :=
  { source_system := d.source
    competition_id := competitionId
    round_type := d.round_type
    round_name := d.round
    match_datetime :=
      match d.match_date with
      | some ds => if ds ≠ "" then parseMatchDate ds else none
      | none => none
    attendance :=
      match d.attendance_summary with
      | some a => if a ≠ "" ∧ pyIsdigit a then some (natOfDigits a) else none
      | none => none
    referee_id := refereeId
    track_commissioner_id := commissionerId
    arena_id := arenaId
    home_team_id := homeId
    away_team_id := awayId
    home_score := homeScore
    away_score := awayScore
    telemetry_data_status := d.telemetry_data }

/-- Match team info rows (data_transformer.py:395-427). -/
def teamInfoRows (matchId : Nat) (homeId awayId : Option Nat)
    (t1 t2 : Option TeamBlock) : List ((Nat × Option Nat) × TeamInfoVal) :=
  (match t1 with
   | some td =>
       [((matchId, homeId), ⟨td.team_name, td.manager, td.coach, td.head_of_team⟩)]
   | none => []) ++
  (match t2 with
   | some td =>
       [((matchId, awayId), ⟨td.team_name, td.manager, td.coach, td.head_of_team⟩)]
   | none => [])

/-- Rider stat rows of one team (data_transformer.py:433-463): skip a
rider whose name did not resolve; a non-list `scores` entry becomes the
empty list; `sum`/`bonus` parse to `None` unless all digits. -/
def buildStatRows (matchId : Nat) (teamId : Option Nat)
    (riderMap : List (String × Nat)) :
    List RosterRider → List ((Nat × Option Nat × Nat) × StatVal)
  | [] => []
  | r :: rest =>
      let restRows := buildStatRows matchId teamId riderMap rest
      match r.name with
      | some nm =>
          match assocGet riderMap nm with
          | some riderId =>
              ((matchId, teamId, riderId),
               { rider_number_in_match := r.number
                 total_sum_points :=
                   if pyIsdigit ((r.sum).getD "") then some (natOfDigits ((r.sum).getD ""))
                   else none
                 total_bonus_points :=
                   if pyIsdigit ((r.bonus).getD "") then some (natOfDigits ((r.bonus).getD ""))
                   else none
                 raw_scores_array := (r.scores).getD [] }) :: restRows
          | none => restRows
      | none => restRows

/-- The `if team_data and team_data.get('riders'):` guard around the
per-team stat rows (data_transformer.py:434). -/
def teamStatRows (matchId : Nat) (teamId : Option Nat) (tb : Option TeamBlock)
    (riderMap : List (String × Nat)) : List ((Nat × Option Nat × Nat) × StatVal) :=
  match tb with
  | some td =>
      match td.riders with
      | some rs => buildStatRows matchId teamId riderMap rs
      | none => []
  | none => []

/-- `rider_match_stat_id_map` (data_transformer.py:479-480): pair the
returned stat ids with their `(match_id, rider_id)` keys in order. -/
def buildStatMap : List ((Nat × Option Nat × Nat) × StatVal) → List Nat →
    List ((Nat × Nat) × Nat) → List ((Nat × Nat) × Nat)
  | (k, _) :: rrest, i :: irest, acc =>
      buildStatMap rrest irest (assocPut acc (k.1, k.2.2) i)
  | _, _, acc => acc

/-- Case-insensitive first match of the rider's telemetry summary in
the flat telemetry list (data_transformer.py:550-556). -/
def findRiderTelemetry (teleList : List TeleSummary) (riderName : String) :
    Option TeleSummary :=
  teleList.find? (fun t => decide (pyUpper ((t.rider_name).getD "") = pyUpper riderName))

/-- The heat-label comparison used to locate the lap detail
(data_transformer.py:562): both labels with every "." character
removed. -/
def heatLabelMatches (teleHeat : Option String) (display : String) : Bool :=
  decide ((teleHeat.getD "").toList.filter (fun c => c ≠ '.') =
    display.toList.filter (fun c => c ≠ '.'))

/-- First lap detail of the summary whose label matches the heat's
display number (data_transformer.py:558-566); `none` when the summary
has no detail list. -/
def findHeatDetail (summ : TeleSummary) (display : String) : Option TeleDetail :=
  match summ.detailed_telemetry with
  | some l => l.find? (fun dt => heatLabelMatches dt.heat_number display)
  | none => none

/-- Telemetry resolution for one participant: the rider's summary by
case-insensitive name, then the heat's lap detail by normalized label. -/
def telemetryDetailFor (teleList : List TeleSummary) (riderName : String)
    (display : String) : Option TeleDetail :=
  match findRiderTelemetry teleList riderName with
  | some summ => findHeatDetail summ display
  | none => none

/-- One heat-participant row value (data_transformer.py:543-609). -/
def participantValue (p : HeatRider) (riderName : String)
    (teleList : List TeleSummary) (display : String) : PartVal :=
  let score_raw := (p.rider_score).getD ""
  let parsed := parse_score (some score_raw)
  let detail := telemetryDetailFor teleList riderName display
  { rider_name := p.rider
    substituted_rider_name := p.substituted_rider
    starting_gate :=
      match p.starting_field with
      | some sf => if sf ≠ "" ∧ pyStrip sf ≠ "" then some sf else none
      | none => none
    helmet_color := p.helmet_color
    score_raw := score_raw
    score := parsed.1
    with_bonus := parsed.2.1
    accident := parsed.2.2
    with_warning := pyTruthy p.warning
    lap_time_seconds := parse_telemetry_value (detail.bind TeleDetail.lap_time)
    distance_meters := parse_telemetry_value (detail.bind TeleDetail.distance)
    vmax_kmh := parse_telemetry_value (detail.bind TeleDetail.vmax_lap)
    lap1_time_seconds := parse_telemetry_value (detail.bind TeleDetail.lap1_time)
    lap2_time_seconds := parse_telemetry_value (detail.bind TeleDetail.lap2_time)
    lap3_time_seconds := parse_telemetry_value (detail.bind TeleDetail.lap3_time)
    lap4_time_seconds := parse_telemetry_value (detail.bind TeleDetail.lap4_time) }

/-- The participant rows of one heat (data_transformer.py:530-609):
skip a participant whose rider name has no resolved id or whose
`(match, rider)` pair has no stat row. -/
def buildParticipantRows (matchId heatId : Nat) (display : String)
    (riderMap : List (String × Nat)) (statMap : List ((Nat × Nat) × Nat))
    (teleList : List TeleSummary) : List HeatRider → List ((Nat × Nat) × PartVal)
  | [] => []
  | p :: rest =>
      let restRows :=
        buildParticipantRows matchId heatId display riderMap statMap teleList rest
      match p.rider with
      | some nm =>
          match assocGet riderMap nm with
          | some riderId =>
              match assocGet statMap (matchId, riderId) with
              | some statId =>
                  ((heatId, statId), participantValue p nm teleList display) :: restRows
              | none => restRows
          | none => restRows
      | none => restRows

/-- The heat sequencing of the loop at data_transformer.py:485-493 in
isolation: the counter advances for every heat object in document
order, and a heat whose `heat_number` is falsy is skipped after the
counter advanced. -/
def heatAssignments : List HeatBlock → Nat → List (Nat × String)
  | [], _ => []
  | h :: rest, counter =>
      let counter' := counter + 1
      match h.heat_number with
      | none => heatAssignments rest counter'
      | some disp =>
          if disp = "" then heatAssignments rest counter'
          else (counter', disp) :: heatAssignments rest counter'

/-- The loop context fixed across heats. -/
structure HeatCtx where
  matchId : Nat
  riderMap : List (String × Nat)
  statMap : List ((Nat × Nat) × Nat)
  teleList : List TeleSummary
deriving Repr, DecidableEq

/-- One heat's numeric score field: `None` (a JSON null) raises in
`.isdigit()`; a non-digit string yields a NULL column. -/
def heatScoreField : Option String → Option (Option Nat)
  | none => none
  | some s => some (if pyIsdigit s then some (natOfDigits s) else none)

/-- The heats-and-participants loop (data_transformer.py:484-637).  An
error carries the state written so far (the transaction's uncommitted
writes). -/
def loadHeats (ctx : HeatCtx) : List HeatBlock → Nat → DB → Except (String × DB) DB
  | [], _, db => .ok db
  | h :: rest, counter, db =>
      let counter' := counter + 1
      match h.heat_number with
      | none => loadHeats ctx rest counter' db
      | some disp =>
          if disp = "" then loadHeats ctx rest counter' db
          else
            match heatScoreField h.hometeam_heat_score,
                heatScoreField h.awayteam_heat_score,
                heatScoreField h.hometeam_current_match_score,
                heatScoreField h.awayteam_current_match_score with
            | some hh, some ah, some hc, some ac =>
                let (heatId, heats') := KTable.upsertS heatSolid db.heats
                  (ctx.matchId, counter') ⟨disp, hh, ah, hc, ac⟩
                let db1 : DB := { db with heats := heats' }
                let partRows := buildParticipantRows ctx.matchId heatId disp
                  ctx.riderMap ctx.statMap ctx.teleList ((h.riders).getD [])
                let (_, parts') :=
                  KTable.upsertMany partSolid db1.heat_participants partRows
                loadHeats ctx rest counter' { db1 with heat_participants := parts' }
            | _, _, _, _ =>
                .error ("AttributeError: heat score is None", db)

/-- The flat telemetry list used when building participants
(data_transformer.py:521-526): anything but a list becomes `[]`. -/
def teleListOf (d : Doc) : List TeleSummary :=
  match d.telemetry_data with
  | some (TelemetryPayload.entries l) => l
  | _ => []

/-- All roster riders of the document in processing order
(data_transformer.py:318-323). -/
def allRidersOf (d : Doc) : List RosterRider :=
  ((d.team1.bind TeamBlock.riders).getD []) ++ ((d.team2.bind TeamBlock.riders).getD [])

/-- One document's transaction (data_transformer.py:162-637).  `.ok` is
the state at commit; `.error` carries the uncommitted writes made
before the exception (they are discarded by the rollback in
`processOne`). -/
def loadDocument (d : Doc) (db : DB) : Except (String × DB) DB :=
  let (arenaId, arenas1) := get_or_create_id db.arenas d.arena
  let (competitionId, comps1) := get_or_create_id db.competitions d.competition
  let (refereeId, refs1) := get_or_create_id db.referees d.referee
  let (commissionerId, comms1) :=
    get_or_create_id db.track_commissioners d.track_commissioner
  let (homeId, teams1) :=
    processHomeTeam db.teams d.home_team_details (d.team1.bind TeamBlock.team_name) arenaId
  let (awayId, teams2) :=
    processAwayTeam teams1 d.away_team_details (d.team2.bind TeamBlock.team_name)
  let (riderMap, riders1) := resolveRiders (allRidersOf d) db.riders []
  let db1 : DB :=
    { db with
        arenas := arenas1, competitions := comps1, referees := refs1,
        track_commissioners := comms1, teams := teams2, riders := riders1 }
  match d.home_score_details with
  | none => .error ("AttributeError: home_score_details is None", db1)
  | some hsd =>
  match d.away_score_details with
  | none => .error ("AttributeError: away_score_details is None", db1)
  | some asd =>
  let homeScore := if pyIsdigit hsd then natOfDigits hsd else 0
  let awayScore := if pyIsdigit asd then natOfDigits asd else 0
  let mval := matchValueOf d competitionId refereeId commissionerId arenaId
    homeId awayId homeScore awayScore
  let (matchId, matches1) := KTable.upsertS matchSolid db1.matchesTbl d.match_url mval
  let db2 : DB := { db1 with matchesTbl := matches1 }
  let infoRows := teamInfoRows matchId homeId awayId d.team1 d.team2
  let (_, info1) := KTable.upsertMany infoSolid db2.match_team_info infoRows
  let db3 : DB := { db2 with match_team_info := info1 }
  let statRows := teamStatRows matchId homeId d.team1 riderMap ++
    teamStatRows matchId awayId d.team2 riderMap
  let (statIds, stats1) := KTable.upsertMany statSolid db3.match_rider_stats statRows
  let statMap := buildStatMap statRows statIds []
  let db4 : DB := { db3 with match_rider_stats := stats1 }
  loadHeats ⟨matchId, riderMap, statMap, teleListOf d⟩ ((d.match_details).getD []) 0 db4

/-- Where the source file ends up. -/
inductive FileLoc where
  | inbound
  | processed
deriving Repr, DecidableEq

/-- The per-file driver (data_transformer.py:148-667): commit the
transaction and move the file on success; on any exception roll the
transaction back (discarding the uncommitted writes) and leave the file
in the inbound directory. -/
def processOne (d : Doc) (db : DB) : DB × FileLoc :=
  match loadDocument d db with
  | .ok db' => (db', .processed)
  | .error _ => (db, .inbound)

/-- Modelled from the spec: the heat-label normalization the spec
claims, stripping a single trailing separator character (so "12"
matches "12."). -/
def specStripTrailingSep (s : String) : String :=
  match s.toList.reverse with
  | '.' :: rest => rest.reverse.asString
  | _ => s

/-- Modelled from the spec: heat-label comparison under the claimed
normalization. -/
def heatLabelMatchesSpec (teleHeat display : String) : Bool :=
  decide (specStripTrailingSep teleHeat = specStripTrailingSep display)

/-- Modelled from the amended claim C3: each labeled heat paired with
its 1-based document position (offset by `c`); unlabeled heats yield
nothing but still occupy their position. -/
def heatAssignmentsAmended (hs : List HeatBlock) (c : Nat) : List (Nat × String) :=
  (hs.enumFrom (c + 1)).filterMap (fun pr =>
    match pr.2.heat_number with
    | some l => if l = "" then none else some (pr.1, l)
    | none => none)

/-! ## Well-formedness of the stores (unique serial ids) -/

/-- Serial-id discipline of a table: ids are pairwise distinct and below
the serial counter. -/
def KTable.wf {κ α : Type} (t : KTable κ α) : Prop :=
  (t.rows.map (fun r => r.1)).Nodup ∧ ∀ r ∈ t.rows, r.1 < t.nextId

/-- Serial-id discipline of the teams table. -/
def TeamsTable.wf (t : TeamsTable) : Prop :=
  (t.rows.map (fun r => r.1)).Nodup ∧ ∀ r ∈ t.rows, r.1 < t.nextId

/-- The backfilling update applied when a team is found by code:
fill a missing full name and a missing arena reference. -/
def backfillNameArena (name : Option String) (arenaId : Option Nat)
    (row : TeamRow) : TeamRow :=
  { row with
      full_name := row.full_name.orElse (fun _ => name)
      arena_id := row.arena_id.orElse (fun _ => arenaId) }

/-- The backfilling update applied when a team is found by full name:
fill a missing code and a missing arena reference. -/
def backfillCodeArena (code : Option String) (arenaId : Option Nat)
    (row : TeamRow) : TeamRow :=
  { row with
      team_code := row.team_code.orElse (fun _ => code)
      arena_id := row.arena_id.orElse (fun _ => arenaId) }

/-- The insert stage of team processing: insert if at least one
identifier is present, falling back to a lookup by code after an
`ON CONFLICT DO NOTHING` miss. -/
def teamInsertStage (t2 : TeamsTable) (code name : Option String)
    (arenaId : Option Nat) : Option Nat × TeamsTable :=
  if pyTruthy code || pyTruthy name then
    match t2.insertCND ⟨code, name, arenaId⟩ with
    | (some i, t3) => (some i, t3)
    | (none, t3) =>
        match code with
        | some c =>
            if c ≠ "" then
              match t3.findByCode c with
              | some r => (some r.1, t3)
              | none => (none, t3)
            else (none, t3)
        | none => (none, t3)
  else (none, t2)

/-- The find-by-name stage of team processing. -/
def teamNameStage (t1 : TeamsTable) (code name : Option String)
    (arenaId : Option Nat) : Option Nat × TeamsTable :=
  let step2 : Option Nat × TeamsTable :=
    match name with
    | some n =>
        if n ≠ "" then
          match t1.findByName n with
          | some r => (some r.1, t1.updateRow r.1 (backfillCodeArena code arenaId))
          | none => (none, t1)
        else (none, t1)
    | none => (none, t1)
  match step2 with
  | (some i, t2) => (some i, t2)
  | (none, t2) => teamInsertStage t2 code name arenaId

/-- The common shape of the home- and away-team processing
(data_transformer.py:186-315): find by code and backfill, else find by
full name and backfill, else insert, with the post-conflict fallback
lookup.  The away variant never touches `arena_id`, which coincides
with coalescing against a NULL arena: `processHomeTeam` and
`processAwayTeam` are proved equal to instances of this function. -/
def processTeamG (t : TeamsTable) (code name : Option String)
    (arenaId : Option Nat) : Option Nat × TeamsTable :=
  let step1 : Option Nat × TeamsTable :=
    match code with
    | some c =>
        if c ≠ "" then
          match t.findByCode c with
          | some r => (some r.1, t.updateRow r.1 (backfillNameArena name arenaId))
          | none => (none, t)
        else (none, t)
    | none => (none, t)
  match step1 with
  | (some i, t1) => (some i, t1)
  | (none, t1) => teamNameStage t1 code name arenaId

/-! ## Stage projections of `loadDocument`

Named projections of the pipeline's intermediate values, used to state
side conditions about a document against a store. -/

def arenaIdOf (d : Doc) (db : DB) : Option Nat :=
  (get_or_create_id db.arenas d.arena).1

def homePairOf (d : Doc) (db : DB) : Option Nat × TeamsTable :=
  processHomeTeam db.teams d.home_team_details (d.team1.bind TeamBlock.team_name)
    (arenaIdOf d db)

def homeIdOf (d : Doc) (db : DB) : Option Nat :=
  (homePairOf d db).1

def awayPairOf (d : Doc) (db : DB) : Option Nat × TeamsTable :=
  processAwayTeam (homePairOf d db).2 d.away_team_details
    (d.team2.bind TeamBlock.team_name)

def awayIdOf (d : Doc) (db : DB) : Option Nat :=
  (awayPairOf d db).1

def riderMapOf (d : Doc) (db : DB) : List (String × Nat) :=
  (resolveRiders (allRidersOf d) db.riders []).1

/-- The id the match upsert returns: the id of the existing row with
this URL, else the serial counter. -/
def matchIdOf (d : Doc) (db : DB) : Nat :=
  match KTable.findKey matchSolid db.matchesTbl d.match_url with
  | some r => r.1
  | none => db.matchesTbl.nextId

def statRowsOf (d : Doc) (db : DB) : List ((Nat × Option Nat × Nat) × StatVal) :=
  teamStatRows (matchIdOf d db) (homeIdOf d db) d.team1 (riderMapOf d db) ++
    teamStatRows (matchIdOf d db) (awayIdOf d db) d.team2 (riderMapOf d db)

def infoKeysOf (d : Doc) (db : DB) : List (Nat × Option Nat) :=
  (teamInfoRows (matchIdOf d db) (homeIdOf d db) (awayIdOf d db) d.team1 d.team2).map
    Prod.fst

def statIdsOf (d : Doc) (db : DB) : List Nat :=
  (KTable.upsertMany statSolid db.match_rider_stats (statRowsOf d db)).1

def statMapOf (d : Doc) (db : DB) : List ((Nat × Nat) × Nat) :=
  buildStatMap (statRowsOf d db) (statIdsOf d db) []

def heatCtxOf (d : Doc) (db : DB) : HeatCtx :=
  ⟨matchIdOf d db, riderMapOf d db, statMapOf d db, teleListOf d⟩

/-- The stat ids of a heat's surviving participants, in document
order — the second components of the participant upsert keys. -/
def partStatIdsCtx (ctx : HeatCtx) (h : HeatBlock) : List Nat :=
  ((h.riders).getD []).filterMap (fun p =>
    p.rider.bind (fun nm => (assocGet ctx.riderMap nm).bind
      (fun rid => assocGet ctx.statMap (ctx.matchId, rid))))

/-! ## Result projections (for concrete evaluations) -/

def loadOk : Except (String × DB) DB → Bool
  | .ok _ => true
  | .error _ => false

def okDB : Except (String × DB) DB → DB
  | .ok db => db
  | .error (_, pdb) => pdb

def heatSeqsOfResult : Except (String × DB) DB → List Nat
  | .ok db => db.heats.rows.map (fun r => r.2.1.2)
  | .error _ => []

def statKeysOfResult : Except (String × DB) DB → List (Nat × Option Nat × Nat)
  | .ok db => db.match_rider_stats.rows.map (fun r => r.2.1)
  | .error _ => []

def partLapTimesOfResult : Except (String × DB) DB → List (Option String)
  | .ok db => db.heat_participants.rows.map (fun r => r.2.2.lap_time_seconds)
  | .error _ => []

def matchArenasOfResult : Except (String × DB) DB → List (Option Nat)
  | .ok db => db.matchesTbl.rows.map (fun r => r.2.2.arena_id)
  | .error _ => []

/-! ## Concrete example documents -/

def exTeam1 : TeamBlock :=
  ⟨some "Lions", some "Mgr One", none, none,
   some [⟨some "1", some "Rider A", some ["3", "2"], some "5", some "1"⟩]⟩

def exTeam2 : TeamBlock :=
  ⟨some "Tigers", some "Mgr Two", none, none,
   some [⟨some "9", some "Rider B", some ["1"], some "1", some "0"⟩]⟩

def exHeat : HeatBlock :=
  ⟨some "1", some "4", some "2", some "4", some "2",
   some [⟨some "1", some "red", none, some "Rider A", some "3", none⟩,
         ⟨some "2", some "blue", none, some "Rider B", some "2", none⟩]⟩

def exHeatNoLabel : HeatBlock :=
  ⟨none, some "0", some "0", some "0", some "0", some []⟩

def exTele : TeleSummary :=
  ⟨some "1", some "LIO", some "rider a", some "61.8", some "90",
   some [⟨some "1.", some "61.843 s", some "1400 m", some "95.5 km/h",
          some "15.1 s", some "15.2 s", some "15.3 s", some "16.2 s"⟩]⟩

/-- A well-behaved two-team, one-heat document. -/
def exDoc : Doc :=
  { match_url := some "http://x/1"
    source := some "match_details_aggregated_with_telemetry"
    competition := some "PGE Ekstraliga"
    round_type := some "Regular"
    round := some "Round 1"
    match_date := some "01.05.2024 19:30"
    attendance_summary := some "12000"
    referee := some "Ref R"
    track_commissioner := some "Comm C"
    arena := some "Arena A"
    home_team_details := some "LIO"
    away_team_details := some "TIG"
    home_score_details := some "46"
    away_score_details := some "44"
    team1 := some exTeam1
    team2 := some exTeam2
    match_details := some [exHeat]
    telemetry_data := some (TelemetryPayload.entries [exTele]) }

/-- `exDoc` with a leading unlabeled heat: the label-less heat is
dropped but still consumes sequence number 1. -/
def exDocGap : Doc :=
  { exDoc with match_details := some [exHeatNoLabel, exHeat] }

/-- `exDoc` with heat display label "12" while the telemetry lap detail
is labelled "1.2": equal once every "." is removed. -/
def exTeleDetailDots : TeleDetail :=
  ⟨some "1.2", some "61.843 s", some "1400 m", some "95.5 km/h",
   some "15.1 s", some "15.2 s", some "15.3 s", some "16.2 s"⟩

def exDocDots : Doc :=
  { exDoc with
      match_details := some [{ exHeat with heat_number := some "12" }]
      telemetry_data := some (TelemetryPayload.entries
        [{ exTele with detailed_telemetry := some [exTeleDetailDots] }]) }

/-- `exDoc` with a JSON `null` in `away_score_details`: the load raises
after the resolution stage already wrote rows. -/
def exDocBad : Doc :=
  { exDoc with away_score_details := none }

/-- A document whose only team block has a roster but no team name and
no team code: its stat rows are keyed through a NULL team id. -/
def exDocNullTeam : Doc :=
  { exDoc with
      team1 := some ⟨none, none, none, none,
        some [⟨some "1", some "Solo Rider", some ["3"], some "3", some "0"⟩]⟩
      home_team_details := none
      team2 := none
      match_details := none
      telemetry_data := none }

/-- `exDoc` with a blank arena: resolution returns an absent identifier
and the load proceeds with a NULL arena reference. -/
def exDocBlankArena : Doc :=
  { exDoc with arena := some "  " }

/-- The error payload of the failing load of `exDocBad` (its message
and the partially written, rolled-back state). -/
def exDocBadErr : String × DB :=
  match loadDocument exDocBad DB.mkEmpty with
  | .error p => p
  | .ok _ => ("", DB.mkEmpty)

/-- The committed state of the successful load of `exDoc`. -/
def exDocLoaded : DB :=
  okDB (loadDocument exDoc DB.mkEmpty)

/-- The committed state of the first load of `exDocNullTeam`. -/
def exDocNullTeamLoaded : DB :=
  okDB (loadDocument exDocNullTeam DB.mkEmpty)

/-- Further stage projections used to restate `loadDocument` one stage
at a time. -/
def competitionIdOf (d : Doc) (db : DB) : Option Nat :=
  (get_or_create_id db.competitions d.competition).1

def refereeIdOf (d : Doc) (db : DB) : Option Nat :=
  (get_or_create_id db.referees d.referee).1

def commissionerIdOf (d : Doc) (db : DB) : Option Nat :=
  (get_or_create_id db.track_commissioners d.track_commissioner).1

/-- The store after natural-key resolution (lookups, teams, riders). -/
def dbResolved (d : Doc) (db : DB) : DB :=
  { db with
      arenas := (get_or_create_id db.arenas d.arena).2
      competitions := (get_or_create_id db.competitions d.competition).2
      referees := (get_or_create_id db.referees d.referee).2
      track_commissioners := (get_or_create_id db.track_commissioners
        d.track_commissioner).2
      teams := (awayPairOf d db).2
      riders := (resolveRiders (allRidersOf d) db.riders []).2 }

/-- The match upsert of the load, given the two score strings. -/
def matchPairOf (d : Doc) (db : DB) (hsd asd : String) :
    Nat × KTable (Option String) MatchVal :=
  KTable.upsertS matchSolid db.matchesTbl d.match_url
    (matchValueOf d (competitionIdOf d db) (refereeIdOf d db)
      (commissionerIdOf d db) (arenaIdOf d db) (homeIdOf d db) (awayIdOf d db)
      (if pyIsdigit hsd then natOfDigits hsd else 0)
      (if pyIsdigit asd then natOfDigits asd else 0))

def stagedInfoRows (d : Doc) (db : DB) (hsd asd : String) :
    List ((Nat × Option Nat) × TeamInfoVal) :=
  teamInfoRows (matchPairOf d db hsd asd).1 (homeIdOf d db) (awayIdOf d db)
    d.team1 d.team2

def stagedInfoPair (d : Doc) (db : DB) (hsd asd : String) :
    List Nat × KTable (Nat × Option Nat) TeamInfoVal :=
  KTable.upsertMany infoSolid db.match_team_info (stagedInfoRows d db hsd asd)

def stagedStatRows (d : Doc) (db : DB) (hsd asd : String) :
    List ((Nat × Option Nat × Nat) × StatVal) :=
  teamStatRows (matchPairOf d db hsd asd).1 (homeIdOf d db) d.team1
      (riderMapOf d db) ++
    teamStatRows (matchPairOf d db hsd asd).1 (awayIdOf d db) d.team2
      (riderMapOf d db)

def stagedStatPair (d : Doc) (db : DB) (hsd asd : String) :
    List Nat × KTable (Nat × Option Nat × Nat) StatVal :=
  KTable.upsertMany statSolid db.match_rider_stats (stagedStatRows d db hsd asd)

def stagedStatMap (d : Doc) (db : DB) (hsd asd : String) :
    List ((Nat × Nat) × Nat) :=
  buildStatMap (stagedStatRows d db hsd asd) (stagedStatPair d db hsd asd).1 []

def stagedCtx (d : Doc) (db : DB) (hsd asd : String) : HeatCtx :=
  ⟨(matchPairOf d db hsd asd).1, riderMapOf d db, stagedStatMap d db hsd asd,
    teleListOf d⟩

/-- The store just before the heats loop. -/
def dbStaged (d : Doc) (db : DB) (hsd asd : String) : DB :=
  { dbResolved d db with
      matchesTbl := (matchPairOf d db hsd asd).2
      match_team_info := (stagedInfoPair d db hsd asd).2
      match_rider_stats := (stagedStatPair d db hsd asd).2 }

/-- Rows of a table at a given id are fixed points of an update
function: applying the update writes nothing new. -/
def fixedAt (t : TeamsTable) (j : Nat) (f : TeamRow → TeamRow) : Prop :=
  ∀ x ∈ t.rows, x.1 = j → f x.2 = x.2

/-- The possible effects of one team-processing run with arguments
`acode`, `aname` and no arena on a table `t1`, as established by
`processTeamG_shapes`. -/
def awayShape (t1 t2 : TeamsTable) (acode aname : Option String) : Prop :=
  t2 = t1 ∨
  (∃ j, t2 = t1.updateRow j (backfillNameArena aname none)) ∨
  (∃ j, t2 = t1.updateRow j (backfillCodeArena acode none)) ∨
  t2 = TeamsTable.mk (t1.rows ++ [(t1.nextId, ⟨acode, aname, none⟩)])
    (t1.nextId + 1)

/-! ### Tracker lemmas -/

lemma completeChild_perm_cons (isCurrent : Option Bool) (f m : Nat)
    (c : String) (rest pending : List String)
    (hperm : pending.Perm (c :: rest)) :
    completeChild isCurrent ⟨pending, f, m⟩ c =
      if rest = [] then
        ⟨[], f + 1, if isCurrent = some false then m + 1 else m⟩
      else ⟨pending.erase c, f, m⟩ := by
  have hc : c ∈ pending := hperm.mem_iff.mpr (List.mem_cons_self c rest)
  have herase : (pending.erase c).Perm rest := by
    have h := hperm.erase c
    rwa [List.erase_cons_head] at h
  unfold completeChild
  by_cases hrest : rest = []
  · subst hrest
    have hnil : pending.erase c = [] := herase.eq_nil
    simp [hc, hnil]
  · have hni : pending.erase c ≠ [] := by
      intro h0
      rw [h0] at herase
      exact hrest herase.symm.eq_nil
    simp [hc, hni, hrest]

lemma runCompletions_perm_all (isCurrent : Option Bool) :
    ∀ (order pending : List String) (f m : Nat),
      pending.Perm order → order ≠ [] →
      runCompletions isCurrent ⟨pending, f, m⟩ order =
        ⟨[], f + 1, if isCurrent = some false then m + 1 else m⟩ := by
  intro order
  induction order with
  | nil => intro pending f m _ hne; exact absurd rfl hne
  | cons c rest ih =>
    intro pending f m hperm _
    have hstep := completeChild_perm_cons isCurrent f m c rest pending hperm
    have herase : (pending.erase c).Perm rest := by
      have h := hperm.erase c
      rwa [List.erase_cons_head] at h
    by_cases hrest : rest = []
    · subst hrest
      simp [runCompletions, hstep]
    · rw [runCompletions, List.foldl_cons, hstep, if_neg hrest]
      exact ih (pending.erase c) f m herase hrest

lemma runCompletions_proper_prefix (isCurrent : Option Bool) :
    ∀ (order p pending : List String) (f m : Nat),
      pending.Perm order → p <+: order → p ≠ order →
      (runCompletions isCurrent ⟨pending, f, m⟩ p).fireCount = f ∧
      (runCompletions isCurrent ⟨pending, f, m⟩ p).pending ≠ [] := by
  intro order
  induction order with
  | nil =>
    intro p pending f m _ hp hne
    exact absurd (List.prefix_nil.mp hp) hne
  | cons c rest ih =>
    intro p pending f m hperm hp hne
    have hpne : pending ≠ [] := by
      intro h0
      rw [h0] at hperm
      exact List.cons_ne_nil c rest hperm.symm.eq_nil
    match p with
    | [] => exact ⟨rfl, hpne⟩
    | x :: p' =>
      obtain ⟨t, ht⟩ := hp
      rw [List.cons_append] at ht
      have hx : x = c := (List.cons.injEq x (p' ++ t) c rest).mp ht |>.1
      have hpt : p' ++ t = rest := (List.cons.injEq x (p' ++ t) c rest).mp ht |>.2
      subst hx
      have hp' : p' <+: rest := ⟨t, hpt⟩
      have hp'ne : p' ≠ rest := by
        intro h0
        exact hne (by rw [h0])
      have hrest : rest ≠ [] := by
        intro h0
        rw [h0] at hp'
        exact hp'ne ((List.prefix_nil.mp hp').trans h0.symm)
      have hstep := completeChild_perm_cons isCurrent f m x rest pending hperm
      have herase : (pending.erase x).Perm rest := by
        have h := hperm.erase x
        rwa [List.erase_cons_head] at h
      rw [runCompletions, List.foldl_cons, hstep, if_neg hrest]
      exact ih p' (pending.erase x) f m herase hp' hp'ne

lemma completeChild_markWrites_current (st : TrackerState) (c : String) :
    (completeChild (some true) st c).markWrites = st.markWrites := by
  unfold completeChild
  by_cases hc : c ∈ st.pending
  · by_cases hnil : st.pending.erase c = []
    · simp [hc, hnil]
    · simp [hc, hnil]
  · simp [hc]

lemma completeChild_empty (isCurrent : Option Bool) (c : String) (f m : Nat) :
    completeChild isCurrent ⟨[], f, m⟩ c = ⟨[], f, m⟩ := by
  unfold completeChild
  simp

/-- Claim C1: for a batch whose registered child set is non-empty, after
every child reports completion exactly once — i.e. the completion events
are some permutation of the child set — the batch-completion block runs
exactly once, and it runs inside the completion event that empties the
pending set: after every proper prefix of the events the pending set is
still non-empty and the block has not yet run. -/
theorem batch_completion_fires_exactly_once (isCurrent : Option Bool)
    (children order : List String)
    (hne : children ≠ []) (hperm : order.Perm children) :
    (runCompletions isCurrent (openBatch children) order).fireCount = 1 ∧
    (runCompletions isCurrent (openBatch children) order).pending = [] ∧
    ∀ p, p <+: order → p ≠ order →
      (runCompletions isCurrent (openBatch children) p).fireCount = 0 ∧
      (runCompletions isCurrent (openBatch children) p).pending ≠ [] := by
  have horder : order ≠ [] := by
    intro h0
    rw [h0] at hperm
    exact hne (List.nil_perm.mp hperm)
  have hmain := runCompletions_perm_all isCurrent order children 0 0 hperm.symm horder
  refine ⟨?_, ?_, ?_⟩
  · rw [show openBatch children = ⟨children, 0, 0⟩ from rfl, hmain]
  · rw [show openBatch children = ⟨children, 0, 0⟩ from rfl, hmain]
  · intro p hp hpne
    exact runCompletions_proper_prefix isCurrent order p children 0 0 hperm.symm hp hpne

/-- Claim C1 witness: a two-child batch completed in reverse order. -/
theorem batch_completion_fires_exactly_once_witness :
    (runCompletions (some true) (openBatch ["a", "b"]) ["b", "a"]).fireCount = 1 ∧
    (runCompletions (some true) (openBatch ["a", "b"]) ["b", "a"]).pending = [] :=
  ⟨(batch_completion_fires_exactly_once (some true) ["a", "b"] ["b", "a"]
      (by decide) (by decide)).1,
   (batch_completion_fires_exactly_once (some true) ["a", "b"] ["b", "a"]
      (by decide) (by decide)).2.1⟩

/-- Claim C2: a batch whose `is_current_season` flag is `True` never has
the durable `is_scraped` write issued by any completion event, and
whenever a completion event does issue the durable write the flag is
exactly `False` (an unknown flag also skips the write). -/
theorem current_period_never_durably_marked (isCurrent : Option Bool)
    (st : TrackerState) (c : String) (events : List String) :
    (isCurrent = some true →
      (runCompletions isCurrent st events).markWrites = st.markWrites) ∧
    ((completeChild isCurrent st c).markWrites ≠ st.markWrites →
      isCurrent = some false) := by
  constructor
  · intro hcur
    subst hcur
    induction events generalizing st with
    | nil => rfl
    | cons e rest ih =>
      rw [runCompletions, List.foldl_cons]
      rw [show List.foldl (completeChild (some true)) (completeChild (some true) st e) rest =
            runCompletions (some true) (completeChild (some true) st e) rest from rfl]
      rw [ih (completeChild (some true) st e)]
      exact completeChild_markWrites_current st e
  · intro hne
    by_cases hcur : isCurrent = some false
    · exact hcur
    · exfalso
      apply hne
      unfold completeChild
      by_cases hc : c ∈ st.pending
      · by_cases hnil : st.pending.erase c = []
        · simp [hc, hnil, hcur]
        · simp [hc, hnil]
      · simp [hc]

/-- Claim C2 witness: completing the single child of a current-season
batch fires the completion block but leaves `markWrites` untouched,
while a non-current batch does issue the write. -/
theorem current_period_never_durably_marked_witness :
    (runCompletions (some true) ⟨["x"], 0, 0⟩ ["x"]).markWrites = 0 ∧
    (some false : Option Bool) = some false :=
  ⟨(current_period_never_durably_marked (some true) ⟨["x"], 0, 0⟩ "x" ["x"]).1 rfl,
   (current_period_never_durably_marked (some false) ⟨["x"], 0, 0⟩ "x" []).2
     (by decide)⟩

/-- Claim C10: the completion block can run only on a completion event
that empties a non-empty pending set (the completed child must have been
pending), and a batch opened with no registered children never runs the
completion block and never receives the durable mark, whatever
completion events arrive for it. -/
theorem fire_only_when_emptying_nonempty (isCurrent : Option Bool)
    (st : TrackerState) (c : String) (events : List String) :
    ((completeChild isCurrent st c).fireCount ≠ st.fireCount →
      st.pending ≠ [] ∧ c ∈ st.pending ∧
        (completeChild isCurrent st c).pending = []) ∧
    (runCompletions isCurrent (openBatch []) events = openBatch []) := by
  constructor
  · intro hne0
    unfold completeChild at hne0 ⊢
    by_cases hc : c ∈ st.pending
    · by_cases hnil : st.pending.erase c = []
      · refine ⟨?_, hc, ?_⟩
        · intro h0
          rw [h0] at hc
          exact absurd hc (List.not_mem_nil c)
        · simp [hc, hnil]
      · simp [hc, hnil] at hne0
    · simp [hc] at hne0
  · induction events with
    | nil => rfl
    | cons e rest ih =>
      rw [runCompletions, List.foldl_cons]
      rw [show completeChild isCurrent (openBatch []) e = openBatch [] from
        completeChild_empty isCurrent e 0 0]
      exact ih

/-- Claim C10 witness: a spurious completion on an empty batch changes
nothing, and a firing completion did empty a non-empty pending set. -/
theorem fire_only_when_emptying_nonempty_witness :
    (runCompletions none (openBatch []) ["ghost"] = openBatch []) ∧
    ((["y"] : List String) ≠ [] ∧ "y" ∈ (["y"] : List String) ∧
      (completeChild none ⟨["y"], 0, 0⟩ "y").pending = []) :=
  ⟨(fire_only_when_emptying_nonempty none ⟨[], 0, 0⟩ "z" ["ghost"]).2,
   (fire_only_when_emptying_nonempty none ⟨["y"], 0, 0⟩ "y" []).1 (by decide)⟩

/-- Claim C9: the score parser maps `"12"` to `(12, false, none)`,
`"12'"` to `(12, true, none)`, the empty and the absent token to
`(0, false, none)`, a non-numeric token `"X"` to `(0, false, some "X")`,
and every accident outcome carries zero numeric points. -/
theorem parse_score_cases :
    parse_score (some "12") = (12, false, none) ∧
    parse_score (some (String.mk ['1', '2', apos])) = (12, true, none) ∧
    parse_score (some "") = (0, false, none) ∧
    parse_score none = (0, false, none) ∧
    parse_score (some "X") = (0, false, some "X") ∧
    ∀ s p b a, parse_score s = (p, b, some a) → p = 0 := by
  refine ⟨by decide, by decide, by decide, by decide, by decide, ?_⟩
  intro s p b a h
  match s with
  | none => simp [parse_score] at h
  | some raw =>
    simp only [parse_score] at h
    by_cases hemp : raw = "" ∨ pyStrip raw = ""
    · rw [if_pos hemp] at h
      simp at h
    · rw [if_neg hemp] at h
      set u := pyUpper (pyStrip raw) with hu
      rcases hint : pythonIntParse (if u.toList.contains apos then
          (u.toList.filter (fun c => c ≠ apos)).asString else u) with _ | n
      · rw [hint] at h
        exact (Prod.mk.injEq _ _ _ _).mp h |>.1.symm
      · rw [hint] at h
        simp at h

/-- Claim C9 witness for the accident-implies-zero-points clause. -/
theorem parse_score_cases_witness : (0 : Int) = 0 :=
  parse_score_cases.2.2.2.2.2 (some "D") 0 false "D" (by decide)


/-! ### Pipeline lemmas and claims C3-C7 -/

lemma getOrCreateIdFlow_nonblank_none (v : String) (hb : pyStrip v ≠ "")
    (insertRaises : Bool) :
    getOrCreateIdFlow (some v) none insertRaises none none = PyResult.ret none := by
  cases insertRaises <;> simp [getOrCreateIdFlow, hb]

/-- Claim C3 counterexample: in a document whose first heat lacks a
label, the surviving heat is stored with `sequenceInMatch = 2` — the
skipped heat consumed sequence number 1, so the stored sequence is not
the contiguous `1, 2, …` the claim requires. -/
theorem heat_sequence_gap_counterexample :
    heatSeqsOfResult (loadDocument exDocGap DB.mkEmpty) = [2] ∧
    heatSeqsOfResult (loadDocument exDocGap DB.mkEmpty) ≠
      List.range' 1 (heatSeqsOfResult (loadDocument exDocGap DB.mkEmpty)).length := by
  refine ⟨by rfl, ?_⟩
  intro h
  rw [show heatSeqsOfResult (loadDocument exDocGap DB.mkEmpty) = [2] from rfl] at h
  simp [List.range'] at h

/-- Claim C3 amended: a heat lacking its label is excluded from the
Heat table, but it still consumes a sequence number — each emitted heat
is assigned its 1-based position in the document's heat list (so a gap
is left at every skipped heat); the counterexample document shows the
pipeline storing exactly these sequence numbers. -/
theorem heat_sequence_is_document_position :
    (∀ (hs : List HeatBlock) (c : Nat),
      heatAssignments hs c = heatAssignmentsAmended hs c) ∧
    heatSeqsOfResult (loadDocument exDocGap DB.mkEmpty) =
      (heatAssignments ((exDocGap.match_details).getD []) 0).map Prod.fst := by
  constructor
  · intro hs
    induction hs with
    | nil => intro c; rfl
    | cons h rest ih =>
      intro c
      rcases hh : h.heat_number with _ | l
      · rw [show heatAssignments (h :: rest) c = heatAssignments rest (c + 1) by
            simp [heatAssignments, hh]]
        rw [ih (c + 1)]
        simp [heatAssignmentsAmended, List.enumFrom, List.filterMap_cons, hh]
      · by_cases hl : l = ""
        · rw [show heatAssignments (h :: rest) c = heatAssignments rest (c + 1) by
              simp [heatAssignments, hh, hl]]
          rw [ih (c + 1)]
          simp [heatAssignmentsAmended, List.enumFrom, List.filterMap_cons, hh, hl]
        · rw [show heatAssignments (h :: rest) c =
              (c + 1, l) :: heatAssignments rest (c + 1) by
              simp [heatAssignments, hh, hl]]
          rw [ih (c + 1)]
          simp [heatAssignmentsAmended, List.enumFrom, List.filterMap_cons, hh, hl]
  · rfl

/-- Claim C3 amended witness: the two-heat example evaluated. -/
theorem heat_sequence_is_document_position_witness :
    heatAssignments [exHeatNoLabel, exHeat] 0 = [(2, "1")] :=
  (heat_sequence_is_document_position.1 [exHeatNoLabel, exHeat] 0).trans (by rfl)

/-- Claim C4 counterexample: the code's heat-label normalization
removes every "." character, not just a single trailing separator — the
telemetry label "1.2" matches the display label "12" in the code (and
the pipeline populates the participant's telemetry from it), while the
claim's strip-one-trailing-separator rule rejects the pair. -/
theorem telemetry_label_normalization_counterexample :
    heatLabelMatches (some "1.2") "12" = true ∧
    heatLabelMatchesSpec "1.2" "12" = false ∧
    partLapTimesOfResult (loadDocument exDocDots DB.mkEmpty) =
      [some "61.843", none] := by
  exact ⟨by rfl, by rfl, by rfl⟩

/-- Claim C4 amended: the rider's telemetry summary is located by
case-insensitive exact name match (first match wins), the heat's lap
detail by comparing labels with every "." character removed (first
match wins); when the resolution finds nothing, the participant row is
still produced and all seven telemetry fields are null. -/
theorem telemetry_absent_leaves_fields_null (p : HeatRider) (nm display : String)
    (teleList : List TeleSummary) (matchId heatId riderId statId : Nat)
    (riderMap : List (String × Nat)) (statMap : List ((Nat × Nat) × Nat))
    (hp : p.rider = some nm)
    (hr : assocGet riderMap nm = some riderId)
    (hs : assocGet statMap (matchId, riderId) = some statId)
    (hmiss : telemetryDetailFor teleList nm display = none) :
    buildParticipantRows matchId heatId display riderMap statMap teleList [p] =
      [((heatId, statId), participantValue p nm teleList display)] ∧
    (participantValue p nm teleList display).lap_time_seconds = none ∧
    (participantValue p nm teleList display).distance_meters = none ∧
    (participantValue p nm teleList display).vmax_kmh = none ∧
    (participantValue p nm teleList display).lap1_time_seconds = none ∧
    (participantValue p nm teleList display).lap2_time_seconds = none ∧
    (participantValue p nm teleList display).lap3_time_seconds = none ∧
    (participantValue p nm teleList display).lap4_time_seconds = none := by
  refine ⟨?_, ?_, ?_, ?_, ?_, ?_, ?_, ?_⟩
  · simp [buildParticipantRows, hp, hr, hs]
  all_goals simp [participantValue, hmiss, parse_telemetry_value]

/-- Claim C4 amended witness: an unmatched rider keeps a row with null
telemetry. -/
theorem telemetry_absent_leaves_fields_null_witness :
    buildParticipantRows 1 1 "1" [("Rider B", 2)] [((1, 2), 2)] [exTele]
        [⟨some "2", some "blue", none, some "Rider B", some "2", none⟩] =
      [((1, 2), participantValue
        ⟨some "2", some "blue", none, some "Rider B", some "2", none⟩
        "Rider B" [exTele] "1")] ∧
    (participantValue ⟨some "2", some "blue", none, some "Rider B", some "2", none⟩
        "Rider B" [exTele] "1").lap_time_seconds = none :=
  ⟨(telemetry_absent_leaves_fields_null
      ⟨some "2", some "blue", none, some "Rider B", some "2", none⟩ "Rider B" "1"
      [exTele] 1 1 2 2 [("Rider B", 2)] [((1, 2), 2)]
      rfl (by rfl) (by rfl) (by rfl)).1,
   (telemetry_absent_leaves_fields_null
      ⟨some "2", some "blue", none, some "Rider B", some "2", none⟩ "Rider B" "1"
      [exTele] 1 1 2 2 [("Rider B", 2)] [((1, 2), 2)]
      rfl (by rfl) (by rfl) (by rfl)).2.1⟩

/-- Claim C5: natural-key resolution is idempotent — with a non-blank
key, resolving twice returns the same identifier, the second call
leaves the table exactly as the first left it, and the first call grew
the table by at most one row. -/
theorem get_or_create_id_idempotent (t : LookupTable) (v : String)
    (hb : pyStrip v ≠ "") :
    (get_or_create_id (get_or_create_id t (some v)).2 (some v)).1 =
      (get_or_create_id t (some v)).1 ∧
    (get_or_create_id (get_or_create_id t (some v)).2 (some v)).2 =
      (get_or_create_id t (some v)).2 ∧
    (get_or_create_id t (some v)).2.rows.length ≤ t.rows.length + 1 := by
  rcases hfind : t.rows.find? (fun r => decide (r.2.1 = v)) with _ | r
  · have hfind2 : (t.rows ++ [(t.nextId, v, ())]).find?
        (fun r => decide (r.2.1 = v)) = some (t.nextId, v, ()) := by
      rw [List.find?_append, hfind]
      simp
    simp [get_or_create_id, hb, hfind, hfind2]
  · simp [get_or_create_id, hb, hfind]

/-- Claim C5 witness: resolving a fresh key twice in the empty table. -/
theorem get_or_create_id_idempotent_witness :
    (get_or_create_id (get_or_create_id (KTable.mkEmpty : LookupTable)
        (some "Arena A")).2 (some "Arena A")).1 =
      (get_or_create_id (KTable.mkEmpty : LookupTable) (some "Arena A")).1 ∧
    (get_or_create_id (KTable.mkEmpty : LookupTable)
        (some "Arena A")).2.rows.length ≤ 1 :=
  ⟨(get_or_create_id_idempotent KTable.mkEmpty "Arena A" (by decide)).1,
   (get_or_create_id_idempotent KTable.mkEmpty "Arena A" (by decide)).2.2⟩

/-- Claim C6 counterexample: when the insert conflicts and the
post-conflict lookup also finds nothing, `get_or_create_id` returns
`None` by normal return — nothing is raised, so the enclosing document
transaction is not aborted; and the pipeline demonstrably proceeds with
an absent identifier, committing a match row whose arena reference is
NULL. -/
theorem resolution_failure_counterexample :
    getOrCreateIdFlow (some "Arena A") none false none none = PyResult.ret none ∧
    loadOk (loadDocument exDocBlankArena DB.mkEmpty) = true ∧
    matchArenasOfResult (loadDocument exDocBlankArena DB.mkEmpty) = [none] := by
  exact ⟨by rfl, by rfl, by rfl⟩

/-- Claim C6 amended: an unrecoverable resolution failure (the insert
conflicts and the post-conflict lookup finds nothing, or the guarded
insert raises a database error) is logged and surfaces as a normal
`None` return — no exception propagates, the document's transaction is
not aborted by this path, and the load continues with the absent
identifier. -/
theorem resolution_failure_returns_none (v : String) (hb : pyStrip v ≠ "")
    (insertRaises : Bool) :
    getOrCreateIdFlow (some v) none insertRaises none none = PyResult.ret none :=
  getOrCreateIdFlow_nonblank_none v hb insertRaises

/-- Claim C6 amended witness. -/
theorem resolution_failure_returns_none_witness :
    getOrCreateIdFlow (some "Arena A") none true none none = PyResult.ret none :=
  resolution_failure_returns_none "Arena A" (by decide) true

/-- Claim C7: per-document atomicity — if the load raises anywhere, the
store is exactly the pre-transaction state (the uncommitted writes are
discarded) and the file stays inbound; only after a successful commit
does the file move to the processed directory, with the store holding
the committed state. -/
theorem per_document_atomicity (d : Doc) (db : DB) :
    (∀ e pdb, loadDocument d db = .error (e, pdb) →
      processOne d db = (db, FileLoc.inbound)) ∧
    (∀ db', loadDocument d db = .ok db' →
      processOne d db = (db', FileLoc.processed)) := by
  constructor
  · intro e pdb h
    unfold processOne
    rw [h]
  · intro db' h
    unfold processOne
    rw [h]

/-- Claim C7 witness: a document with a null score raises after the
resolution stage already wrote rows (the error state differs from the
initial store), yet the driver returns the initial store with the file
left inbound; the well-behaved document commits and is moved. -/
theorem per_document_atomicity_witness :
    processOne exDocBad DB.mkEmpty = (DB.mkEmpty, FileLoc.inbound) ∧
    exDocBadErr.2 ≠ DB.mkEmpty ∧
    processOne exDoc DB.mkEmpty = (exDocLoaded, FileLoc.processed) :=
  ⟨(per_document_atomicity exDocBad DB.mkEmpty).1 exDocBadErr.1 exDocBadErr.2 rfl,
   by decide,
   (per_document_atomicity exDoc DB.mkEmpty).2 exDocLoaded rfl⟩

/-- Claim C8 counterexample: reloading a document whose team block has
no identifying code or name duplicates its rider-stat row — the row is
keyed through a NULL team id, and the store's unique constraint treats
NULLs as distinct, so the second load's insert does not conflict with
the first's. -/
theorem reload_duplicates_unkeyed_rows :
    statKeysOfResult (loadDocument exDocNullTeam DB.mkEmpty) = [(1, none, 1)] ∧
    statKeysOfResult (loadDocument exDocNullTeam exDocNullTeamLoaded) =
      [(1, none, 1), (1, none, 1)] ∧
    ¬ (statKeysOfResult (loadDocument exDocNullTeam exDocNullTeamLoaded)).Nodup := by
  exact ⟨by rfl, by rfl, by decide⟩


/-! ### Generic store lemmas -/

section KTableLemmas

variable {κ α : Type} [DecidableEq κ] {solid : κ → Bool}

lemma keyPred_self {k : κ} {i : Nat} {a : α} (hs : solid k = true) :
    keyPred solid k (i, k, a) = true := by
  simp [keyPred, hs]

lemma keyPred_key {k : κ} {r : Nat × κ × α} (h : keyPred solid k r = true) :
    r.2.1 = k ∧ solid k = true := by
  simpa [keyPred] using h

lemma replaceVal_of_find_none {rows : List (Nat × κ × α)} {k : κ} {a : α}
    (h : rows.find? (keyPred solid k) = none) :
    replaceVal solid rows k a = rows := by
  induction rows with
  | nil => rfl
  | cons x xs ih =>
    by_cases hx : keyPred solid k x
    · simp [List.find?_cons, hx] at h
    · simp only [List.find?_cons, hx] at h
      simp [replaceVal, hx, ih h]

lemma replaceVal_self {rows : List (Nat × κ × α)} {k : κ} {i : Nat} {k0 : κ} {a : α}
    (h : rows.find? (keyPred solid k) = some (i, k0, a)) :
    replaceVal solid rows k a = rows := by
  induction rows with
  | nil => simp at h
  | cons x xs ih =>
    by_cases hx : keyPred solid k x
    · simp only [List.find?_cons, hx] at h
      rw [Option.some_inj] at h
      subst h
      simp [replaceVal, hx]
    · simp only [List.find?_cons, hx] at h
      simp [replaceVal, hx, ih h]

lemma find?_replaceVal {rows : List (Nat × κ × α)} {k : κ} {a : α}
    {r : Nat × κ × α} (h : rows.find? (keyPred solid k) = some r) :
    (replaceVal solid rows k a).find? (keyPred solid k) = some (r.1, r.2.1, a) := by
  induction rows with
  | nil => simp at h
  | cons x xs ih =>
    by_cases hx : keyPred solid k x
    · simp only [List.find?_cons, hx] at h
      rw [Option.some_inj] at h
      subst h
      have hk := keyPred_key hx
      have hx' : keyPred solid k (x.1, x.2.1, a) = true := by
        simp [keyPred, hk.1, hk.2]
      simp [replaceVal, hx, List.find?_cons, hx']
    · simp only [List.find?_cons, hx] at h
      simp [replaceVal, hx, List.find?_cons, ih h]

lemma find?_replaceVal_ne {rows : List (Nat × κ × α)} {k k2 : κ} {a2 : α}
    (hne : k ≠ k2) :
    (replaceVal solid rows k2 a2).find? (keyPred solid k) =
      rows.find? (keyPred solid k) := by
  induction rows with
  | nil => rfl
  | cons x xs ih =>
    by_cases hx2 : keyPred solid k2 x
    · have hxk : keyPred solid k x = false := by
        rcases keyPred_key hx2 with ⟨hkey, _⟩
        by_cases hxk0 : keyPred solid k x
        · rcases keyPred_key hxk0 with ⟨hkey', _⟩
          exact absurd (hkey'.symm.trans hkey) hne
        · simpa using hxk0
      have hxk' : keyPred solid k (x.1, x.2.1, a2) = false := by
        simp only [keyPred] at hxk ⊢
        simpa using hxk
      simp [replaceVal, hx2, List.find?_cons, hxk, hxk']
    · by_cases hxk : keyPred solid k x
      · simp [replaceVal, hx2, List.find?_cons, hxk]
      · simp [replaceVal, hx2, List.find?_cons, hxk, ih]

lemma replaceVal_map_fst {rows : List (Nat × κ × α)} {k : κ} {a : α} :
    (replaceVal solid rows k a).map (fun r => r.1) = rows.map (fun r => r.1) := by
  induction rows with
  | nil => rfl
  | cons x xs ih =>
    by_cases hx : keyPred solid k x
    · simp [replaceVal, hx]
    · simp [replaceVal, hx, ih]

lemma replaceVal_idKey {rows : List (Nat × κ × α)} {k : κ} {a : α}
    {i : Nat} {k0 : κ} {a0 : α} (h : (i, k0, a0) ∈ rows) :
    ∃ a1, (i, k0, a1) ∈ replaceVal solid rows k a := by
  induction rows with
  | nil => simp at h
  | cons x xs ih =>
    by_cases hx : keyPred solid k x
    · rcases List.mem_cons.mp h with h0 | h0
      · subst h0
        exact ⟨a, by simp [replaceVal, hx]⟩
      · exact ⟨a0, by simp [replaceVal, hx, h0]⟩
    · rcases List.mem_cons.mp h with h0 | h0
      · subst h0
        exact ⟨a0, by simp [replaceVal, hx]⟩
      · rcases ih h0 with ⟨a1, ha1⟩
        exact ⟨a1, by simp [replaceVal, hx, ha1]⟩

lemma replaceVal_mem {rows : List (Nat × κ × α)} {k : κ} {a : α}
    {r : Nat × κ × α} (h : rows.find? (keyPred solid k) = some r) :
    (r.1, r.2.1, a) ∈ replaceVal solid rows k a := by
  induction rows with
  | nil => simp at h
  | cons x xs ih =>
    by_cases hx : keyPred solid k x
    · simp only [List.find?_cons, hx] at h
      rw [Option.some_inj] at h
      subst h
      simp [replaceVal, hx]
    · simp only [List.find?_cons, hx] at h
      simp [replaceVal, hx, ih h]

lemma upsertS_of_findKey_self {t : KTable κ α} {k : κ} {i : Nat} {k0 : κ} {a : α}
    (h : t.findKey solid k = some (i, k0, a)) :
    KTable.upsertS solid t k a = (i, t) := by
  unfold KTable.upsertS
  rw [h]
  rw [show replaceVal solid t.rows k a = t.rows from replaceVal_self h]

lemma upsertS_finds {t t' : KTable κ α} {k : κ} {a : α} {i : Nat}
    (hs : solid k = true) (h : KTable.upsertS solid t k a = (i, t')) :
    t'.findKey solid k = some (i, k, a) := by
  unfold KTable.upsertS at h
  rcases hf : t.findKey solid k with _ | r
  · rw [hf] at h
    rcases Prod.mk.injEq .. ▸ h with ⟨hi, ht⟩
    subst hi
    subst ht
    unfold KTable.findKey at hf ⊢
    rw [List.find?_append, hf]
    simp [keyPred_self hs]
  · rw [hf] at h
    rcases Prod.mk.injEq .. ▸ h with ⟨hi, ht⟩
    subst hi
    subst ht
    have hkey : r.2.1 = k := (keyPred_key (List.find?_some hf)).1
    unfold KTable.findKey at hf ⊢
    rw [show (⟨replaceVal solid t.rows k a, t.nextId⟩ : KTable κ α).rows =
      replaceVal solid t.rows k a from rfl]
    rw [find?_replaceVal hf, hkey]

lemma upsertS_replay {t t' : KTable κ α} {k : κ} {a : α} {i : Nat}
    (hs : solid k = true) (h : KTable.upsertS solid t k a = (i, t')) :
    KTable.upsertS solid t' k a = (i, t') :=
  upsertS_of_findKey_self (upsertS_finds hs h)

lemma findKey_upsertS_ne {t : KTable κ α} {k k2 : κ} {a2 : α} (hne : k ≠ k2) :
    ((KTable.upsertS solid t k2 a2).2).findKey solid k = t.findKey solid k := by
  unfold KTable.upsertS
  rcases hf : t.findKey solid k2 with _ | r
  · unfold KTable.findKey at hf ⊢
    rw [show (⟨t.rows ++ [(t.nextId, k2, a2)], t.nextId + 1⟩ : KTable κ α).rows =
      t.rows ++ [(t.nextId, k2, a2)] from rfl]
    rw [List.find?_append]
    have : List.find? (keyPred solid k) [(t.nextId, k2, a2)] = none := by
      simp [List.find?_cons, keyPred, hne.symm]
    rw [this]
    cases t.rows.find? (keyPred solid k) <;> rfl
  · unfold KTable.findKey
    exact find?_replaceVal_ne hne

lemma upsertMany_cons (k0 : κ) (a0 : α) (rest : List (κ × α)) (t : KTable κ α) :
    KTable.upsertMany solid t ((k0, a0) :: rest) =
      ((KTable.upsertS solid t k0 a0).1 ::
        (KTable.upsertMany solid (KTable.upsertS solid t k0 a0).2 rest).1,
       (KTable.upsertMany solid (KTable.upsertS solid t k0 a0).2 rest).2) := rfl

lemma findKey_upsertMany_ne : ∀ {l : List (κ × α)} {t : KTable κ α} {k : κ},
    k ∉ l.map Prod.fst →
    KTable.findKey solid (KTable.upsertMany solid t l).2 k =
      KTable.findKey solid t k := by
  intro l
  induction l with
  | nil => intro t k _; rfl
  | cons kb rest ih =>
    intro t k hnotin
    obtain ⟨kb1, kb2⟩ := kb
    have hne : k ≠ kb1 := fun hcontra => hnotin (by simp [hcontra])
    have hnotin2 : k ∉ rest.map Prod.fst := fun hcontra => hnotin (by simp [hcontra])
    rw [upsertMany_cons]
    have h2 : KTable.findKey solid (KTable.upsertS solid t kb1 kb2).2 k =
        KTable.findKey solid t k := findKey_upsertS_ne hne
    exact (ih hnotin2).trans h2

lemma upsertMany_replay : ∀ {l : List (κ × α)} {t t' : KTable κ α} {ids : List Nat},
    (∀ k ∈ l.map Prod.fst, solid k = true) → (l.map Prod.fst).Nodup →
    KTable.upsertMany solid t l = (ids, t') →
    KTable.upsertMany solid t' l = (ids, t') := by
  intro l
  induction l with
  | nil =>
    intro t t' ids _ _ h
    have h1 : ids = ([] : List Nat) := congrArg Prod.fst h.symm
    have h2 : t' = t := congrArg Prod.snd h.symm
    subst h1
    subst h2
    rfl
  | cons ka rest ih =>
    intro t t' ids hall hnd h
    obtain ⟨k0, a0⟩ := ka
    rcases hstep : KTable.upsertS solid t k0 a0 with ⟨i, t1⟩
    rcases hrest : KTable.upsertMany solid t1 rest with ⟨is, t2⟩
    rw [upsertMany_cons, hstep] at h
    simp only at h
    rw [hrest] at h
    simp only at h
    have hids : ids = i :: is := (congrArg Prod.fst h).symm
    have ht2 : t2 = t' := congrArg Prod.snd h
    subst hids
    rw [← ht2]
    have hsolid : solid k0 = true := hall k0 (by simp)
    have hk2 : k0 ∉ rest.map Prod.fst := by
      simp only [List.map_cons, List.nodup_cons] at hnd
      exact hnd.1
    have hfound : KTable.findKey solid t2 k0 = some (i, k0, a0) := by
      have hf1 : KTable.findKey solid t1 k0 = some (i, k0, a0) :=
        upsertS_finds hsolid hstep
      have hframe : KTable.findKey solid (KTable.upsertMany solid t1 rest).2 k0 =
          KTable.findKey solid t1 k0 := findKey_upsertMany_ne hk2
      rw [hrest] at hframe
      exact hframe.trans hf1
    have hstep' : KTable.upsertS solid t2 k0 a0 = (i, t2) :=
      upsertS_of_findKey_self hfound
    have hall' : ∀ k ∈ rest.map Prod.fst, solid k = true := by
      intro k hk
      exact hall k (by simp [hk])
    have hnd' : (rest.map Prod.fst).Nodup := by
      simp only [List.map_cons, List.nodup_cons] at hnd
      exact hnd.2
    have hrest' : KTable.upsertMany solid t2 rest = (is, t2) :=
      ih hall' hnd' hrest
    rw [upsertMany_cons, hstep']
    simp only
    rw [hrest']

lemma upsertMany_of_found : ∀ {l : List (κ × α)} {t : KTable κ α},
    (∀ ka ∈ l, ∃ j, KTable.findKey solid t ka.1 = some (j, ka.1, ka.2)) →
    (KTable.upsertMany solid t l).2 = t := by
  intro l
  induction l with
  | nil => intro t _; rfl
  | cons ka rest ih =>
    intro t hfound
    obtain ⟨k0, a0⟩ := ka
    rcases hfound (k0, a0) (by simp) with ⟨j, hj⟩
    have hstep : KTable.upsertS solid t k0 a0 = (j, t) :=
      upsertS_of_findKey_self hj
    rw [upsertMany_cons, hstep]
    simp only
    exact ih (fun kb hkb => hfound kb (by simp [hkb]))

lemma upsertS_wf {t : KTable κ α} {k : κ} {a : α} (h : t.wf) :
    ((KTable.upsertS solid t k a).2).wf := by
  unfold KTable.upsertS
  rcases hf : t.findKey solid k with _ | r
  · constructor
    · rw [show (⟨t.rows ++ [(t.nextId, k, a)], t.nextId + 1⟩ : KTable κ α).rows =
        t.rows ++ [(t.nextId, k, a)] from rfl]
      rw [List.map_append]
      rw [List.nodup_append]
      refine ⟨h.1, by simp, ?_⟩
      intro x hx
      simp only [List.map_cons, List.map_nil, List.mem_singleton]
      intro hx2
      rcases List.mem_map.mp hx with ⟨r0, hr0, hr0x⟩
      have := h.2 r0 hr0
      omega
    · intro r0 hr0
      rcases List.mem_append.mp hr0 with h0 | h0
      · have := h.2 r0 h0
        simp only
        omega
      · simp only [List.mem_singleton] at h0
        subst h0
        simp
  · constructor
    · rw [show (⟨replaceVal solid t.rows k a, t.nextId⟩ : KTable κ α).rows =
        replaceVal solid t.rows k a from rfl]
      rw [show (fun (r : Nat × κ × α) => r.1) = (fun r => r.1) from rfl]
      rw [replaceVal_map_fst]
      exact h.1
    · intro r0 hr0
      have hr0' : r0.1 ∈ (replaceVal solid t.rows k a).map (fun r => r.1) :=
        List.mem_map.mpr ⟨r0, hr0, rfl⟩
      rw [replaceVal_map_fst] at hr0'
      rcases List.mem_map.mp hr0' with ⟨r1, hr1, hr1x⟩
      have := h.2 r1 hr1
      simp only
      omega

lemma upsertMany_wf : ∀ {l : List (κ × α)} {t : KTable κ α},
    t.wf → ((KTable.upsertMany solid t l).2).wf := by
  intro l
  induction l with
  | nil => intro t h; exact h
  | cons ka rest ih =>
    intro t h
    obtain ⟨k0, a0⟩ := ka
    rw [upsertMany_cons]
    exact ih (upsertS_wf h)

lemma upsertS_mem {t t' : KTable κ α} {k : κ} {a : α} {i : Nat}
    (h : KTable.upsertS solid t k a = (i, t')) :
    (i, k, a) ∈ t'.rows := by
  unfold KTable.upsertS at h
  rcases hf : t.findKey solid k with _ | r
  · rw [hf] at h
    rcases Prod.mk.injEq .. ▸ h with ⟨hi, ht⟩
    subst hi
    subst ht
    simp
  · rw [hf] at h
    rcases Prod.mk.injEq .. ▸ h with ⟨hi, ht⟩
    subst hi
    subst ht
    have hkey : r.2.1 = k := (keyPred_key (List.find?_some hf)).1
    have := replaceVal_mem (a := a) hf
    rw [hkey] at this
    exact this

lemma upsertS_idKey_persist {t : KTable κ α} {k : κ} {a : α}
    {i : Nat} {k0 : κ} {a0 : α} (hmem : (i, k0, a0) ∈ t.rows) :
    ∃ a1, (i, k0, a1) ∈ ((KTable.upsertS solid t k a).2).rows := by
  unfold KTable.upsertS
  rcases hf : t.findKey solid k with _ | r
  · exact ⟨a0, by simp [hmem]⟩
  · exact replaceVal_idKey hmem

lemma upsertMany_idKey_persist : ∀ {l : List (κ × α)} {t : KTable κ α}
    {i : Nat} {k0 : κ} {a0 : α}, (i, k0, a0) ∈ t.rows →
    ∃ a1, (i, k0, a1) ∈ ((KTable.upsertMany solid t l).2).rows := by
  intro l
  induction l with
  | nil => intro t i k0 a0 h; exact ⟨a0, h⟩
  | cons ka rest ih =>
    intro t i k0 a0 h
    obtain ⟨kb1, kb2⟩ := ka
    rw [upsertMany_cons]
    have hper : ∃ a1, (i, k0, a1) ∈ ((KTable.upsertS solid t kb1 kb2).2).rows :=
      upsertS_idKey_persist h
    rcases hper with ⟨a1, ha1⟩
    exact ih ha1

lemma wf_key_unique {t : KTable κ α} (hwf : t.wf) {i : Nat} {k1 k2 : κ}
    {a1 a2 : α} (h1 : (i, k1, a1) ∈ t.rows) (h2 : (i, k2, a2) ∈ t.rows) :
    k1 = k2 := by
  have := List.inj_on_of_nodup_map hwf.1 h1 h2 rfl
  exact congrArg (fun r => r.2.1) this

lemma upsertMany_finds_each : ∀ {l : List (κ × α)} {t t' : KTable κ α}
    {ids : List Nat},
    (∀ k ∈ l.map Prod.fst, solid k = true) → (l.map Prod.fst).Nodup →
    KTable.upsertMany solid t l = (ids, t') →
    ∀ ka ∈ l, ∃ j, KTable.findKey solid t' ka.1 = some (j, ka.1, ka.2) := by
  intro l
  induction l with
  | nil => intro t t' ids _ _ _ ka hka; simp at hka
  | cons kb rest ih =>
    intro t t' ids hall hnd h ka hka
    obtain ⟨kb1, kb2⟩ := kb
    rcases hstep : KTable.upsertS solid t kb1 kb2 with ⟨i, t1⟩
    rcases hrest : KTable.upsertMany solid t1 rest with ⟨is, t2⟩
    rw [upsertMany_cons, hstep] at h
    simp only at h
    rw [hrest] at h
    simp only at h
    have ht2 : t2 = t' := congrArg Prod.snd h
    subst ht2
    have hk2 : kb1 ∉ rest.map Prod.fst := by
      simp only [List.map_cons, List.nodup_cons] at hnd
      exact hnd.1
    rcases List.mem_cons.mp hka with h0 | h0
    · subst h0
      refine ⟨i, ?_⟩
      have hf1 : KTable.findKey solid t1 kb1 = some (i, kb1, kb2) :=
        upsertS_finds (hall kb1 (by simp)) hstep
      have hframe : KTable.findKey solid (KTable.upsertMany solid t1 rest).2 kb1 =
          KTable.findKey solid t1 kb1 := findKey_upsertMany_ne hk2
      rw [hrest] at hframe
      exact hframe.trans hf1
    · have hall' : ∀ k ∈ rest.map Prod.fst, solid k = true :=
        fun k hk => hall k (by simp [hk])
      have hnd' : (rest.map Prod.fst).Nodup := by
        simp only [List.map_cons, List.nodup_cons] at hnd
        exact hnd.2
      exact ih hall' hnd' hrest ka h0

end KTableLemmas


/-! ### Resolution (get-or-create) lemmas -/

lemma goc_replay {t t' : LookupTable} {v : Option String} {p : Option Nat}
    (h : get_or_create_id t v = (p, t')) :
    get_or_create_id t' v = (p, t') := by
  match v with
  | none =>
      have h1 : p = none := (congrArg Prod.fst h).symm
      have h2 : t' = t := congrArg Prod.snd h.symm
      subst h1
      subst h2
      rfl
  | some sv =>
      by_cases hb : pyStrip sv = ""
      · rw [show get_or_create_id t (some sv) = (none, t) by
          simp [get_or_create_id, hb]] at h
        have h1 : p = none := (congrArg Prod.fst h).symm
        have h2 : t' = t := congrArg Prod.snd h.symm
        subst h1
        subst h2
        simp [get_or_create_id, hb]
      · rcases hf : t.rows.find? (fun r => decide (r.2.1 = sv)) with _ | r
        · have hexp : get_or_create_id t (some sv) =
              (some t.nextId, ⟨t.rows ++ [(t.nextId, sv, ())], t.nextId + 1⟩) := by
            simp [get_or_create_id, hb, hf]
          rw [hexp] at h
          have h1 : p = some t.nextId := (congrArg Prod.fst h).symm
          have h2 : t' = ⟨t.rows ++ [(t.nextId, sv, ())], t.nextId + 1⟩ :=
            congrArg Prod.snd h.symm
          subst h1
          subst h2
          have hf2 : (t.rows ++ [(t.nextId, sv, ())]).find?
              (fun r => decide (r.2.1 = sv)) = some (t.nextId, sv, ()) := by
            rw [List.find?_append, hf]
            simp
          simp [get_or_create_id, hb, hf2]
        · have hexp : get_or_create_id t (some sv) = (some r.1, t) := by
            simp [get_or_create_id, hb, hf]
          rw [hexp] at h
          have h1 : p = some r.1 := (congrArg Prod.fst h).symm
          have h2 : t' = t := congrArg Prod.snd h.symm
          subst h1
          subst h2
          simp [get_or_create_id, hb, hf]

lemma goc_rows_extends (t : LookupTable) (v : Option String) :
    ∃ ext, (get_or_create_id t v).2.rows = t.rows ++ ext := by
  match v with
  | none => exact ⟨[], by simp [get_or_create_id]⟩
  | some sv =>
      by_cases hb : pyStrip sv = ""
      · exact ⟨[], by simp [get_or_create_id, hb]⟩
      · rcases hf : t.rows.find? (fun r => decide (r.2.1 = sv)) with _ | r
        · exact ⟨[(t.nextId, sv, ())], by simp [get_or_create_id, hb, hf]⟩
        · exact ⟨[], by simp [get_or_create_id, hb, hf]⟩

lemma goc_nonblank_ne_none {t : LookupTable} {sv : String}
    (hb : pyStrip sv ≠ "") :
    (get_or_create_id t (some sv)).1 ≠ none := by
  rcases hf : t.rows.find? (fun r => decide (r.2.1 = sv)) with _ | r
  · simp [get_or_create_id, hb, hf]
  · simp [get_or_create_id, hb, hf]

lemma goc_stable_ext {t t2 : LookupTable} {v : Option String} {p : Option Nat}
    (hstab : get_or_create_id t v = (p, t))
    (ext : List (Nat × String × Unit)) (hrows : t2.rows = t.rows ++ ext) :
    get_or_create_id t2 v = (p, t2) := by
  match v with
  | none =>
      have h1 : p = none := (congrArg Prod.fst hstab).symm
      subst h1
      rfl
  | some sv =>
      by_cases hb : pyStrip sv = ""
      · have h1 : p = none := by
          rw [show get_or_create_id t (some sv) = (none, t) by
            simp [get_or_create_id, hb]] at hstab
          exact (congrArg Prod.fst hstab).symm
        subst h1
        simp [get_or_create_id, hb]
      · rcases hf : t.rows.find? (fun r => decide (r.2.1 = sv)) with _ | r
        · exfalso
          have hexp : get_or_create_id t (some sv) =
              (some t.nextId, ⟨t.rows ++ [(t.nextId, sv, ())], t.nextId + 1⟩) := by
            simp [get_or_create_id, hb, hf]
          rw [hexp] at hstab
          have h2 : t.rows ++ [(t.nextId, sv, ())] = t.rows :=
            congrArg (fun tb => KTable.rows tb) (congrArg Prod.snd hstab)
          have := congrArg List.length h2
          simp at this
        · have h1 : p = some r.1 := by
            rw [show get_or_create_id t (some sv) = (some r.1, t) by
              simp [get_or_create_id, hb, hf]] at hstab
            exact (congrArg Prod.fst hstab).symm
          subst h1
          have hf2 : t2.rows.find? (fun r => decide (r.2.1 = sv)) = some r := by
            rw [hrows, List.find?_append, hf]
            rfl
          simp [get_or_create_id, hb, hf2]

lemma resolveRiders_rows_extends : ∀ (l : List RosterRider) (t : LookupTable)
    (acc : List (String × Nat)),
    ∃ ext, (resolveRiders l t acc).2.rows = t.rows ++ ext := by
  intro l
  induction l with
  | nil => intro t acc; exact ⟨[], by simp [resolveRiders]⟩
  | cons r rest ih =>
    intro t acc
    rcases hname : r.name with _ | nm
    · rcases ih t acc with ⟨ext, hext⟩
      exact ⟨ext, by rw [show resolveRiders (r :: rest) t acc =
        resolveRiders rest t acc by simp [resolveRiders, hname]]; exact hext⟩
    · by_cases hg : nm ≠ "" ∧ pyStrip nm ≠ ""
      · rcases hgoc : get_or_create_id t (some nm) with ⟨p, t1⟩
        rcases goc_rows_extends t (some nm) with ⟨ext1, hext1⟩
        rw [hgoc] at hext1
        rcases p with _ | i
        · rcases ih t1 acc with ⟨ext2, hext2⟩
          refine ⟨ext1 ++ ext2, ?_⟩
          rw [show resolveRiders (r :: rest) t acc = resolveRiders rest t1 acc by
            simp [resolveRiders, hname, hg, hgoc]]
          rw [hext2, hext1, List.append_assoc]
        · rcases ih t1 (assocPut acc nm i) with ⟨ext2, hext2⟩
          refine ⟨ext1 ++ ext2, ?_⟩
          rw [show resolveRiders (r :: rest) t acc =
              resolveRiders rest t1 (assocPut acc nm i) by
            simp [resolveRiders, hname, hg, hgoc]]
          rw [hext2, hext1, List.append_assoc]
      · rcases ih t acc with ⟨ext, hext⟩
        exact ⟨ext, by rw [show resolveRiders (r :: rest) t acc =
          resolveRiders rest t acc by simp [resolveRiders, hname, hg]]; exact hext⟩

lemma resolveRiders_replay : ∀ {l : List RosterRider} {t t' : LookupTable}
    {acc m : List (String × Nat)},
    resolveRiders l t acc = (m, t') → resolveRiders l t' acc = (m, t') := by
  intro l
  induction l with
  | nil =>
    intro t t' acc m h
    have h1 : m = acc := (congrArg Prod.fst h).symm
    have h2 : t' = t := congrArg Prod.snd h.symm
    subst h1
    subst h2
    rfl
  | cons r rest ih =>
    intro t t' acc m h
    rcases hname : r.name with _ | nm
    · rw [show resolveRiders (r :: rest) t acc = resolveRiders rest t acc by
        simp [resolveRiders, hname]] at h
      rw [show resolveRiders (r :: rest) t' acc = resolveRiders rest t' acc by
        simp [resolveRiders, hname]]
      exact ih h
    · by_cases hg : nm ≠ "" ∧ pyStrip nm ≠ ""
      · rcases hgoc : get_or_create_id t (some nm) with ⟨p, t1⟩
        rcases p with _ | i
        · exact absurd (congrArg Prod.fst hgoc) (goc_nonblank_ne_none hg.2)
        · rw [show resolveRiders (r :: rest) t acc =
              resolveRiders rest t1 (assocPut acc nm i) by
            simp [resolveRiders, hname, hg, hgoc]] at h
          have hstab1 : get_or_create_id t1 (some nm) = (some i, t1) :=
            goc_replay hgoc
          rcases resolveRiders_rows_extends rest t1 (assocPut acc nm i) with
            ⟨ext, hext⟩
          rw [h] at hext
          have hstab2 : get_or_create_id t' (some nm) = (some i, t') :=
            goc_stable_ext hstab1 ext hext
          rw [show resolveRiders (r :: rest) t' acc =
              resolveRiders rest t' (assocPut acc nm i) by
            simp [resolveRiders, hname, hg, hstab2]]
          exact ih h
      · rw [show resolveRiders (r :: rest) t acc = resolveRiders rest t acc by
          simp [resolveRiders, hname, hg]] at h
        rw [show resolveRiders (r :: rest) t' acc = resolveRiders rest t' acc by
          simp [resolveRiders, hname, hg]]
        exact ih h


/-! ### Heats loop lemmas -/

lemma loadHeats_cons_nolabel (ctx : HeatCtx) (h : HeatBlock) (rest : List HeatBlock)
    (c : Nat) (db : DB) (hh : h.heat_number = none) :
    loadHeats ctx (h :: rest) c db = loadHeats ctx rest (c + 1) db := by
  simp [loadHeats, hh]

lemma loadHeats_cons_blank (ctx : HeatCtx) (h : HeatBlock) (rest : List HeatBlock)
    (c : Nat) (db : DB) (hh : h.heat_number = some "") :
    loadHeats ctx (h :: rest) c db = loadHeats ctx rest (c + 1) db := by
  simp [loadHeats, hh]

lemma loadHeats_cons_main (ctx : HeatCtx) (h : HeatBlock) (rest : List HeatBlock)
    (c : Nat) (db : DB) {disp : String} {hh0 ah0 hc0 ac0 : Option Nat}
    {heatId : Nat} {heats' : KTable (Nat × Nat) HeatVal}
    (hh : h.heat_number = some disp) (hdisp : ¬ disp = "")
    (h1 : heatScoreField h.hometeam_heat_score = some hh0)
    (h2 : heatScoreField h.awayteam_heat_score = some ah0)
    (h3 : heatScoreField h.hometeam_current_match_score = some hc0)
    (h4 : heatScoreField h.awayteam_current_match_score = some ac0)
    (hup : KTable.upsertS heatSolid db.heats (ctx.matchId, c + 1)
      ⟨disp, hh0, ah0, hc0, ac0⟩ = (heatId, heats')) :
    loadHeats ctx (h :: rest) c db =
      loadHeats ctx rest (c + 1)
        { db with
            heats := heats'
            heat_participants := (KTable.upsertMany partSolid db.heat_participants
              (buildParticipantRows ctx.matchId heatId disp ctx.riderMap ctx.statMap
                ctx.teleList ((h.riders).getD []))).2 } := by
  simp only [loadHeats, hh, hdisp, h1, h2, h3, h4, hup, if_neg]
  rfl

lemma loadHeats_cons_err (ctx : HeatCtx) (h : HeatBlock) (rest : List HeatBlock)
    (c : Nat) (db : DB) {disp : String}
    (hh : h.heat_number = some disp) (hdisp : ¬ disp = "")
    (herr : heatScoreField h.hometeam_heat_score = none ∨
      heatScoreField h.awayteam_heat_score = none ∨
      heatScoreField h.hometeam_current_match_score = none ∨
      heatScoreField h.awayteam_current_match_score = none) :
    loadHeats ctx (h :: rest) c db =
      .error ("AttributeError: heat score is None", db) := by
  rcases hs1 : heatScoreField h.hometeam_heat_score with _ | v1
  · simp [loadHeats, hh, hdisp, hs1]
  rcases hs2 : heatScoreField h.awayteam_heat_score with _ | v2
  · simp [loadHeats, hh, hdisp, hs1, hs2]
  rcases hs3 : heatScoreField h.hometeam_current_match_score with _ | v3
  · simp [loadHeats, hh, hdisp, hs1, hs2, hs3]
  rcases hs4 : heatScoreField h.awayteam_current_match_score with _ | v4
  · simp [loadHeats, hh, hdisp, hs1, hs2, hs3, hs4]
  rw [hs1, hs2, hs3, hs4] at herr
  rcases herr with h0 | h0 | h0 | h0 <;> simp at h0

lemma buildParticipantRows_keys (matchId heatId : Nat) (display : String)
    (riderMap : List (String × Nat)) (statMap : List ((Nat × Nat) × Nat))
    (teleList : List TeleSummary) : ∀ ps : List HeatRider,
    (buildParticipantRows matchId heatId display riderMap statMap teleList ps).map
        Prod.fst =
      (ps.filterMap (fun p => p.rider.bind (fun nm => (assocGet riderMap nm).bind
        (fun rid => assocGet statMap (matchId, rid))))).map
        (fun sid => (heatId, sid)) := by
  intro ps
  induction ps with
  | nil => rfl
  | cons p rest ih =>
    rcases hr : p.rider with _ | nm
    · simp [buildParticipantRows, List.filterMap_cons, hr, ih]
    · rcases hrid : assocGet riderMap nm with _ | rid
      · simp [buildParticipantRows, List.filterMap_cons, hr, hrid, ih]
      · rcases hsid : assocGet statMap (matchId, rid) with _ | sid
        · simp [buildParticipantRows, List.filterMap_cons, hr, hrid, hsid, ih]
        · simp [buildParticipantRows, List.filterMap_cons, hr, hrid, hsid, ih]

lemma loadHeats_preserves (ctx : HeatCtx) : ∀ {hs : List HeatBlock} {c : Nat}
    {db db' : DB}, loadHeats ctx hs c db = .ok db' →
    db'.arenas = db.arenas ∧ db'.competitions = db.competitions ∧
    db'.referees = db.referees ∧ db'.track_commissioners = db.track_commissioners ∧
    db'.riders = db.riders ∧ db'.teams = db.teams ∧
    db'.matchesTbl = db.matchesTbl ∧ db'.match_team_info = db.match_team_info ∧
    db'.match_rider_stats = db.match_rider_stats := by
  intro hs
  induction hs with
  | nil =>
    intro c db db' h
    have : db = db' := by
      have := h
      simp [loadHeats] at this
      exact this
    subst this
    exact ⟨rfl, rfl, rfl, rfl, rfl, rfl, rfl, rfl, rfl⟩
  | cons h0 rest ih =>
    intro c db db' h
    rcases hh : h0.heat_number with _ | disp
    · rw [loadHeats_cons_nolabel ctx h0 rest c db hh] at h
      exact ih h
    · by_cases hdisp : disp = ""
      · subst hdisp
        rw [loadHeats_cons_blank ctx h0 rest c db hh] at h
        exact ih h
      · rcases hs1 : heatScoreField h0.hometeam_heat_score with _ | v1
        · rw [loadHeats_cons_err ctx h0 rest c db hh hdisp (Or.inl hs1)] at h
          simp at h
        rcases hs2 : heatScoreField h0.awayteam_heat_score with _ | v2
        · rw [loadHeats_cons_err ctx h0 rest c db hh hdisp (Or.inr (Or.inl hs2))] at h
          simp at h
        rcases hs3 : heatScoreField h0.hometeam_current_match_score with _ | v3
        · rw [loadHeats_cons_err ctx h0 rest c db hh hdisp
            (Or.inr (Or.inr (Or.inl hs3)))] at h
          simp at h
        rcases hs4 : heatScoreField h0.awayteam_current_match_score with _ | v4
        · rw [loadHeats_cons_err ctx h0 rest c db hh hdisp
            (Or.inr (Or.inr (Or.inr hs4)))] at h
          simp at h
        rcases hup : KTable.upsertS heatSolid db.heats (ctx.matchId, c + 1)
          ⟨disp, v1, v2, v3, v4⟩ with ⟨heatId, heats1⟩
        rw [loadHeats_cons_main ctx h0 rest c db hh hdisp hs1 hs2 hs3 hs4 hup] at h
        have hx := ih h
        exact hx


lemma loadHeats_heats_wf (ctx : HeatCtx) : ∀ {hs : List HeatBlock} {c : Nat}
    {db db' : DB}, loadHeats ctx hs c db = .ok db' → db.heats.wf → db'.heats.wf := by
  intro hs
  induction hs with
  | nil =>
    intro c db db' h hwf
    have hdb : db = db' := by
      simp [loadHeats] at h
      exact h
    subst hdb
    exact hwf
  | cons h0 rest ih =>
    intro c db db' h hwf
    rcases hh : h0.heat_number with _ | disp
    · rw [loadHeats_cons_nolabel ctx h0 rest c db hh] at h
      exact ih h hwf
    · by_cases hdisp : disp = ""
      · subst hdisp
        rw [loadHeats_cons_blank ctx h0 rest c db hh] at h
        exact ih h hwf
      · rcases hs1 : heatScoreField h0.hometeam_heat_score with _ | v1
        · rw [loadHeats_cons_err ctx h0 rest c db hh hdisp (Or.inl hs1)] at h
          simp at h
        rcases hs2 : heatScoreField h0.awayteam_heat_score with _ | v2
        · rw [loadHeats_cons_err ctx h0 rest c db hh hdisp (Or.inr (Or.inl hs2))] at h
          simp at h
        rcases hs3 : heatScoreField h0.hometeam_current_match_score with _ | v3
        · rw [loadHeats_cons_err ctx h0 rest c db hh hdisp
            (Or.inr (Or.inr (Or.inl hs3)))] at h
          simp at h
        rcases hs4 : heatScoreField h0.awayteam_current_match_score with _ | v4
        · rw [loadHeats_cons_err ctx h0 rest c db hh hdisp
            (Or.inr (Or.inr (Or.inr hs4)))] at h
          simp at h
        rcases hup : KTable.upsertS heatSolid db.heats (ctx.matchId, c + 1)
          ⟨disp, v1, v2, v3, v4⟩ with ⟨heatId, heats1⟩
        rw [loadHeats_cons_main ctx h0 rest c db hh hdisp hs1 hs2 hs3 hs4 hup] at h
        have hwf1 : heats1.wf := by
          have hw2 : ((KTable.upsertS heatSolid db.heats (ctx.matchId, c + 1)
              ⟨disp, v1, v2, v3, v4⟩).2).wf := upsertS_wf hwf
          rw [hup] at hw2
          exact hw2
        exact ih h hwf1

lemma loadHeats_heats_frame (ctx : HeatCtx) : ∀ {hs : List HeatBlock} {c : Nat}
    {db db' : DB}, loadHeats ctx hs c db = .ok db' →
    ∀ k2 : Nat × Nat, k2.2 ≤ c →
    KTable.findKey heatSolid db'.heats k2 = KTable.findKey heatSolid db.heats k2 := by
  intro hs
  induction hs with
  | nil =>
    intro c db db' h k2 _
    have hdb : db = db' := by
      simp [loadHeats] at h
      exact h
    subst hdb
    rfl
  | cons h0 rest ih =>
    intro c db db' h k2 hk2
    rcases hh : h0.heat_number with _ | disp
    · rw [loadHeats_cons_nolabel ctx h0 rest c db hh] at h
      exact ih h k2 (Nat.le_succ_of_le hk2)
    · by_cases hdisp : disp = ""
      · subst hdisp
        rw [loadHeats_cons_blank ctx h0 rest c db hh] at h
        exact ih h k2 (Nat.le_succ_of_le hk2)
      · rcases hs1 : heatScoreField h0.hometeam_heat_score with _ | v1
        · rw [loadHeats_cons_err ctx h0 rest c db hh hdisp (Or.inl hs1)] at h
          simp at h
        rcases hs2 : heatScoreField h0.awayteam_heat_score with _ | v2
        · rw [loadHeats_cons_err ctx h0 rest c db hh hdisp (Or.inr (Or.inl hs2))] at h
          simp at h
        rcases hs3 : heatScoreField h0.hometeam_current_match_score with _ | v3
        · rw [loadHeats_cons_err ctx h0 rest c db hh hdisp
            (Or.inr (Or.inr (Or.inl hs3)))] at h
          simp at h
        rcases hs4 : heatScoreField h0.awayteam_current_match_score with _ | v4
        · rw [loadHeats_cons_err ctx h0 rest c db hh hdisp
            (Or.inr (Or.inr (Or.inr hs4)))] at h
          simp at h
        rcases hup : KTable.upsertS heatSolid db.heats (ctx.matchId, c + 1)
          ⟨disp, v1, v2, v3, v4⟩ with ⟨heatId, heats1⟩
        rw [loadHeats_cons_main ctx h0 rest c db hh hdisp hs1 hs2 hs3 hs4 hup] at h
        have hne : k2 ≠ (ctx.matchId, c + 1) := by
          intro hcontra
          rw [hcontra] at hk2
          omega
        have hstep : KTable.findKey heatSolid heats1 k2 =
            KTable.findKey heatSolid db.heats k2 := by
          have h2 : KTable.findKey heatSolid (KTable.upsertS heatSolid db.heats
              (ctx.matchId, c + 1) ⟨disp, v1, v2, v3, v4⟩).2 k2 =
              KTable.findKey heatSolid db.heats k2 := findKey_upsertS_ne hne
          rw [hup] at h2
          exact h2
        have hres := ih h k2 (Nat.le_succ_of_le hk2)
        exact hres.trans hstep

lemma loadHeats_parts_frame (ctx : HeatCtx) : ∀ {hs : List HeatBlock} {c : Nat}
    {db db' : DB}, loadHeats ctx hs c db = .ok db' → db.heats.wf →
    ∀ hid sid : Nat, (∃ k0 a0, (hid, k0, a0) ∈ db.heats.rows ∧ k0.2 ≤ c) →
    KTable.findKey partSolid db'.heat_participants (hid, sid) =
      KTable.findKey partSolid db.heat_participants (hid, sid) := by
  intro hs
  induction hs with
  | nil =>
    intro c db db' h _ hid sid _
    have hdb : db = db' := by
      simp [loadHeats] at h
      exact h
    subst hdb
    rfl
  | cons h0 rest ih =>
    intro c db db' h hwf hid sid hex
    rcases hex with ⟨k0, a0, hmem, hk0⟩
    rcases hh : h0.heat_number with _ | disp
    · rw [loadHeats_cons_nolabel ctx h0 rest c db hh] at h
      exact ih h hwf hid sid ⟨k0, a0, hmem, Nat.le_succ_of_le hk0⟩
    · by_cases hdisp : disp = ""
      · subst hdisp
        rw [loadHeats_cons_blank ctx h0 rest c db hh] at h
        exact ih h hwf hid sid ⟨k0, a0, hmem, Nat.le_succ_of_le hk0⟩
      · rcases hs1 : heatScoreField h0.hometeam_heat_score with _ | v1
        · rw [loadHeats_cons_err ctx h0 rest c db hh hdisp (Or.inl hs1)] at h
          simp at h
        rcases hs2 : heatScoreField h0.awayteam_heat_score with _ | v2
        · rw [loadHeats_cons_err ctx h0 rest c db hh hdisp (Or.inr (Or.inl hs2))] at h
          simp at h
        rcases hs3 : heatScoreField h0.hometeam_current_match_score with _ | v3
        · rw [loadHeats_cons_err ctx h0 rest c db hh hdisp
            (Or.inr (Or.inr (Or.inl hs3)))] at h
          simp at h
        rcases hs4 : heatScoreField h0.awayteam_current_match_score with _ | v4
        · rw [loadHeats_cons_err ctx h0 rest c db hh hdisp
            (Or.inr (Or.inr (Or.inr hs4)))] at h
          simp at h
        rcases hup : KTable.upsertS heatSolid db.heats (ctx.matchId, c + 1)
          ⟨disp, v1, v2, v3, v4⟩ with ⟨heatId, heats1⟩
        rw [loadHeats_cons_main ctx h0 rest c db hh hdisp hs1 hs2 hs3 hs4 hup] at h
        have hwf1 : heats1.wf := by
          have hw2 : ((KTable.upsertS heatSolid db.heats (ctx.matchId, c + 1)
              ⟨disp, v1, v2, v3, v4⟩).2).wf := upsertS_wf hwf
          rw [hup] at hw2
          exact hw2
        have hmem1 : ∃ a1, (hid, k0, a1) ∈ heats1.rows := by
          have h2 : ∃ a1, (hid, k0, a1) ∈ ((KTable.upsertS heatSolid db.heats
              (ctx.matchId, c + 1) ⟨disp, v1, v2, v3, v4⟩).2).rows :=
            upsertS_idKey_persist hmem
          rw [hup] at h2
          exact h2
        rcases hmem1 with ⟨a1, hmem1⟩
        have hhid : hid ≠ heatId := by
          intro hcontra
          subst hcontra
          have hmemNew : (hid, (ctx.matchId, c + 1), (⟨disp, v1, v2, v3, v4⟩ : HeatVal)) ∈
              heats1.rows := by
            have := upsertS_mem hup
            exact this
          have := wf_key_unique hwf1 hmem1 hmemNew
          rw [this] at hk0
          omega
        have hnotin : (hid, sid) ∉ (buildParticipantRows ctx.matchId heatId disp
            ctx.riderMap ctx.statMap ctx.teleList ((h0.riders).getD [])).map
            Prod.fst := by
          rw [buildParticipantRows_keys]
          intro hcontra
          rcases List.mem_map.mp hcontra with ⟨sid0, _, heq⟩
          exact hhid (congrArg Prod.fst heq).symm
        have hstep : KTable.findKey partSolid
            (KTable.upsertMany partSolid db.heat_participants
              (buildParticipantRows ctx.matchId heatId disp ctx.riderMap ctx.statMap
                ctx.teleList ((h0.riders).getD []))).2 (hid, sid) =
            KTable.findKey partSolid db.heat_participants (hid, sid) :=
          findKey_upsertMany_ne hnotin
        have hres := ih h hwf1 hid sid ⟨k0, a1, hmem1, Nat.le_succ_of_le hk0⟩
        exact hres.trans hstep

lemma loadHeats_replay (ctx : HeatCtx) : ∀ {hs : List HeatBlock} {c : Nat}
    {db db' : DB}, loadHeats ctx hs c db = .ok db' → db.heats.wf →
    (∀ h0 ∈ hs, (partStatIdsCtx ctx h0).Nodup) →
    loadHeats ctx hs c db' = .ok db' := by
  intro hs
  induction hs with
  | nil =>
    intro c db db' h _ _
    have hdb : db = db' := by
      simp [loadHeats] at h
      exact h
    subst hdb
    exact h
  | cons h0 rest ih =>
    intro c db db' h hwf hnd
    rcases hh : h0.heat_number with _ | disp
    · rw [loadHeats_cons_nolabel ctx h0 rest c db hh] at h
      rw [loadHeats_cons_nolabel ctx h0 rest c db' hh]
      exact ih h hwf (fun hb hmem => hnd hb (by simp [hmem]))
    · by_cases hdisp : disp = ""
      · subst hdisp
        rw [loadHeats_cons_blank ctx h0 rest c db hh] at h
        rw [loadHeats_cons_blank ctx h0 rest c db' hh]
        exact ih h hwf (fun hb hmem => hnd hb (by simp [hmem]))
      · rcases hs1 : heatScoreField h0.hometeam_heat_score with _ | v1
        · rw [loadHeats_cons_err ctx h0 rest c db hh hdisp (Or.inl hs1)] at h
          simp at h
        rcases hs2 : heatScoreField h0.awayteam_heat_score with _ | v2
        · rw [loadHeats_cons_err ctx h0 rest c db hh hdisp (Or.inr (Or.inl hs2))] at h
          simp at h
        rcases hs3 : heatScoreField h0.hometeam_current_match_score with _ | v3
        · rw [loadHeats_cons_err ctx h0 rest c db hh hdisp
            (Or.inr (Or.inr (Or.inl hs3)))] at h
          simp at h
        rcases hs4 : heatScoreField h0.awayteam_current_match_score with _ | v4
        · rw [loadHeats_cons_err ctx h0 rest c db hh hdisp
            (Or.inr (Or.inr (Or.inr hs4)))] at h
          simp at h
        rcases hup : KTable.upsertS heatSolid db.heats (ctx.matchId, c + 1)
          ⟨disp, v1, v2, v3, v4⟩ with ⟨heatId, heats1⟩
        rw [loadHeats_cons_main ctx h0 rest c db hh hdisp hs1 hs2 hs3 hs4 hup] at h
        have hwf1 : heats1.wf := by
          have hw2 : ((KTable.upsertS heatSolid db.heats (ctx.matchId, c + 1)
              ⟨disp, v1, v2, v3, v4⟩).2).wf := upsertS_wf hwf
          rw [hup] at hw2
          exact hw2
        -- the heat upsert replays as a no-op on the final state
        have hfound1 : KTable.findKey heatSolid heats1 (ctx.matchId, c + 1) =
            some (heatId, (ctx.matchId, c + 1), ⟨disp, v1, v2, v3, v4⟩) :=
          upsertS_finds rfl hup
        have hframe1 : KTable.findKey heatSolid db'.heats (ctx.matchId, c + 1) =
            KTable.findKey heatSolid heats1 (ctx.matchId, c + 1) :=
          loadHeats_heats_frame ctx h (ctx.matchId, c + 1) (Nat.le_refl _)
        have hup' : KTable.upsertS heatSolid db'.heats (ctx.matchId, c + 1)
            ⟨disp, v1, v2, v3, v4⟩ = (heatId, db'.heats) :=
          upsertS_of_findKey_self (hframe1.trans hfound1)
        -- the participant upserts replay as no-ops on the final state
        have hndk : ((buildParticipantRows ctx.matchId heatId disp ctx.riderMap
            ctx.statMap ctx.teleList ((h0.riders).getD [])).map Prod.fst).Nodup := by
          rw [buildParticipantRows_keys]
          exact (hnd h0 (by simp)).map
            (fun a b hab => congrArg Prod.snd hab)
        rcases hupm : KTable.upsertMany partSolid db.heat_participants
            (buildParticipantRows ctx.matchId heatId disp ctx.riderMap ctx.statMap
              ctx.teleList ((h0.riders).getD [])) with ⟨pids, parts1⟩
        rw [hupm] at h
        simp only at h
        have hsolidAll : ∀ k ∈ (buildParticipantRows ctx.matchId heatId disp
            ctx.riderMap ctx.statMap ctx.teleList ((h0.riders).getD [])).map
            Prod.fst, partSolid k = true := fun k _ => rfl
        have hfoundEach := upsertMany_finds_each hsolidAll hndk hupm
        have hofound : (KTable.upsertMany partSolid db'.heat_participants
            (buildParticipantRows ctx.matchId heatId disp ctx.riderMap ctx.statMap
              ctx.teleList ((h0.riders).getD []))).2 = db'.heat_participants := by
          apply upsertMany_of_found
          intro ka hka
          rcases hfoundEach ka hka with ⟨j, hj⟩
          refine ⟨j, ?_⟩
          have hframe2 : KTable.findKey partSolid db'.heat_participants ka.1 =
              KTable.findKey partSolid parts1 ka.1 := by
            have hmemNew : (heatId, (ctx.matchId, c + 1),
                (⟨disp, v1, v2, v3, v4⟩ : HeatVal)) ∈ heats1.rows :=
              upsertS_mem hup
            have hka1 : ka.1.1 = heatId := by
              have : ka.1 ∈ (buildParticipantRows ctx.matchId heatId disp ctx.riderMap
                  ctx.statMap ctx.teleList ((h0.riders).getD [])).map Prod.fst :=
                List.mem_map.mpr ⟨ka, hka, rfl⟩
              rw [buildParticipantRows_keys] at this
              rcases List.mem_map.mp this with ⟨sid0, _, heq⟩
              exact (congrArg Prod.fst heq).symm
            have := loadHeats_parts_frame ctx h ?_ ka.1.1 ka.1.2 ?_
            · rw [show ((ka.1.1, ka.1.2) : Nat × Nat) = ka.1 from rfl] at this
              exact this
            · exact hwf1
            · exact ⟨(ctx.matchId, c + 1), ⟨disp, v1, v2, v3, v4⟩,
                by rw [hka1]; exact hmemNew, Nat.le_refl _⟩
          rw [hframe2]
          exact hj
        -- assemble the replayed step
        rw [loadHeats_cons_main ctx h0 rest c db' hh hdisp hs1 hs2 hs3 hs4 hup']
        rw [hofound]
        have hrec : loadHeats ctx rest (c + 1) db' = Except.ok db' :=
          ih h hwf1 (fun hb hmem => hnd hb (by simp [hmem]))
        exact hrec


/-! ### Teams table lemmas -/

lemma orElse_absorb {β : Type} (x y : Option β) :
    (x.orElse (fun _ => y)).orElse (fun _ => y) = x.orElse (fun _ => y) := by
  cases x <;> cases y <;> rfl

lemma orElse_none_eq {β : Type} (x : Option β) :
    x.orElse (fun _ => none) = x := by
  cases x <;> rfl

lemma find?_map_pred_mem {β : Type} {g : β → β} {p : β → Bool} :
    ∀ {l : List β}, (∀ x ∈ l, p (g x) = p x) →
    (l.map g).find? p = (l.find? p).map g := by
  intro l
  induction l with
  | nil => intro _; rfl
  | cons y ys ih =>
    intro hp
    rcases hpy : p y with _ | _
    · have hgy : p (g y) = false := (hp y (by simp)).trans hpy
      simp only [List.map_cons, List.find?_cons, hpy, hgy]
      exact ih (fun x hx => hp x (by simp [hx]))
    · have hgy : p (g y) = true := (hp y (by simp)).trans hpy
      simp [List.find?_cons, hpy, hgy]

lemma find?_map_unique {β : Type} (g : β → β) (p : β → Bool) {x0 : β} :
    ∀ {l : List β}, x0 ∈ l → p (g x0) = true →
    (∀ x ∈ l, p (g x) = true → x = x0) →
    (l.map g).find? p = some (g x0) := by
  intro l
  induction l with
  | nil => intro h _ _; simp at h
  | cons y ys ih =>
    intro hmem hx0 huniq
    rcases hpy : p (g y) with _ | _
    · have hyne : y ≠ x0 := by
        intro hcontra
        rw [hcontra] at hpy
        rw [hpy] at hx0
        exact Bool.false_ne_true hx0
      have hmem2 : x0 ∈ ys := by
        rcases List.mem_cons.mp hmem with h0 | h0
        · exact absurd h0.symm hyne
        · exact h0
      simp only [List.map_cons, List.find?_cons, hpy]
      exact ih hmem2 hx0 (fun x hx hpx => huniq x (by simp [hx]) hpx)
    · have hy0 : y = x0 := huniq y (by simp) hpy
      subst hy0
      simp [List.find?_cons, hpy]

lemma findByCode_mem {t : TeamsTable} {c : String} {r : Nat × TeamRow}
    (h : t.findByCode c = some r) : r ∈ t.rows :=
  List.mem_of_find?_eq_some h

lemma findByCode_code {t : TeamsTable} {c : String} {r : Nat × TeamRow}
    (h : t.findByCode c = some r) : r.2.team_code = some c := by
  have h2 := List.find?_some h
  simpa using h2

lemma findByName_mem {t : TeamsTable} {n : String} {r : Nat × TeamRow}
    (h : t.findByName n = some r) : r ∈ t.rows :=
  List.mem_of_find?_eq_some h

lemma findByName_name {t : TeamsTable} {n : String} {r : Nat × TeamRow}
    (h : t.findByName n = some r) : r.2.full_name = some n := by
  have h2 := List.find?_some h
  simpa using h2

lemma updateRow_eq_self {t : TeamsTable} {i : Nat} {f : TeamRow → TeamRow}
    (h : ∀ x ∈ t.rows, x.1 = i → f x.2 = x.2) : t.updateRow i f = t := by
  unfold TeamsTable.updateRow
  have hmap : t.rows.map (fun r => if r.1 = i then (r.1, f r.2) else r) = t.rows := by
    have h2 : t.rows.map (fun r => if r.1 = i then (r.1, f r.2) else r) =
        t.rows.map id := by
      apply List.map_congr_left
      intro x hx
      by_cases hxi : x.1 = i
      · rw [if_pos hxi, h x hx hxi]
        rfl
      · rw [if_neg hxi]
        rfl
    rw [h2, List.map_id]
  rw [hmap]

lemma updateRow_updateRow {t : TeamsTable} {i : Nat} {f : TeamRow → TeamRow}
    (hf : ∀ r0, f (f r0) = f r0) :
    (t.updateRow i f).updateRow i f = t.updateRow i f := by
  apply updateRow_eq_self
  intro x hx hxi
  rcases List.mem_map.mp hx with ⟨r0, _, hr0x⟩
  by_cases hr0i : r0.1 = i
  · rw [if_pos hr0i] at hr0x
    rw [← hr0x]
    exact hf r0.2
  · rw [if_neg hr0i] at hr0x
    rw [← hr0x] at hxi
    exact absurd hxi hr0i

lemma teams_wf_row_unique {t : TeamsTable} (hwf : t.wf) {i : Nat} {r1 r2 : TeamRow}
    (h1 : (i, r1) ∈ t.rows) (h2 : (i, r2) ∈ t.rows) : r1 = r2 :=
  congrArg Prod.snd (List.inj_on_of_nodup_map hwf.1 h1 h2 rfl)

lemma updateRow_wf {t : TeamsTable} {i : Nat} {f : TeamRow → TeamRow} (h : t.wf) :
    (t.updateRow i f).wf := by
  constructor
  · have hmap : (t.updateRow i f).rows.map (fun r => r.1) =
        t.rows.map (fun r => r.1) := by
      unfold TeamsTable.updateRow
      rw [List.map_map]
      apply List.map_congr_left
      intro x _
      by_cases hxi : x.1 = i
      · simp [Function.comp, hxi]
      · simp [Function.comp, hxi]
    rw [hmap]
    exact h.1
  · intro r0 hr0
    rcases List.mem_map.mp hr0 with ⟨r1, hr1, hr1x⟩
    have hb := h.2 r1 hr1
    by_cases hr1i : r1.1 = i
    · rw [if_pos hr1i] at hr1x
      rw [← hr1x]
      exact hb
    · rw [if_neg hr1i] at hr1x
      rw [← hr1x]
      exact hb

lemma append_row_wf {t : TeamsTable} {row : TeamRow} (h : t.wf) :
    (TeamsTable.mk (t.rows ++ [(t.nextId, row)]) (t.nextId + 1)).wf := by
  constructor
  · simp only [List.map_append, List.map_cons, List.map_nil]
    rw [List.nodup_append]
    refine ⟨h.1, List.nodup_singleton _, ?_⟩
    intro x hx hx2
    simp only [List.mem_singleton] at hx2
    rcases List.mem_map.mp hx with ⟨r0, hr0, hr0x⟩
    have hb := h.2 r0 hr0
    omega
  · intro r0 hr0
    rcases List.mem_append.mp hr0 with h0 | h0
    · have hb := h.2 r0 h0
      show r0.1 < t.nextId + 1
      omega
    · simp only [List.mem_singleton] at h0
      subst h0
      show t.nextId < t.nextId + 1
      omega

lemma insertCND_wf {t : TeamsTable} {row : TeamRow} (h : t.wf) :
    ((t.insertCND row).2).wf := by
  unfold TeamsTable.insertCND
  split
  · split
    · exact h
    · exact append_row_wf h
  · exact append_row_wf h

lemma teamInsertStage_wf {t2 : TeamsTable} {code name : Option String}
    {arenaId : Option Nat} (h : t2.wf) :
    ((teamInsertStage t2 code name arenaId).2).wf := by
  unfold teamInsertStage
  split
  · have h3 : ((t2.insertCND ⟨code, name, arenaId⟩).2).wf := insertCND_wf h
    split
    · rename_i i t3 heq
      rw [heq] at h3
      exact h3
    · rename_i t3 heq
      rw [heq] at h3
      split
      · split
        · split
          · exact h3
          · exact h3
        · exact h3
      · exact h3
  · exact h

lemma teamNameStage_wf {t1 : TeamsTable} {code name : Option String}
    {arenaId : Option Nat} (h : t1.wf) :
    ((teamNameStage t1 code name arenaId).2).wf := by
  rcases name with _ | n
  · exact teamInsertStage_wf h
  · by_cases hn : n = ""
    · subst hn
      simp only [teamNameStage, ne_eq, not_true_eq_false, if_false]
      exact teamInsertStage_wf h
    · simp only [teamNameStage, ne_eq, hn, not_false_eq_true, if_true]
      rcases hfn : t1.findByName n with _ | r
      · exact teamInsertStage_wf h
      · exact updateRow_wf h

lemma processTeamG_wf {t : TeamsTable} {code name : Option String}
    {arenaId : Option Nat} (h : t.wf) :
    ((processTeamG t code name arenaId).2).wf := by
  rcases code with _ | c
  · exact teamNameStage_wf h
  · by_cases hc : c = ""
    · subst hc
      simp only [processTeamG, ne_eq, not_true_eq_false, if_false]
      exact teamNameStage_wf h
    · simp only [processTeamG, ne_eq, hc, not_false_eq_true, if_true]
      rcases hfc : t.findByCode c with _ | r
      · exact teamNameStage_wf h
      · exact updateRow_wf h


lemma orElse_self_eq {β : Type} (x : Option β) :
    x.orElse (fun _ => x) = x := by
  cases x <;> rfl

lemma bna_idem {name : Option String} {arenaId : Option Nat} (row : TeamRow) :
    backfillNameArena name arenaId (backfillNameArena name arenaId row) =
      backfillNameArena name arenaId row := by
  cases row
  simp [backfillNameArena, orElse_absorb]

lemma bca_idem {code : Option String} {arenaId : Option Nat} (row : TeamRow) :
    backfillCodeArena code arenaId (backfillCodeArena code arenaId row) =
      backfillCodeArena code arenaId row := by
  cases row
  simp [backfillCodeArena, orElse_absorb]

lemma bna_team_code {name : Option String} {arenaId : Option Nat} (row : TeamRow) :
    (backfillNameArena name arenaId row).team_code = row.team_code := rfl

lemma bca_full_name {code : Option String} {arenaId : Option Nat} (row : TeamRow) :
    (backfillCodeArena code arenaId row).full_name = row.full_name := rfl

lemma find?_append_none {β : Type} {p : β → Bool} :
    ∀ {l1 : List β}, l1.find? p = none → ∀ l2 : List β,
      (l1 ++ l2).find? p = l2.find? p := by
  intro l1
  induction l1 with
  | nil => intro _ l2; rfl
  | cons y ys ih =>
    intro h l2
    rcases hpy : p y with _ | _
    · rw [List.find?_cons_of_neg _ (by simp [hpy])] at h
      rw [List.cons_append, List.find?_cons_of_neg _ (by simp [hpy])]
      exact ih h l2
    · rw [List.find?_cons_of_pos _ hpy] at h
      exact absurd h (by simp)

/-! Reduction equations for the team-processing stages. -/

lemma processTeamG_code_none {t : TeamsTable} {name : Option String}
    {arenaId : Option Nat} :
    processTeamG t none name arenaId = teamNameStage t none name arenaId := rfl

lemma processTeamG_code_blank {t : TeamsTable} {name : Option String}
    {arenaId : Option Nat} :
    processTeamG t (some "") name arenaId =
      teamNameStage t (some "") name arenaId := by
  simp [processTeamG]

lemma processTeamG_code_hit {t : TeamsTable} {c : String} {name : Option String}
    {arenaId : Option Nat} {r : Nat × TeamRow}
    (hc : c ≠ "") (hfc : t.findByCode c = some r) :
    processTeamG t (some c) name arenaId =
      (some r.1, t.updateRow r.1 (backfillNameArena name arenaId)) := by
  simp [processTeamG, hc, hfc]

lemma processTeamG_code_miss {t : TeamsTable} {c : String} {name : Option String}
    {arenaId : Option Nat} (hc : c ≠ "") (hfc : t.findByCode c = none) :
    processTeamG t (some c) name arenaId =
      teamNameStage t (some c) name arenaId := by
  simp [processTeamG, hc, hfc]

lemma teamNameStage_name_none {t : TeamsTable} {code : Option String}
    {arenaId : Option Nat} :
    teamNameStage t code none arenaId = teamInsertStage t code none arenaId := rfl

lemma teamNameStage_name_blank {t : TeamsTable} {code : Option String}
    {arenaId : Option Nat} :
    teamNameStage t code (some "") arenaId =
      teamInsertStage t code (some "") arenaId := by
  simp [teamNameStage]

lemma teamNameStage_hit {t : TeamsTable} {code : Option String} {n : String}
    {arenaId : Option Nat} {r : Nat × TeamRow}
    (hn : n ≠ "") (hfn : t.findByName n = some r) :
    teamNameStage t code (some n) arenaId =
      (some r.1, t.updateRow r.1 (backfillCodeArena code arenaId)) := by
  simp [teamNameStage, hn, hfn]

lemma teamNameStage_miss {t : TeamsTable} {code : Option String} {n : String}
    {arenaId : Option Nat} (hn : n ≠ "") (hfn : t.findByName n = none) :
    teamNameStage t code (some n) arenaId =
      teamInsertStage t code (some n) arenaId := by
  simp [teamNameStage, hn, hfn]

lemma teamInsertStage_falsy {t : TeamsTable} {code name : Option String}
    {arenaId : Option Nat} (hg : (pyTruthy code || pyTruthy name) = false) :
    teamInsertStage t code name arenaId = (none, t) := by
  simp [teamInsertStage, hg]

lemma teamInsertStage_code_none {t : TeamsTable} {name : Option String}
    {arenaId : Option Nat} (hg : pyTruthy name = true) :
    teamInsertStage t none name arenaId =
      (some t.nextId,
        TeamsTable.mk (t.rows ++ [(t.nextId, ⟨none, name, arenaId⟩)])
          (t.nextId + 1)) := by
  simp [teamInsertStage, TeamsTable.insertCND, hg]

lemma teamInsertStage_insert {t : TeamsTable} {c : String} {name : Option String}
    {arenaId : Option Nat} (hfc : t.findByCode c = none)
    (hg : (pyTruthy (some c) || pyTruthy name) = true) :
    teamInsertStage t (some c) name arenaId =
      (some t.nextId,
        TeamsTable.mk (t.rows ++ [(t.nextId, ⟨some c, name, arenaId⟩)])
          (t.nextId + 1)) := by
  simp [teamInsertStage, TeamsTable.insertCND, hg, hfc]

lemma teamInsertStage_conflict_blank {t : TeamsTable} {name : Option String}
    {arenaId : Option Nat} {r : Nat × TeamRow}
    (hfc : t.findByCode "" = some r) (hg : pyTruthy name = true) :
    teamInsertStage t (some "") name arenaId = (none, t) := by
  simp [teamInsertStage, TeamsTable.insertCND, pyTruthy, hg, hfc]


lemma findByCode_updateRow_bna {t : TeamsTable} {c : String} {r : Nat × TeamRow}
    {name : Option String} {arenaId : Option Nat} (h : t.findByCode c = some r) :
    (t.updateRow r.1 (backfillNameArena name arenaId)).findByCode c =
      some (r.1, backfillNameArena name arenaId r.2) := by
  unfold TeamsTable.findByCode TeamsTable.updateRow
  unfold TeamsTable.findByCode at h
  rw [find?_map_pred_mem, h]
  · simp
  · intro x _
    by_cases hxi : x.1 = r.1
    · rw [if_pos hxi]
      rfl
    · rw [if_neg hxi]

lemma findByName_updateRow_bca {t : TeamsTable} {n : String} {r : Nat × TeamRow}
    {code : Option String} {arenaId : Option Nat} (h : t.findByName n = some r) :
    (t.updateRow r.1 (backfillCodeArena code arenaId)).findByName n =
      some (r.1, backfillCodeArena code arenaId r.2) := by
  unfold TeamsTable.findByName TeamsTable.updateRow
  unfold TeamsTable.findByName at h
  rw [find?_map_pred_mem, h]
  · simp
  · intro x _
    by_cases hxi : x.1 = r.1
    · rw [if_pos hxi]
      rfl
    · rw [if_neg hxi]

lemma findByCode_updateRow_gain {t : TeamsTable} {c : String}
    {r : Nat × TeamRow} {code : Option String} {arenaId : Option Nat}
    (hwf : t.wf) (hmiss : t.findByCode c = none) (hr : r ∈ t.rows)
    (hgain : (backfillCodeArena code arenaId r.2).team_code = some c) :
    (t.updateRow r.1 (backfillCodeArena code arenaId)).findByCode c =
      some (r.1, backfillCodeArena code arenaId r.2) := by
  unfold TeamsTable.findByCode TeamsTable.updateRow
  have hall := List.find?_eq_none.mp hmiss
  have hres := find?_map_unique
      (fun x => if x.1 = r.1 then (x.1, backfillCodeArena code arenaId x.2) else x)
      (fun x => decide (x.2.team_code = some c)) hr ?_ ?_
  · rw [hres]
    simp
  · simp [hgain]
  · intro x hx hpx
    obtain ⟨xi, xr⟩ := x
    simp only at hpx
    by_cases hxi : xi = r.1
    · subst hxi
      have he : xr = r.2 := teams_wf_row_unique hwf hx hr
      rw [he]
    · simp only [if_neg hxi] at hpx
      exact absurd hpx (hall (xi, xr) hx)

lemma findByCode_updateRow_keep {t : TeamsTable} {c : String}
    {r : Nat × TeamRow} {code : Option String} {arenaId : Option Nat}
    (hwf : t.wf) (hmiss : t.findByCode c = none) (hr : r ∈ t.rows)
    (hkeep : ¬(backfillCodeArena code arenaId r.2).team_code = some c) :
    (t.updateRow r.1 (backfillCodeArena code arenaId)).findByCode c = none := by
  unfold TeamsTable.findByCode TeamsTable.updateRow
  rw [List.find?_eq_none]
  intro x hx
  rcases List.mem_map.mp hx with ⟨x0, hx0, hx0x⟩
  have hall := List.find?_eq_none.mp hmiss
  obtain ⟨xi, xr⟩ := x0
  simp only at hx0x
  by_cases hxi : xi = r.1
  · subst hxi
    rw [if_pos rfl] at hx0x
    have he : xr = r.2 := teams_wf_row_unique hwf hx0 hr
    subst he
    rw [← hx0x]
    simpa using hkeep
  · rw [if_neg hxi] at hx0x
    rw [← hx0x]
    exact hall (xi, xr) hx0

lemma updateRow_updateRow_fixed {t : TeamsTable} {i : Nat} {f g : TeamRow → TeamRow}
    (h : ∀ x ∈ t.rows, x.1 = i → g (f x.2) = f x.2) :
    (t.updateRow i f).updateRow i g = t.updateRow i f := by
  apply updateRow_eq_self
  intro x hx hxi
  rcases List.mem_map.mp hx with ⟨x0, hx0, hx0x⟩
  by_cases hx0i : x0.1 = i
  · rw [if_pos hx0i] at hx0x
    rw [← hx0x]
    exact h x0 hx0 hx0i
  · rw [if_neg hx0i] at hx0x
    rw [← hx0x] at hxi
    exact absurd hxi hx0i

lemma updateRow_append_fixed {t : TeamsTable} {row : TeamRow} {f : TeamRow → TeamRow}
    (hwf : t.wf) (hfix : f row = row) :
    (TeamsTable.mk (t.rows ++ [(t.nextId, row)]) (t.nextId + 1)).updateRow
        t.nextId f =
      TeamsTable.mk (t.rows ++ [(t.nextId, row)]) (t.nextId + 1) := by
  apply updateRow_eq_self
  intro x hx hxi
  rcases List.mem_append.mp hx with h0 | h0
  · exfalso
    have hb := hwf.2 x h0
    omega
  · simp only [List.mem_singleton] at h0
    subst h0
    exact hfix

lemma findByCode_append_hit {t : TeamsTable} {row : TeamRow} {c : String}
    (hnone : t.findByCode c = none) (hrow : row.team_code = some c) :
    (TeamsTable.mk (t.rows ++ [(t.nextId, row)]) (t.nextId + 1)).findByCode c =
      some (t.nextId, row) := by
  unfold TeamsTable.findByCode at *
  rw [find?_append_none hnone]
  rw [List.find?_cons_of_pos _ (by simpa using hrow)]

lemma findByName_append_hit {t : TeamsTable} {row : TeamRow} {n : String}
    (hnone : t.findByName n = none) (hrow : row.full_name = some n) :
    (TeamsTable.mk (t.rows ++ [(t.nextId, row)]) (t.nextId + 1)).findByName n =
      some (t.nextId, row) := by
  unfold TeamsTable.findByName at *
  rw [find?_append_none hnone]
  rw [List.find?_cons_of_pos _ (by simpa using hrow)]


/-! Replay behaviour of the individual team-processing outcomes. -/

lemma replay_code_hit {t : TeamsTable} {c : String} {name : Option String}
    {arenaId : Option Nat} {r : Nat × TeamRow}
    (hc : c ≠ "") (hfc : t.findByCode c = some r) :
    processTeamG (t.updateRow r.1 (backfillNameArena name arenaId)) (some c)
        name arenaId =
      (some r.1, t.updateRow r.1 (backfillNameArena name arenaId)) := by
  have hfc1 : (t.updateRow r.1 (backfillNameArena name arenaId)).findByCode c =
      some (r.1, backfillNameArena name arenaId r.2) := findByCode_updateRow_bna hfc
  rw [processTeamG_code_hit hc hfc1]
  refine Prod.ext rfl ?_
  exact updateRow_updateRow (fun r0 => bna_idem r0)

lemma replay_name_stage_hit {t : TeamsTable} {n : String} {code : Option String}
    {arenaId : Option Nat} {r : Nat × TeamRow}
    (hn : n ≠ "") (hfn : t.findByName n = some r) :
    teamNameStage (t.updateRow r.1 (backfillCodeArena code arenaId)) code
        (some n) arenaId =
      (some r.1, t.updateRow r.1 (backfillCodeArena code arenaId)) := by
  have hfn1 : (t.updateRow r.1 (backfillCodeArena code arenaId)).findByName n =
      some (r.1, backfillCodeArena code arenaId r.2) := findByName_updateRow_bca hfn
  rw [teamNameStage_hit hn hfn1]
  refine Prod.ext rfl ?_
  exact updateRow_updateRow (fun r0 => bca_idem r0)

lemma replay_insert_code {t : TeamsTable} {c : String} {name : Option String}
    {arenaId : Option Nat}
    (hwf : t.wf) (hc : c ≠ "") (hfc : t.findByCode c = none) :
    processTeamG
        (TeamsTable.mk (t.rows ++ [(t.nextId, ⟨some c, name, arenaId⟩)])
          (t.nextId + 1)) (some c) name arenaId =
      (some t.nextId,
        TeamsTable.mk (t.rows ++ [(t.nextId, ⟨some c, name, arenaId⟩)])
          (t.nextId + 1)) := by
  have hhit : (TeamsTable.mk (t.rows ++ [(t.nextId, ⟨some c, name, arenaId⟩)])
      (t.nextId + 1)).findByCode c = some (t.nextId, ⟨some c, name, arenaId⟩) :=
    findByCode_append_hit hfc rfl
  rw [processTeamG_code_hit hc hhit]
  refine Prod.ext rfl ?_
  exact updateRow_append_fixed hwf (by cases name <;> cases arenaId <;> rfl)

lemma replay_insert_name_code_none {t : TeamsTable} {n : String}
    {arenaId : Option Nat}
    (hwf : t.wf) (hn : n ≠ "") (hfn : t.findByName n = none) :
    processTeamG
        (TeamsTable.mk (t.rows ++ [(t.nextId, ⟨none, some n, arenaId⟩)])
          (t.nextId + 1)) none (some n) arenaId =
      (some t.nextId,
        TeamsTable.mk (t.rows ++ [(t.nextId, ⟨none, some n, arenaId⟩)])
          (t.nextId + 1)) := by
  rw [processTeamG_code_none]
  have hhit : (TeamsTable.mk (t.rows ++ [(t.nextId, ⟨none, some n, arenaId⟩)])
      (t.nextId + 1)).findByName n = some (t.nextId, ⟨none, some n, arenaId⟩) :=
    findByName_append_hit hfn rfl
  rw [teamNameStage_hit hn hhit]
  refine Prod.ext rfl ?_
  exact updateRow_append_fixed hwf (by cases arenaId <;> rfl)

lemma replay_insert_name_code_blank {t : TeamsTable} {n : String}
    {arenaId : Option Nat}
    (hwf : t.wf) (hn : n ≠ "") (hfn : t.findByName n = none) :
    processTeamG
        (TeamsTable.mk (t.rows ++ [(t.nextId, ⟨some "", some n, arenaId⟩)])
          (t.nextId + 1)) (some "") (some n) arenaId =
      (some t.nextId,
        TeamsTable.mk (t.rows ++ [(t.nextId, ⟨some "", some n, arenaId⟩)])
          (t.nextId + 1)) := by
  rw [processTeamG_code_blank]
  have hhit : (TeamsTable.mk (t.rows ++ [(t.nextId, ⟨some "", some n, arenaId⟩)])
      (t.nextId + 1)).findByName n = some (t.nextId, ⟨some "", some n, arenaId⟩) :=
    findByName_append_hit hfn rfl
  rw [teamNameStage_hit hn hhit]
  refine Prod.ext rfl ?_
  exact updateRow_append_fixed hwf (by cases arenaId <;> rfl)

lemma replay_gain {t : TeamsTable} {c n : String} {arenaId : Option Nat}
    {r : Nat × TeamRow}
    (hwf : t.wf) (hc : c ≠ "") (hfc : t.findByCode c = none)
    (hn : n ≠ "") (hfn : t.findByName n = some r)
    (hrc : r.2.team_code = none) :
    processTeamG (t.updateRow r.1 (backfillCodeArena (some c) arenaId)) (some c)
        (some n) arenaId =
      (some r.1, t.updateRow r.1 (backfillCodeArena (some c) arenaId)) := by
  have hgain : (backfillCodeArena (some c) arenaId r.2).team_code = some c := by
    simp [backfillCodeArena, hrc]
  have hhit : (t.updateRow r.1 (backfillCodeArena (some c) arenaId)).findByCode c =
      some (r.1, backfillCodeArena (some c) arenaId r.2) :=
    findByCode_updateRow_gain hwf hfc (findByName_mem hfn) hgain
  rw [processTeamG_code_hit hc hhit]
  refine Prod.ext rfl ?_
  apply updateRow_updateRow_fixed
  intro x hx hxi
  obtain ⟨xi, xr⟩ := x
  simp only at hxi
  subst hxi
  have he : xr = r.2 := teams_wf_row_unique hwf hx (findByName_mem hfn)
  subst he
  have hname := findByName_name hfn
  simp [backfillNameArena, backfillCodeArena, hname, hrc, orElse_absorb]

lemma replay_keep {t : TeamsTable} {c n : String} {arenaId : Option Nat}
    {r : Nat × TeamRow}
    (hwf : t.wf) (hc : c ≠ "") (hfc : t.findByCode c = none)
    (hn : n ≠ "") (hfn : t.findByName n = some r)
    (hrc : ¬r.2.team_code = none) :
    processTeamG (t.updateRow r.1 (backfillCodeArena (some c) arenaId)) (some c)
        (some n) arenaId =
      (some r.1, t.updateRow r.1 (backfillCodeArena (some c) arenaId)) := by
  have hrne : ¬r.2.team_code = some c := by
    have hall := List.find?_eq_none.mp hfc
    have h2 := hall r (findByName_mem hfn)
    simpa using h2
  have hkeep : ¬(backfillCodeArena (some c) arenaId r.2).team_code = some c := by
    rcases hrc2 : r.2.team_code with _ | c0
    · exact absurd hrc2 hrc
    · rw [hrc2] at hrne
      simpa [backfillCodeArena, hrc2] using hrne
  have hmiss1 : (t.updateRow r.1 (backfillCodeArena (some c) arenaId)).findByCode c =
      none := findByCode_updateRow_keep hwf hfc (findByName_mem hfn) hkeep
  rw [processTeamG_code_miss hc hmiss1]
  exact replay_name_stage_hit hn hfn


/-- Running the shared team-processing routine a second time against the
state it produced returns the same id and leaves the table unchanged. -/
lemma processTeamG_replay {t : TeamsTable} {code name : Option String}
    {arenaId : Option Nat} {i : Option Nat} {t1 : TeamsTable}
    (hwf : t.wf) (h : processTeamG t code name arenaId = (i, t1)) :
    processTeamG t1 code name arenaId = (i, t1) := by
  rcases code with _ | c
  · rw [processTeamG_code_none] at h
    rcases name with _ | n
    · rw [teamNameStage_name_none, teamInsertStage_falsy (by decide)] at h
      injection h with h1 h2
      subst h1
      subst h2
      rw [processTeamG_code_none, teamNameStage_name_none,
        teamInsertStage_falsy (by decide)]
    · by_cases hn : n = ""
      · subst hn
        rw [teamNameStage_name_blank, teamInsertStage_falsy (by decide)] at h
        injection h with h1 h2
        subst h1
        subst h2
        rw [processTeamG_code_none, teamNameStage_name_blank,
          teamInsertStage_falsy (by decide)]
      · rcases hfn : t.findByName n with _ | r
        · rw [teamNameStage_miss hn hfn,
            teamInsertStage_code_none (by simp [pyTruthy, hn])] at h
          injection h with h1 h2
          subst h1
          subst h2
          exact replay_insert_name_code_none hwf hn hfn
        · rw [teamNameStage_hit hn hfn] at h
          injection h with h1 h2
          subst h1
          subst h2
          rw [processTeamG_code_none]
          exact replay_name_stage_hit hn hfn
  · by_cases hc0 : c = ""
    · subst hc0
      rw [processTeamG_code_blank] at h
      rcases name with _ | n
      · rw [teamNameStage_name_none, teamInsertStage_falsy (by decide)] at h
        injection h with h1 h2
        subst h1
        subst h2
        rw [processTeamG_code_blank, teamNameStage_name_none,
          teamInsertStage_falsy (by decide)]
      · by_cases hn : n = ""
        · subst hn
          rw [teamNameStage_name_blank, teamInsertStage_falsy (by decide)] at h
          injection h with h1 h2
          subst h1
          subst h2
          rw [processTeamG_code_blank, teamNameStage_name_blank,
            teamInsertStage_falsy (by decide)]
        · rcases hfn : t.findByName n with _ | r
          · rw [teamNameStage_miss hn hfn] at h
            rcases hfcb : t.findByCode "" with _ | rb
            · rw [teamInsertStage_insert hfcb (by simp [pyTruthy, hn])] at h
              injection h with h1 h2
              subst h1
              subst h2
              exact replay_insert_name_code_blank hwf hn hfn
            · rw [teamInsertStage_conflict_blank hfcb (by simp [pyTruthy, hn])] at h
              injection h with h1 h2
              subst h1
              subst h2
              rw [processTeamG_code_blank, teamNameStage_miss hn hfn,
                teamInsertStage_conflict_blank hfcb (by simp [pyTruthy, hn])]
          · rw [teamNameStage_hit hn hfn] at h
            injection h with h1 h2
            subst h1
            subst h2
            rw [processTeamG_code_blank]
            exact replay_name_stage_hit hn hfn
    · have hc : c ≠ "" := hc0
      rcases hfc : t.findByCode c with _ | r
      · rw [processTeamG_code_miss hc hfc] at h
        rcases name with _ | n
        · rw [teamNameStage_name_none,
            teamInsertStage_insert hfc (by simp [pyTruthy, hc])] at h
          injection h with h1 h2
          subst h1
          subst h2
          exact replay_insert_code hwf hc hfc
        · by_cases hn : n = ""
          · subst hn
            rw [teamNameStage_name_blank,
              teamInsertStage_insert hfc (by simp [pyTruthy, hc])] at h
            injection h with h1 h2
            subst h1
            subst h2
            exact replay_insert_code hwf hc hfc
          · rcases hfn : t.findByName n with _ | r2
            · rw [teamNameStage_miss hn hfn,
                teamInsertStage_insert hfc (by simp [pyTruthy, hc])] at h
              injection h with h1 h2
              subst h1
              subst h2
              exact replay_insert_code hwf hc hfc
            · rw [teamNameStage_hit hn hfn] at h
              injection h with h1 h2
              subst h1
              subst h2
              rcases hrc : r2.2.team_code with _ | c0
              · exact replay_gain hwf hc hfc hn hfn hrc
              · exact replay_keep hwf hc hfc hn hfn (by simp [hrc])
      · rw [processTeamG_code_hit hc hfc] at h
        injection h with h1 h2
        subst h1
        subst h2
        exact replay_code_hit hc hfc


/-! ### Stability of team lookups under a second, disjoint team run. -/

lemma map_eq_self_mem {β : Type} {g : β → β} :
    ∀ {l : List β}, l.map g = l → ∀ x ∈ l, g x = x := by
  intro l
  induction l with
  | nil => intro _ x hx; simp at hx
  | cons y ys ih =>
    intro h x hx
    rw [List.map_cons] at h
    injection h with h1 h2
    rcases List.mem_cons.mp hx with h0 | h0
    · subst h0
      exact h1
    · exact ih h2 x h0

lemma fixedAt_of_updateRow_eq {t : TeamsTable} {i : Nat} {f : TeamRow → TeamRow}
    (h : t.updateRow i f = t) : fixedAt t i f := by
  intro x hx hxi
  have hrows : t.rows.map (fun r => if r.1 = i then (r.1, f r.2) else r) = t.rows :=
    congrArg TeamsTable.rows h
  have hgx := map_eq_self_mem hrows x hx
  rw [if_pos hxi] at hgx
  have h2 := congrArg Prod.snd hgx
  simpa using h2

lemma updateRow_eq_of_fixedAt {t : TeamsTable} {i : Nat} {f : TeamRow → TeamRow}
    (h : fixedAt t i f) : t.updateRow i f = t :=
  updateRow_eq_self h

lemma fixedAt_updateRow {t : TeamsTable} {i j : Nat} {f g : TeamRow → TeamRow}
    (hfix : fixedAt t i f) (hstep : ∀ x : TeamRow, f x = x → f (g x) = g x) :
    fixedAt (t.updateRow j g) i f := by
  intro x hx hxi
  rcases List.mem_map.mp hx with ⟨x0, hx0, hx0x⟩
  by_cases hx0j : x0.1 = j
  · rw [if_pos hx0j] at hx0x
    rw [← hx0x] at hxi ⊢
    exact hstep x0.2 (hfix x0 hx0 (by simpa using hxi))
  · rw [if_neg hx0j] at hx0x
    rw [← hx0x] at hxi ⊢
    exact hfix x0 hx0 hxi

lemma fixedAt_append {t : TeamsTable} {i : Nat} {f : TeamRow → TeamRow}
    {row : TeamRow} (hfix : fixedAt t i f) (hi : i < t.nextId) :
    fixedAt (TeamsTable.mk (t.rows ++ [(t.nextId, row)]) (t.nextId + 1)) i f := by
  intro x hx hxi
  rcases List.mem_append.mp hx with h0 | h0
  · exact hfix x h0 hxi
  · exfalso
    simp only [List.mem_singleton] at h0
    subst h0
    simp only at hxi
    omega

lemma bna_fix_bna {hn an : Option String} {ha : Option Nat} {x : TeamRow}
    (hfix : backfillNameArena hn ha x = x) :
    backfillNameArena hn ha (backfillNameArena an none x) =
      backfillNameArena an none x := by
  obtain ⟨xc, xn, xa⟩ := x
  simp only [backfillNameArena, TeamRow.mk.injEq, true_and] at hfix ⊢
  obtain ⟨h1, h2⟩ := hfix
  refine ⟨?_, ?_⟩
  · cases xn with
    | some v => rfl
    | none =>
      have hn0 : hn = none := by simpa using h1
      subst hn0
      exact orElse_none_eq _
  · rw [orElse_none_eq]
    exact h2

lemma bna_fix_bca {hn : Option String} {ha : Option Nat} {ac : Option String}
    {x : TeamRow} (hfix : backfillNameArena hn ha x = x) :
    backfillNameArena hn ha (backfillCodeArena ac none x) =
      backfillCodeArena ac none x := by
  obtain ⟨xc, xn, xa⟩ := x
  simp only [backfillNameArena, backfillCodeArena, TeamRow.mk.injEq,
    true_and] at hfix ⊢
  obtain ⟨h1, h2⟩ := hfix
  refine ⟨h1, ?_⟩
  rw [orElse_none_eq]
  exact h2

lemma bca_fix_bna {hc : Option String} {ha : Option Nat} {an : Option String}
    {x : TeamRow} (hfix : backfillCodeArena hc ha x = x) :
    backfillCodeArena hc ha (backfillNameArena an none x) =
      backfillNameArena an none x := by
  obtain ⟨xc, xn, xa⟩ := x
  simp only [backfillNameArena, backfillCodeArena, TeamRow.mk.injEq,
    true_and] at hfix ⊢
  obtain ⟨h1, h2⟩ := hfix
  refine ⟨h1, ?_⟩
  rw [orElse_none_eq]
  exact h2

lemma bca_fix_bca {hc : Option String} {ha : Option Nat} {ac : Option String}
    {x : TeamRow} (hfix : backfillCodeArena hc ha x = x) :
    backfillCodeArena hc ha (backfillCodeArena ac none x) =
      backfillCodeArena ac none x := by
  obtain ⟨xc, xn, xa⟩ := x
  simp only [backfillCodeArena, TeamRow.mk.injEq, true_and] at hfix ⊢
  obtain ⟨h1, h2⟩ := hfix
  refine ⟨?_, ?_⟩
  · cases xc with
    | some v => rfl
    | none =>
      have hc0 : hc = none := by simpa using h1
      subst hc0
      exact orElse_none_eq _
  · rw [orElse_none_eq]
    exact h2

lemma find?_append_some {β : Type} {p : β → Bool} {r : β} :
    ∀ {l1 : List β}, l1.find? p = some r → ∀ l2 : List β,
      (l1 ++ l2).find? p = some r := by
  intro l1
  induction l1 with
  | nil => intro h; simp at h
  | cons y ys ih =>
    intro h l2
    rcases hpy : p y with _ | _
    · rw [List.find?_cons_of_neg _ (by simp [hpy])] at h
      rw [List.cons_append, List.find?_cons_of_neg _ (by simp [hpy])]
      exact ih h l2
    · rw [List.find?_cons_of_pos _ hpy] at h
      rw [List.cons_append, List.find?_cons_of_pos _ hpy]
      exact h

lemma find?_exists_of_mem {β : Type} (p : β → Bool) :
    ∀ {l : List β} {x0 : β}, x0 ∈ l → p x0 = true →
      ∃ r, l.find? p = some r := by
  intro l
  induction l with
  | nil => intro x0 h; simp at h
  | cons y ys ih =>
    intro x0 hmem hp
    rcases hpy : p y with _ | _
    · rw [List.find?_cons_of_neg _ (by simp [hpy])]
      rcases List.mem_cons.mp hmem with h0 | h0
      · subst h0
        rw [hpy] at hp
        exact absurd hp (by simp)
      · exact ih h0 hp
    · exact ⟨y, List.find?_cons_of_pos _ hpy⟩

lemma findByCode_updateRow_bna_any {t : TeamsTable} {c : String} {j : Nat}
    {an : Option String} {a2 : Option Nat} :
    (t.updateRow j (backfillNameArena an a2)).findByCode c =
      (t.findByCode c).map
        (fun x => if x.1 = j then (x.1, backfillNameArena an a2 x.2) else x) := by
  unfold TeamsTable.findByCode TeamsTable.updateRow
  apply find?_map_pred_mem
  intro x _
  show decide ((if x.1 = j then (x.1, backfillNameArena an a2 x.2) else x).2.team_code
      = some c) = decide (x.2.team_code = some c)
  by_cases hxj : x.1 = j
  · rw [if_pos hxj]
    rfl
  · rw [if_neg hxj]

lemma findByName_updateRow_bca_any {t : TeamsTable} {n : String} {j : Nat}
    {ac : Option String} {a2 : Option Nat} :
    (t.updateRow j (backfillCodeArena ac a2)).findByName n =
      (t.findByName n).map
        (fun x => if x.1 = j then (x.1, backfillCodeArena ac a2 x.2) else x) := by
  unfold TeamsTable.findByName TeamsTable.updateRow
  apply find?_map_pred_mem
  intro x _
  show decide ((if x.1 = j then (x.1, backfillCodeArena ac a2 x.2) else x).2.full_name
      = some n) = decide (x.2.full_name = some n)
  by_cases hxj : x.1 = j
  · rw [if_pos hxj]
    rfl
  · rw [if_neg hxj]

lemma findByCode_updateRow_bca_ne {t : TeamsTable} {c : String} {j : Nat}
    {ac : Option String} {a2 : Option Nat} (hac : ¬ac = some c) :
    (t.updateRow j (backfillCodeArena ac a2)).findByCode c =
      (t.findByCode c).map
        (fun x => if x.1 = j then (x.1, backfillCodeArena ac a2 x.2) else x) := by
  unfold TeamsTable.findByCode TeamsTable.updateRow
  apply find?_map_pred_mem
  intro x _
  show decide ((if x.1 = j then (x.1, backfillCodeArena ac a2 x.2) else x).2.team_code
      = some c) = decide (x.2.team_code = some c)
  rw [decide_eq_decide]
  by_cases hxj : x.1 = j
  · rw [if_pos hxj]
    show (backfillCodeArena ac a2 x.2).team_code = some c ↔ x.2.team_code = some c
    rcases hxc : x.2.team_code with _ | c0
    · simp [backfillCodeArena, hxc, hac]
    · simp [backfillCodeArena, hxc]
  · rw [if_neg hxj]

lemma findByName_updateRow_bna_ne {t : TeamsTable} {n : String} {j : Nat}
    {an : Option String} {a2 : Option Nat} (han : ¬an = some n) :
    (t.updateRow j (backfillNameArena an a2)).findByName n =
      (t.findByName n).map
        (fun x => if x.1 = j then (x.1, backfillNameArena an a2 x.2) else x) := by
  unfold TeamsTable.findByName TeamsTable.updateRow
  apply find?_map_pred_mem
  intro x _
  show decide ((if x.1 = j then (x.1, backfillNameArena an a2 x.2) else x).2.full_name
      = some n) = decide (x.2.full_name = some n)
  rw [decide_eq_decide]
  by_cases hxj : x.1 = j
  · rw [if_pos hxj]
    show (backfillNameArena an a2 x.2).full_name = some n ↔ x.2.full_name = some n
    rcases hxn : x.2.full_name with _ | n0
    · simp [backfillNameArena, hxn, han]
    · simp [backfillNameArena, hxn]
  · rw [if_neg hxj]

lemma findByCode_append_pres {t : TeamsTable} {row : TeamRow} {c : String}
    (hrow : ¬row.team_code = some c) :
    (TeamsTable.mk (t.rows ++ [(t.nextId, row)]) (t.nextId + 1)).findByCode c =
      t.findByCode c := by
  unfold TeamsTable.findByCode
  rcases hf : List.find? (fun r => decide (r.2.team_code = some c)) t.rows with _ | r0
  · rw [find?_append_none hf]
    rw [List.find?_cons_of_neg _ (by simpa using hrow)]
    rw [hf]
    rfl
  · rw [hf]
    exact find?_append_some hf _

lemma findByName_append_pres {t : TeamsTable} {row : TeamRow} {n : String}
    (hrow : ¬row.full_name = some n) :
    (TeamsTable.mk (t.rows ++ [(t.nextId, row)]) (t.nextId + 1)).findByName n =
      t.findByName n := by
  unfold TeamsTable.findByName
  rcases hf : List.find? (fun r => decide (r.2.full_name = some n)) t.rows with _ | r0
  · rw [find?_append_none hf]
    rw [List.find?_cons_of_neg _ (by simpa using hrow)]
    rw [hf]
    rfl
  · rw [hf]
    exact find?_append_some hf _

lemma findByCode_exists_update_bca {t : TeamsTable} {c : String} {j : Nat}
    {ac : Option String} {a2 : Option Nat} {r : Nat × TeamRow}
    (h : t.findByCode c = some r) :
    ∃ r2, (t.updateRow j (backfillCodeArena ac a2)).findByCode c = some r2 := by
  have hmem : r ∈ t.rows := List.mem_of_find?_eq_some h
  have hcode : r.2.team_code = some c := findByCode_code h
  have hmem2 : (if r.1 = j then (r.1, backfillCodeArena ac a2 r.2) else r) ∈
      (t.updateRow j (backfillCodeArena ac a2)).rows :=
    List.mem_map.mpr ⟨r, hmem, rfl⟩
  have hpg : (fun x : Nat × TeamRow => decide (x.2.team_code = some c))
      (if r.1 = j then (r.1, backfillCodeArena ac a2 r.2) else r) = true := by
    by_cases hrj : r.1 = j
    · rw [if_pos hrj]
      simp [backfillCodeArena, hcode]
    · rw [if_neg hrj]
      simp [hcode]
  exact find?_exists_of_mem (fun x => decide (x.2.team_code = some c)) hmem2 hpg

lemma map_id_fst {j : Nat} {f : TeamRow → TeamRow} {r : Nat × TeamRow} :
    ∃ v, (some r).map
      (fun x : Nat × TeamRow => if x.1 = j then (x.1, f x.2) else x) =
        some (r.1, v) := by
  by_cases hrj : r.1 = j
  · exact ⟨f r.2, by simp [hrj]⟩
  · exact ⟨r.2, by simp [hrj]⟩


/-- The four possible effects of one team-processing run on the table:
no write, a name/arena backfill, a code/arena backfill, or an insert of
the identifying row. -/
lemma processTeamG_shapes {t : TeamsTable} {code name : Option String}
    {arenaId : Option Nat} {i : Option Nat} {t2 : TeamsTable}
    (h : processTeamG t code name arenaId = (i, t2)) :
    t2 = t ∨
    (∃ j, t2 = t.updateRow j (backfillNameArena name arenaId)) ∨
    (∃ j, t2 = t.updateRow j (backfillCodeArena code arenaId)) ∨
    t2 = TeamsTable.mk (t.rows ++ [(t.nextId, ⟨code, name, arenaId⟩)])
      (t.nextId + 1) := by
  rcases code with _ | c
  · rw [processTeamG_code_none] at h
    rcases name with _ | n
    · rw [teamNameStage_name_none, teamInsertStage_falsy (by decide)] at h
      injection h with h1 h2
      exact Or.inl h2.symm
    · by_cases hn : n = ""
      · subst hn
        rw [teamNameStage_name_blank, teamInsertStage_falsy (by decide)] at h
        injection h with h1 h2
        exact Or.inl h2.symm
      · rcases hfn : t.findByName n with _ | r
        · rw [teamNameStage_miss hn hfn,
            teamInsertStage_code_none (by simp [pyTruthy, hn])] at h
          injection h with h1 h2
          exact Or.inr (Or.inr (Or.inr h2.symm))
        · rw [teamNameStage_hit hn hfn] at h
          injection h with h1 h2
          exact Or.inr (Or.inr (Or.inl ⟨r.1, h2.symm⟩))
  · by_cases hc0 : c = ""
    · subst hc0
      rw [processTeamG_code_blank] at h
      rcases name with _ | n
      · rw [teamNameStage_name_none, teamInsertStage_falsy (by decide)] at h
        injection h with h1 h2
        exact Or.inl h2.symm
      · by_cases hn : n = ""
        · subst hn
          rw [teamNameStage_name_blank, teamInsertStage_falsy (by decide)] at h
          injection h with h1 h2
          exact Or.inl h2.symm
        · rcases hfn : t.findByName n with _ | r
          · rw [teamNameStage_miss hn hfn] at h
            rcases hfcb : t.findByCode "" with _ | rb
            · rw [teamInsertStage_insert hfcb (by simp [pyTruthy, hn])] at h
              injection h with h1 h2
              exact Or.inr (Or.inr (Or.inr h2.symm))
            · rw [teamInsertStage_conflict_blank hfcb (by simp [pyTruthy, hn])] at h
              injection h with h1 h2
              exact Or.inl h2.symm
          · rw [teamNameStage_hit hn hfn] at h
            injection h with h1 h2
            exact Or.inr (Or.inr (Or.inl ⟨r.1, h2.symm⟩))
    · have hc : c ≠ "" := hc0
      rcases hfc : t.findByCode c with _ | r
      · rw [processTeamG_code_miss hc hfc] at h
        rcases name with _ | n
        · rw [teamNameStage_name_none,
            teamInsertStage_insert hfc (by simp [pyTruthy, hc])] at h
          injection h with h1 h2
          exact Or.inr (Or.inr (Or.inr h2.symm))
        · by_cases hn : n = ""
          · subst hn
            rw [teamNameStage_name_blank,
              teamInsertStage_insert hfc (by simp [pyTruthy, hc])] at h
            injection h with h1 h2
            exact Or.inr (Or.inr (Or.inr h2.symm))
          · rcases hfn : t.findByName n with _ | r2
            · rw [teamNameStage_miss hn hfn,
                teamInsertStage_insert hfc (by simp [pyTruthy, hc])] at h
              injection h with h1 h2
              exact Or.inr (Or.inr (Or.inr h2.symm))
            · rw [teamNameStage_hit hn hfn] at h
              injection h with h1 h2
              exact Or.inr (Or.inr (Or.inl ⟨r2.1, h2.symm⟩))
      · rw [processTeamG_code_hit hc hfc] at h
        injection h with h1 h2
        exact Or.inr (Or.inl ⟨r.1, h2.symm⟩)


lemma stable_findByCode_some {t1 t2 : TeamsTable} {c : String}
    {acode aname : Option String} (hsh : awayShape t1 t2 acode aname)
    (hac : ¬acode = some c) {r : Nat × TeamRow}
    (h : t1.findByCode c = some r) :
    ∃ v, t2.findByCode c = some (r.1, v) := by
  rcases hsh with h0 | ⟨j, h0⟩ | ⟨j, h0⟩ | h0
  · subst h0
    exact ⟨r.2, h⟩
  · subst h0
    rw [findByCode_updateRow_bna_any, h]
    exact map_id_fst
  · subst h0
    rw [findByCode_updateRow_bca_ne hac, h]
    exact map_id_fst
  · subst h0
    rw [findByCode_append_pres hac, h]
    exact ⟨r.2, rfl⟩

lemma stable_findByCode_none {t1 t2 : TeamsTable} {c : String}
    {acode aname : Option String} (hsh : awayShape t1 t2 acode aname)
    (hac : ¬acode = some c) (h : t1.findByCode c = none) :
    t2.findByCode c = none := by
  rcases hsh with h0 | ⟨j, h0⟩ | ⟨j, h0⟩ | h0
  · subst h0
    exact h
  · subst h0
    rw [findByCode_updateRow_bna_any, h]
    rfl
  · subst h0
    rw [findByCode_updateRow_bca_ne hac, h]
    rfl
  · subst h0
    rw [findByCode_append_pres hac, h]

lemma stable_findByName_some {t1 t2 : TeamsTable} {n : String}
    {acode aname : Option String} (hsh : awayShape t1 t2 acode aname)
    (han : ¬aname = some n) {r : Nat × TeamRow}
    (h : t1.findByName n = some r) :
    ∃ v, t2.findByName n = some (r.1, v) := by
  rcases hsh with h0 | ⟨j, h0⟩ | ⟨j, h0⟩ | h0
  · subst h0
    exact ⟨r.2, h⟩
  · subst h0
    rw [findByName_updateRow_bna_ne han, h]
    exact map_id_fst
  · subst h0
    rw [findByName_updateRow_bca_any, h]
    exact map_id_fst
  · subst h0
    rw [findByName_append_pres han, h]
    exact ⟨r.2, rfl⟩

lemma stable_findByName_none {t1 t2 : TeamsTable} {n : String}
    {acode aname : Option String} (hsh : awayShape t1 t2 acode aname)
    (han : ¬aname = some n) (h : t1.findByName n = none) :
    t2.findByName n = none := by
  rcases hsh with h0 | ⟨j, h0⟩ | ⟨j, h0⟩ | h0
  · subst h0
    exact h
  · subst h0
    rw [findByName_updateRow_bna_ne han, h]
    rfl
  · subst h0
    rw [findByName_updateRow_bca_any, h]
    rfl
  · subst h0
    rw [findByName_append_pres han, h]

lemma stable_findByCode_blank_some {t1 t2 : TeamsTable}
    {acode aname : Option String} (hsh : awayShape t1 t2 acode aname)
    {r : Nat × TeamRow} (h : t1.findByCode "" = some r) :
    ∃ r2, t2.findByCode "" = some r2 := by
  rcases hsh with h0 | ⟨j, h0⟩ | ⟨j, h0⟩ | h0
  · subst h0
    exact ⟨r, h⟩
  · subst h0
    rw [findByCode_updateRow_bna_any, h]
    exact ⟨_, rfl⟩
  · subst h0
    exact findByCode_exists_update_bca h
  · subst h0
    exact ⟨r, find?_append_some h _⟩

lemma stable_fixedAt_bna {t1 t2 : TeamsTable} {i : Nat}
    {hn2 : Option String} {ha : Option Nat} {acode aname : Option String}
    (hsh : awayShape t1 t2 acode aname) (hi : i < t1.nextId)
    (hfix : fixedAt t1 i (backfillNameArena hn2 ha)) :
    fixedAt t2 i (backfillNameArena hn2 ha) := by
  rcases hsh with h0 | ⟨j, h0⟩ | ⟨j, h0⟩ | h0
  · subst h0
    exact hfix
  · subst h0
    exact fixedAt_updateRow hfix (fun x hx => bna_fix_bna hx)
  · subst h0
    exact fixedAt_updateRow hfix (fun x hx => bna_fix_bca hx)
  · subst h0
    exact fixedAt_append hfix hi

lemma stable_fixedAt_bca {t1 t2 : TeamsTable} {i : Nat}
    {hc2 : Option String} {ha : Option Nat} {acode aname : Option String}
    (hsh : awayShape t1 t2 acode aname) (hi : i < t1.nextId)
    (hfix : fixedAt t1 i (backfillCodeArena hc2 ha)) :
    fixedAt t2 i (backfillCodeArena hc2 ha) := by
  rcases hsh with h0 | ⟨j, h0⟩ | ⟨j, h0⟩ | h0
  · subst h0
    exact hfix
  · subst h0
    exact fixedAt_updateRow hfix (fun x hx => bca_fix_bna hx)
  · subst h0
    exact fixedAt_updateRow hfix (fun x hx => bca_fix_bca hx)
  · subst h0
    exact fixedAt_append hfix hi


/-- If a team run is a fixed point of the table and a second run with
identifiers disjoint from its own then modifies the table, the first
run remains a fixed point of the modified table with the same id. -/
lemma processTeamG_cross_stable {t1 t2 : TeamsTable}
    {hcode hname : Option String} {haId : Option Nat}
    {acode aname : Option String} {hi : Option Nat}
    (hwf1 : t1.wf)
    (hself : processTeamG t1 hcode hname haId = (hi, t1))
    (hsh : awayShape t1 t2 acode aname)
    (hcc : ∀ c : String, hcode = some c → c ≠ "" → ¬acode = some c)
    (hnn : ∀ n : String, hname = some n → n ≠ "" → ¬aname = some n) :
    processTeamG t2 hcode hname haId = (hi, t2) := by
  rcases hcode with _ | c
  · rw [processTeamG_code_none] at hself ⊢
    rcases hname with _ | n
    · rw [teamNameStage_name_none, teamInsertStage_falsy (by decide)] at hself ⊢
      injection hself with h1 h2
      subst h1
      rfl
    · by_cases hn : n = ""
      · subst hn
        rw [teamNameStage_name_blank, teamInsertStage_falsy (by decide)] at hself ⊢
        injection hself with h1 h2
        subst h1
        rfl
      · have hanne : ¬aname = some n := hnn n rfl hn
        rcases hfn : t1.findByName n with _ | r
        · rw [teamNameStage_miss hn hfn,
            teamInsertStage_code_none (by simp [pyTruthy, hn])] at hself
          injection hself with h1 h2
          exfalso
          have hnx := congrArg TeamsTable.nextId h2
          simp only at hnx
          omega
        · rw [teamNameStage_hit hn hfn] at hself
          injection hself with h1 h2
          subst h1
          have hfix : fixedAt t1 r.1 (backfillCodeArena none haId) :=
            fixedAt_of_updateRow_eq h2
          have hrlt : r.1 < t1.nextId := hwf1.2 r (findByName_mem hfn)
          obtain ⟨v, hfn2⟩ := stable_findByName_some hsh hanne hfn
          rw [teamNameStage_hit hn hfn2]
          refine Prod.ext rfl ?_
          exact updateRow_eq_of_fixedAt (stable_fixedAt_bca hsh hrlt hfix)
  · by_cases hc0 : c = ""
    · subst hc0
      rw [processTeamG_code_blank] at hself ⊢
      rcases hname with _ | n
      · rw [teamNameStage_name_none, teamInsertStage_falsy (by decide)] at hself ⊢
        injection hself with h1 h2
        subst h1
        rfl
      · by_cases hn : n = ""
        · subst hn
          rw [teamNameStage_name_blank,
            teamInsertStage_falsy (by decide)] at hself ⊢
          injection hself with h1 h2
          subst h1
          rfl
        · have hanne : ¬aname = some n := hnn n rfl hn
          rcases hfn : t1.findByName n with _ | r
          · rcases hfcb : t1.findByCode "" with _ | rb
            · rw [teamNameStage_miss hn hfn,
                teamInsertStage_insert hfcb (by simp [pyTruthy, hn])] at hself
              injection hself with h1 h2
              exfalso
              have hnx := congrArg TeamsTable.nextId h2
              simp only at hnx
              omega
            · rw [teamNameStage_miss hn hfn,
                teamInsertStage_conflict_blank hfcb
                  (by simp [pyTruthy, hn])] at hself
              injection hself with h1 h2
              subst h1
              obtain ⟨rb2, hfcb2⟩ := stable_findByCode_blank_some hsh hfcb
              rw [teamNameStage_miss hn (stable_findByName_none hsh hanne hfn),
                teamInsertStage_conflict_blank hfcb2 (by simp [pyTruthy, hn])]
          · rw [teamNameStage_hit hn hfn] at hself
            injection hself with h1 h2
            subst h1
            have hfix : fixedAt t1 r.1 (backfillCodeArena (some "") haId) :=
              fixedAt_of_updateRow_eq h2
            have hrlt : r.1 < t1.nextId := hwf1.2 r (findByName_mem hfn)
            obtain ⟨v, hfn2⟩ := stable_findByName_some hsh hanne hfn
            rw [teamNameStage_hit hn hfn2]
            refine Prod.ext rfl ?_
            exact updateRow_eq_of_fixedAt (stable_fixedAt_bca hsh hrlt hfix)
    · have hc : c ≠ "" := hc0
      have hacne : ¬acode = some c := hcc c rfl hc
      rcases hfc : t1.findByCode c with _ | r
      · rw [processTeamG_code_miss hc hfc] at hself
        rw [processTeamG_code_miss hc (stable_findByCode_none hsh hacne hfc)]
        rcases hname with _ | n
        · rw [teamNameStage_name_none,
            teamInsertStage_insert hfc (by simp [pyTruthy, hc])] at hself
          injection hself with h1 h2
          exfalso
          have hnx := congrArg TeamsTable.nextId h2
          simp only at hnx
          omega
        · by_cases hn : n = ""
          · subst hn
            rw [teamNameStage_name_blank,
              teamInsertStage_insert hfc (by simp [pyTruthy, hc])] at hself
            injection hself with h1 h2
            exfalso
            have hnx := congrArg TeamsTable.nextId h2
            simp only at hnx
            omega
          · have hanne : ¬aname = some n := hnn n rfl hn
            rcases hfn : t1.findByName n with _ | r2
            · rw [teamNameStage_miss hn hfn,
                teamInsertStage_insert hfc (by simp [pyTruthy, hc])] at hself
              injection hself with h1 h2
              exfalso
              have hnx := congrArg TeamsTable.nextId h2
              simp only at hnx
              omega
            · rw [teamNameStage_hit hn hfn] at hself
              injection hself with h1 h2
              subst h1
              have hfix : fixedAt t1 r2.1 (backfillCodeArena (some c) haId) :=
                fixedAt_of_updateRow_eq h2
              have hrlt : r2.1 < t1.nextId := hwf1.2 r2 (findByName_mem hfn)
              obtain ⟨v, hfn2⟩ := stable_findByName_some hsh hanne hfn
              rw [teamNameStage_hit hn hfn2]
              refine Prod.ext rfl ?_
              exact updateRow_eq_of_fixedAt (stable_fixedAt_bca hsh hrlt hfix)
      · rw [processTeamG_code_hit hc hfc] at hself
        injection hself with h1 h2
        subst h1
        have hfix : fixedAt t1 r.1 (backfillNameArena hname haId) :=
          fixedAt_of_updateRow_eq h2
        have hrlt : r.1 < t1.nextId := hwf1.2 r (List.mem_of_find?_eq_some hfc)
        obtain ⟨v, hfc2⟩ := stable_findByCode_some hsh hacne hfc
        rw [processTeamG_code_hit hc hfc2]
        refine Prod.ext rfl ?_
        exact updateRow_eq_of_fixedAt (stable_fixedAt_bna hsh hrlt hfix)


/-! ### Stagewise restatement of the loader -/

lemma processHomeTeam_eq (t : TeamsTable) (code name : Option String)
    (arenaId : Option Nat) :
    processHomeTeam t code name arenaId = processTeamG t code name arenaId := rfl

lemma processAwayTeam_eq (t : TeamsTable) (code name : Option String) :
    processAwayTeam t code name = processTeamG t code name none := by
  have h1 : backfillNameArena name none =
      (fun row => { row with full_name := row.full_name.orElse (fun _ => name) }) := by
    funext row
    simp [backfillNameArena, orElse_none_eq]
  have h2 : backfillCodeArena code none =
      (fun row => { row with team_code := row.team_code.orElse (fun _ => code) }) := by
    funext row
    simp [backfillCodeArena, orElse_none_eq]
  unfold processAwayTeam processTeamG teamNameStage teamInsertStage
  rw [h1, h2]

lemma upsertS_fst {κ α : Type} [DecidableEq κ] (solid : κ → Bool)
    (t : KTable κ α) (k : κ) (a : α) :
    (KTable.upsertS solid t k a).1 =
      match t.findKey solid k with
      | some r => r.1
      | none => t.nextId := by
  unfold KTable.upsertS
  rcases t.findKey solid k with _ | r <;> rfl

lemma matchPair_fst (d : Doc) (db : DB) (hsd asd : String) :
    (matchPairOf d db hsd asd).1 = matchIdOf d db := by
  unfold matchPairOf matchIdOf
  rw [upsertS_fst]
  rcases KTable.findKey matchSolid db.matchesTbl d.match_url with _ | r <;> rfl

lemma stagedStatRows_eq (d : Doc) (db : DB) (hsd asd : String) :
    stagedStatRows d db hsd asd = statRowsOf d db := by
  unfold stagedStatRows statRowsOf
  rw [matchPair_fst]

lemma stagedInfoKeys_eq (d : Doc) (db : DB) (hsd asd : String) :
    (stagedInfoRows d db hsd asd).map Prod.fst = infoKeysOf d db := by
  unfold stagedInfoRows infoKeysOf
  rw [matchPair_fst]

lemma stagedStatMap_eq (d : Doc) (db : DB) (hsd asd : String) :
    stagedStatMap d db hsd asd = statMapOf d db := by
  unfold stagedStatMap statMapOf stagedStatPair statIdsOf
  rw [stagedStatRows_eq]

lemma stagedCtx_eq (d : Doc) (db : DB) (hsd asd : String) :
    stagedCtx d db hsd asd = heatCtxOf d db := by
  unfold stagedCtx heatCtxOf
  rw [matchPair_fst, stagedStatMap_eq]

/-- `loadDocument` phrased through the stage projections. -/
lemma loadDocument_eq (d : Doc) (db : DB) :
    loadDocument d db =
      match d.home_score_details with
      | none =>
          Except.error ("AttributeError: home_score_details is None",
            dbResolved d db)
      | some hsd =>
          match d.away_score_details with
          | none =>
              Except.error ("AttributeError: away_score_details is None",
                dbResolved d db)
          | some asd =>
              loadHeats (stagedCtx d db hsd asd) ((d.match_details).getD []) 0
                (dbStaged d db hsd asd) := rfl


/-- C8 (amended): reloading an already-loaded document over the
committed store it produced leaves the store unchanged, provided every
upserted row carries its full natural key (match URL present, team ids
resolved for team-info and rider-stat rows) and the home and away team
identifiers are distinct. -/
theorem reload_overwrites_in_place (d : Doc) (db db1 : DB)
    (h : loadDocument d db = Except.ok db1)
    (hurl : (d.match_url).isSome = true)
    (hwfT : db.teams.wf) (hwfH : db.heats.wf)
    (hteamcode : pyTruthy d.away_team_details = true →
      d.home_team_details ≠ d.away_team_details)
    (hteamname : pyTruthy (d.team2.bind TeamBlock.team_name) = true →
      d.team1.bind TeamBlock.team_name ≠ d.team2.bind TeamBlock.team_name)
    (hinfoN : (infoKeysOf d db).Nodup)
    (hinfoS : ∀ k ∈ infoKeysOf d db, infoSolid k = true)
    (hstatN : ((statRowsOf d db).map Prod.fst).Nodup)
    (hstatS : ∀ k ∈ (statRowsOf d db).map Prod.fst, statSolid k = true)
    (hpart : ∀ h0 ∈ (d.match_details).getD [],
      (partStatIdsCtx (heatCtxOf d db) h0).Nodup) :
    loadDocument d db1 = Except.ok db1 := by
  rcases hhsd : d.home_score_details with _ | hsd
  · rw [loadDocument_eq, hhsd] at h
    simp at h
  · rcases hasd : d.away_score_details with _ | asd
    · rw [loadDocument_eq, hhsd, hasd] at h
      simp at h
    · have h2 : loadHeats (stagedCtx d db hsd asd) ((d.match_details).getD []) 0
          (dbStaged d db hsd asd) = Except.ok db1 := by
        rw [loadDocument_eq, hhsd, hasd] at h
        exact h
      obtain ⟨pA, pC, pR, pK, pRi, pT, pM, pI, pS⟩ :=
        loadHeats_preserves (stagedCtx d db hsd asd) h2
      have pA2 : db1.arenas = (get_or_create_id db.arenas d.arena).2 := pA
      have pC2 : db1.competitions =
          (get_or_create_id db.competitions d.competition).2 := pC
      have pR2 : db1.referees = (get_or_create_id db.referees d.referee).2 := pR
      have pK2 : db1.track_commissioners = (get_or_create_id
          db.track_commissioners d.track_commissioner).2 := pK
      have pRi2 : db1.riders = (resolveRiders (allRidersOf d) db.riders []).2 := pRi
      have pT2 : db1.teams = (awayPairOf d db).2 := pT
      have pM2 : db1.matchesTbl = (matchPairOf d db hsd asd).2 := pM
      have pI2 : db1.match_team_info = (stagedInfoPair d db hsd asd).2 := pI
      have pS2 : db1.match_rider_stats = (stagedStatPair d db hsd asd).2 := pS
      -- lookup replays
      have hE1 : get_or_create_id db1.arenas d.arena = (arenaIdOf d db, db1.arenas) := by
        rw [pA2]
        exact goc_replay (show get_or_create_id db.arenas d.arena =
          ((get_or_create_id db.arenas d.arena).1,
            (get_or_create_id db.arenas d.arena).2) from rfl)
      have hE2 : get_or_create_id db1.competitions d.competition =
          (competitionIdOf d db, db1.competitions) := by
        rw [pC2]
        exact goc_replay (show get_or_create_id db.competitions d.competition =
          ((get_or_create_id db.competitions d.competition).1,
            (get_or_create_id db.competitions d.competition).2) from rfl)
      have hE3 : get_or_create_id db1.referees d.referee =
          (refereeIdOf d db, db1.referees) := by
        rw [pR2]
        exact goc_replay (show get_or_create_id db.referees d.referee =
          ((get_or_create_id db.referees d.referee).1,
            (get_or_create_id db.referees d.referee).2) from rfl)
      have hE4 : get_or_create_id db1.track_commissioners d.track_commissioner =
          (commissionerIdOf d db, db1.track_commissioners) := by
        rw [pK2]
        exact goc_replay (show get_or_create_id db.track_commissioners
            d.track_commissioner =
          ((get_or_create_id db.track_commissioners d.track_commissioner).1,
            (get_or_create_id db.track_commissioners d.track_commissioner).2)
          from rfl)
      have hE5 : resolveRiders (allRidersOf d) db1.riders [] =
          (riderMapOf d db, db1.riders) := by
        rw [pRi2]
        exact resolveRiders_replay (show resolveRiders (allRidersOf d) db.riders [] =
          ((resolveRiders (allRidersOf d) db.riders []).1,
            (resolveRiders (allRidersOf d) db.riders []).2) from rfl)
      -- team replays
      have hHpair : processTeamG db.teams d.home_team_details
          (d.team1.bind TeamBlock.team_name) (arenaIdOf d db) =
          (homeIdOf d db, (homePairOf d db).2) := by
        rw [← processHomeTeam_eq]
        rfl
      have hwf1 : ((homePairOf d db).2).wf := by
        have h0 : ((processTeamG db.teams d.home_team_details
            (d.team1.bind TeamBlock.team_name) (arenaIdOf d db)).2).wf :=
          processTeamG_wf hwfT
        rw [hHpair] at h0
        exact h0
      have hself1 : processTeamG (homePairOf d db).2 d.home_team_details
          (d.team1.bind TeamBlock.team_name) (arenaIdOf d db) =
          (homeIdOf d db, (homePairOf d db).2) :=
        processTeamG_replay hwfT hHpair
      have hApair : processTeamG (homePairOf d db).2 d.away_team_details
          (d.team2.bind TeamBlock.team_name) none =
          (awayIdOf d db, (awayPairOf d db).2) := by
        rw [← processAwayTeam_eq]
        rfl
      have hsh : awayShape (homePairOf d db).2 (awayPairOf d db).2
          d.away_team_details (d.team2.bind TeamBlock.team_name) :=
        processTeamG_shapes hApair
      have hcc : ∀ c : String, d.home_team_details = some c → c ≠ "" →
          ¬d.away_team_details = some c := by
        intro c hc hcne hac
        have ht : pyTruthy d.away_team_details = true := by
          rw [hac]
          simp [pyTruthy, hcne]
        exact (hteamcode ht) (hc.trans hac.symm)
      have hnn : ∀ n : String, d.team1.bind TeamBlock.team_name = some n →
          n ≠ "" → ¬d.team2.bind TeamBlock.team_name = some n := by
        intro n hn2 hnne han
        have ht : pyTruthy (d.team2.bind TeamBlock.team_name) = true := by
          rw [han]
          simp [pyTruthy, hnne]
        exact (hteamname ht) (hn2.trans han.symm)
      have hcross : processTeamG (awayPairOf d db).2 d.home_team_details
          (d.team1.bind TeamBlock.team_name) (arenaIdOf d db) =
          (homeIdOf d db, (awayPairOf d db).2) :=
        processTeamG_cross_stable hwf1 hself1 hsh hcc hnn
      have hAreplay : processTeamG (awayPairOf d db).2 d.away_team_details
          (d.team2.bind TeamBlock.team_name) none =
          (awayIdOf d db, (awayPairOf d db).2) :=
        processTeamG_replay hwf1 hApair
      have hE6h : processHomeTeam db1.teams d.home_team_details
          (d.team1.bind TeamBlock.team_name) (arenaIdOf d db) =
          (homeIdOf d db, db1.teams) := by
        rw [pT2, processHomeTeam_eq]
        exact hcross
      have hE6a : processAwayTeam db1.teams d.away_team_details
          (d.team2.bind TeamBlock.team_name) = (awayIdOf d db, db1.teams) := by
        rw [pT2, processAwayTeam_eq]
        exact hAreplay
      -- match replay
      have hmrep : KTable.upsertS matchSolid (matchPairOf d db hsd asd).2
          d.match_url (matchValueOf d (competitionIdOf d db) (refereeIdOf d db)
            (commissionerIdOf d db) (arenaIdOf d db) (homeIdOf d db)
            (awayIdOf d db) (if pyIsdigit hsd then natOfDigits hsd else 0)
            (if pyIsdigit asd then natOfDigits asd else 0)) =
          ((matchPairOf d db hsd asd).1, (matchPairOf d db hsd asd).2) :=
        upsertS_replay hurl (show KTable.upsertS matchSolid db.matchesTbl
          d.match_url _ = ((matchPairOf d db hsd asd).1,
            (matchPairOf d db hsd asd).2) from rfl)
      -- info replay
      have hinfoS2 : ∀ k ∈ (stagedInfoRows d db hsd asd).map Prod.fst,
          infoSolid k = true := by
        rw [stagedInfoKeys_eq]
        exact hinfoS
      have hinfoN2 : ((stagedInfoRows d db hsd asd).map Prod.fst).Nodup := by
        rw [stagedInfoKeys_eq]
        exact hinfoN
      have hirep : KTable.upsertMany infoSolid (stagedInfoPair d db hsd asd).2
          (stagedInfoRows d db hsd asd) =
          ((stagedInfoPair d db hsd asd).1, (stagedInfoPair d db hsd asd).2) :=
        upsertMany_replay hinfoS2 hinfoN2 (show KTable.upsertMany infoSolid
          db.match_team_info (stagedInfoRows d db hsd asd) =
          ((stagedInfoPair d db hsd asd).1, (stagedInfoPair d db hsd asd).2)
          from rfl)
      -- stats replay
      have hstatS2 : ∀ k ∈ (stagedStatRows d db hsd asd).map Prod.fst,
          statSolid k = true := by
        rw [stagedStatRows_eq]
        exact hstatS
      have hstatN2 : ((stagedStatRows d db hsd asd).map Prod.fst).Nodup := by
        rw [stagedStatRows_eq]
        exact hstatN
      have hsrep : KTable.upsertMany statSolid (stagedStatPair d db hsd asd).2
          (stagedStatRows d db hsd asd) =
          ((stagedStatPair d db hsd asd).1, (stagedStatPair d db hsd asd).2) :=
        upsertMany_replay hstatS2 hstatN2 (show KTable.upsertMany statSolid
          db.match_rider_stats (stagedStatRows d db hsd asd) =
          ((stagedStatPair d db hsd asd).1, (stagedStatPair d db hsd asd).2)
          from rfl)
      -- projections of the second run collapse to those of the first
      have g1 : arenaIdOf d db1 = arenaIdOf d db := by
        unfold arenaIdOf
        rw [hE1]
        rfl
      have g2 : competitionIdOf d db1 = competitionIdOf d db := by
        unfold competitionIdOf
        rw [hE2]
        rfl
      have g3 : refereeIdOf d db1 = refereeIdOf d db := by
        unfold refereeIdOf
        rw [hE3]
        rfl
      have g4 : commissionerIdOf d db1 = commissionerIdOf d db := by
        unfold commissionerIdOf
        rw [hE4]
        rfl
      have g5 : riderMapOf d db1 = riderMapOf d db := by
        unfold riderMapOf
        rw [hE5]
        rfl
      have g6 : homePairOf d db1 = (homeIdOf d db, db1.teams) := by
        unfold homePairOf
        rw [g1]
        exact hE6h
      have g6i : homeIdOf d db1 = homeIdOf d db := by
        unfold homeIdOf
        rw [g6]
        rfl
      have g7 : awayPairOf d db1 = (awayIdOf d db, db1.teams) := by
        unfold awayPairOf
        rw [g6]
        exact hE6a
      have g7i : awayIdOf d db1 = awayIdOf d db := by
        unfold awayIdOf
        rw [g7]
        rfl
      have g8 : matchPairOf d db1 hsd asd =
          ((matchPairOf d db hsd asd).1, db1.matchesTbl) := by
        unfold matchPairOf
        rw [g1, g2, g3, g4, g6i, g7i, pM2]
        exact hmrep
      have g8i : (matchPairOf d db1 hsd asd).1 = (matchPairOf d db hsd asd).1 := by
        rw [g8]
      have g9 : stagedInfoRows d db1 hsd asd = stagedInfoRows d db hsd asd := by
        unfold stagedInfoRows
        rw [g8i, g6i, g7i]
      have g10 : stagedInfoPair d db1 hsd asd =
          ((stagedInfoPair d db hsd asd).1, db1.match_team_info) := by
        unfold stagedInfoPair
        rw [g9, pI2]
        exact hirep
      have g12 : stagedStatRows d db1 hsd asd = stagedStatRows d db hsd asd := by
        unfold stagedStatRows
        rw [g8i, g6i, g7i, g5]
      have g13 : stagedStatPair d db1 hsd asd =
          ((stagedStatPair d db hsd asd).1, db1.match_rider_stats) := by
        unfold stagedStatPair
        rw [g12, pS2]
        exact hsrep
      have g14 : stagedStatMap d db1 hsd asd = stagedStatMap d db hsd asd := by
        unfold stagedStatMap
        rw [g12, g13]
      have g15 : stagedCtx d db1 hsd asd = stagedCtx d db hsd asd := by
        unfold stagedCtx
        rw [g8i, g5, g14]
      have g16 : dbResolved d db1 = db1 := by
        unfold dbResolved
        rw [hE1, hE2, hE3, hE4, g7, hE5]
      have g17 : dbStaged d db1 hsd asd = db1 := by
        unfold dbStaged
        rw [g16, g8, g10, g13]
      -- replay the heats loop on the committed store
      have hwfH4 : (dbStaged d db hsd asd).heats.wf := hwfH
      have hnd : ∀ h0 ∈ (d.match_details).getD [],
          (partStatIdsCtx (stagedCtx d db hsd asd) h0).Nodup := by
        rw [stagedCtx_eq]
        exact hpart
      have hfin : loadHeats (stagedCtx d db hsd asd) ((d.match_details).getD [])
          0 db1 = Except.ok db1 :=
        loadHeats_replay (stagedCtx d db hsd asd) h2 hwfH4 hnd
      rw [loadDocument_eq, hhsd, hasd]
      show loadHeats (stagedCtx d db1 hsd asd) ((d.match_details).getD []) 0
        (dbStaged d db1 hsd asd) = Except.ok db1
      rw [g15, g17]
      exact hfin


/-- Witness: the example document reloads onto its own committed store
without change. -/
theorem reload_overwrites_in_place_witness :
    loadDocument exDoc exDocLoaded = Except.ok exDocLoaded :=
  reload_overwrites_in_place exDoc DB.mkEmpty exDocLoaded rfl rfl
    ⟨by decide, by decide⟩ ⟨by decide, by decide⟩
    (by decide) (by decide) (by decide) (by decide) (by decide) (by decide)
    (by decide)

end Clutchlaps
